import Mathlib

/-!
# Frame sampling and analysis orchestration

A shallow embedding of `src/utils/extractFrames.js`, `src/services/api.js`, the state
logic of `src/screens/CoachScreen.js`, and the handlers `handleSubmit` of
`AuthScreen.js` and `handleVerify` of `SettingsScreen.js` and the chart scale of
`ProgressScreen.js`.

Conventions of the embedding.

* A JavaScript `number` is an exact rational (`ℚ`); `Math.floor` is `Int.floor`.
  `frameCount` is a natural number (the only call site passes the literal `4`).
  Where the value of a timestamp is at stake, the double-precision evaluation of line 87
  is modelled separately (`toDouble`, `extractFramesNativeDouble`).
* An `await`ed call that may reject returns `Except String _`, the string being the
  `message` of the thrown `Error`.
* External capabilities (thumbnail generation, file system, the video element, `fetch`)
  are fields of an environment record; those called in a loop thread an explicit world
  state `W`, so their outcome may differ from one call to the next.
* Every awaited promise of an external capability settles. Events of the video element
  may fail to fire, and a promise that waits for them is then `none`.
* Each handler is run to completion from the state it starts in; no other handler
  interleaves with it.
-/

set_option autoImplicit false

namespace Sampler

/-! ## `extractFrames.js` : the ratio loops -/

/-- Lines 82-84 of `extractFramesNative`:
`for (let i = 1; i <= frameCount; i++) ratios.push(i / (frameCount + 1))`,
entered at loop counter `i` with the array `ratios` built so far. -/
def nativeRatiosLoop (frameCount : ℕ) (i : ℕ) (ratios : List ℚ) : List ℚ :=
  if i ≤ frameCount then
    nativeRatiosLoop frameCount (i + 1) (ratios ++ [(i : ℚ) / ((frameCount : ℚ) + 1)])
  else ratios
termination_by frameCount + 1 - i

/-- Lines 81-84: `const ratios = []` followed by the loop from `i = 1`. -/
def nativeRatios (frameCount : ℕ) : List ℚ :=
  nativeRatiosLoop frameCount 1 []

/-- Lines 39-41 of `extractFramesWeb`: the same loop, written a second time in the
`loadedmetadata` handler. -/
def webRatiosLoop (frameCount : ℕ) (i : ℕ) (ratios : List ℚ) : List ℚ :=
  if i ≤ frameCount then
    webRatiosLoop frameCount (i + 1) (ratios ++ [(i : ℚ) / ((frameCount : ℚ) + 1)])
  else ratios
termination_by frameCount + 1 - i

/-- Lines 38-41: `const ratios = []` followed by the loop from `i = 1`. -/
def webRatios (frameCount : ℕ) : List ℚ :=
  webRatiosLoop frameCount 1 []

/-! ## `extractFrames.js` : the native path -/

/-- The two modules bound by the dynamic imports on lines 77-78, restricted to the three
functions the loop calls. Each takes the world before the call and returns the settled
promise (`Except.error msg` for a rejection with `err.message = msg`) with the world
after it. -/
structure NativeEnv (W : Type) where
  /-- The call `VideoThumbnails.getThumbnailAsync(videoUri, { time, quality: 0.7 })`, resolving to
  the `uri` of the temporary thumbnail file. -/
  getThumbnailAsync : String → ℤ → W → Except String String × W
  /-- The call `FileSystem.readAsStringAsync(uri, { encoding: Base64 })`. -/
  readAsStringAsync : String → W → Except String String × W
  /-- The call `FileSystem.deleteAsync(uri, { idempotent: true })`. -/
  deleteAsync : String → W → Except String Unit × W

/-- Record of one pass through the body of the `for (const ratio of ratios)` loop: the
loop variable, the timestamp computed from it, and the settled result of each external
call that was reached (`none` when the call was not reached). -/
structure Attempt where
  ratio : ℚ
  timeMs : ℤ
  thumbnail : Except String String
  encoded : Option (Except String String)
  deleted : Option (Except String Unit)
  /-- The message passed to `console.warn` by the `catch` clause, if it ran. -/
  warned : Option String

/-- Local state of `extractFramesNative` while the loop runs: the array `frames`, the
world, and the record of the passes made so far. -/
structure NativeRun (W : Type) where
  frames : List String
  world : W
  log : List Attempt

/-- Lines 87-102: one pass of the loop body, with numbers read as exact rationals:
`timeMs = Math.floor(duration * ratio)` is the floor of the exact product (the value the
engine computes in double precision is modelled by `nativeBodyDouble` below).
Inside `try`, the thumbnail is generated, read as base64, pushed onto `frames` and then
deleted; a rejection of any of the three calls jumps to `catch`, which only warns. -/
def nativeBody {W : Type} (env : NativeEnv W) (videoUri : String) (duration : ℚ)
    (st : NativeRun W) (ratio : ℚ) : NativeRun W :=
  let timeMs : ℤ := Int.floor (duration * ratio)
  match env.getThumbnailAsync videoUri timeMs st.world with
  | (Except.error err, w1) =>
    { frames := st.frames, world := w1,
      log := st.log ++ [⟨ratio, timeMs, Except.error err, none, none, some err⟩] }
  | (Except.ok uri, w1) =>
    match env.readAsStringAsync uri w1 with
    | (Except.error err, w2) =>
      { frames := st.frames, world := w2,
        log := st.log ++ [⟨ratio, timeMs, Except.ok uri, some (Except.error err), none, some err⟩] }
    | (Except.ok base64, w2) =>
      match env.deleteAsync uri w2 with
      | (Except.error err, w3) =>
        { frames := st.frames ++ [base64], world := w3,
          log := st.log ++ [⟨ratio, timeMs, Except.ok uri, some (Except.ok base64),
                             some (Except.error err), some err⟩] }
      | (Except.ok u, w3) =>
        { frames := st.frames ++ [base64], world := w3,
          log := st.log ++ [⟨ratio, timeMs, Except.ok uri, some (Except.ok base64),
                             some (Except.ok u), none⟩] }

/-- Lines 76-106. `frames = []`, the ratio loop, the capture loop over `ratios` in array
order, then `return frames`. The first component is the settled promise; the second is
the final local state (frames, world, record of passes). -/
def extractFramesNative {W : Type} (env : NativeEnv W) (videoUri : String) (duration : ℚ)
    (frameCount : ℕ) (w : W) : Except String (List String) × NativeRun W :=
  let ratios := nativeRatios frameCount
  let st := ratios.foldl (nativeBody env videoUri duration) ⟨[], w, []⟩
  (Except.ok st.frames, st)

/-! ## `extractFrames.js` : the native path in double precision

The engine holds every `number` as an IEEE 754 binary64 value. The loop counter `i` and
`frameCount + 1` are integers and exact, so the element pushed on line 83 is the double
nearest to `i / (frameCount + 1)`, and line 87 rounds the product of `duration` and that
double once more before `Math.floor`. -/

/-- Rounding of a non-negative rational to the nearest integer, ties to the even one. -/
def roundHalfEven (m : ℚ) : ℤ :=
  if m - (Int.floor m : ℚ) < 1 / 2 then Int.floor m
  else if 1 / 2 < m - (Int.floor m : ℚ) then Int.floor m + 1
  else if Int.floor m % 2 = 0 then Int.floor m
  else Int.floor m + 1

/-- The binary64 value nearest to `x` (round to nearest, ties to even), for `x` in the
normal range: with `2 ^ e ≤ |x| < 2 ^ (e + 1)` the spacing of the doubles around `x` is
`2 ^ (e - 52)`, and `|x|` is rounded to a multiple of it. -/
def toDouble (x : ℚ) : ℚ :=
  if x = 0 then 0
  else
    (if 0 < x then 1 else -1)
      * ((roundHalfEven (|x| / (2 : ℚ) ^ (Int.log 2 |x| - 52)) : ℤ) : ℚ)
      * (2 : ℚ) ^ (Int.log 2 |x| - 52)

/-- Line 87 as the engine evaluates it: `ratio` is the double stored in the array, the
product `duration * ratio` is rounded to a double, and `Math.floor` is exact. -/
def timeMsDouble (duration ratio : ℚ) : ℤ :=
  Int.floor (toDouble (duration * toDouble ratio))

/-- Lines 87-102 with `timeMs` computed in double precision; the rest of the pass is as
in `nativeBody`. The record keeps the exact ratio `i / (frameCount + 1)` the double
stands for. -/
def nativeBodyDouble {W : Type} (env : NativeEnv W) (videoUri : String) (duration : ℚ)
    (st : NativeRun W) (ratio : ℚ) : NativeRun W :=
  let timeMs : ℤ := timeMsDouble duration ratio
  match env.getThumbnailAsync videoUri timeMs st.world with
  | (Except.error err, w1) =>
    { frames := st.frames, world := w1,
      log := st.log ++ [⟨ratio, timeMs, Except.error err, none, none, some err⟩] }
  | (Except.ok uri, w1) =>
    match env.readAsStringAsync uri w1 with
    | (Except.error err, w2) =>
      { frames := st.frames, world := w2,
        log := st.log ++ [⟨ratio, timeMs, Except.ok uri, some (Except.error err), none, some err⟩] }
    | (Except.ok base64, w2) =>
      match env.deleteAsync uri w2 with
      | (Except.error err, w3) =>
        { frames := st.frames ++ [base64], world := w3,
          log := st.log ++ [⟨ratio, timeMs, Except.ok uri, some (Except.ok base64),
                             some (Except.error err), some err⟩] }
      | (Except.ok u, w3) =>
        { frames := st.frames ++ [base64], world := w3,
          log := st.log ++ [⟨ratio, timeMs, Except.ok uri, some (Except.ok base64),
                             some (Except.ok u), none⟩] }

/-- Lines 76-106 in double precision: as `extractFramesNative`, with each pass made by
`nativeBodyDouble`. -/
def extractFramesNativeDouble {W : Type} (env : NativeEnv W) (videoUri : String)
    (duration : ℚ) (frameCount : ℕ) (w : W) : Except String (List String) × NativeRun W :=
  let ratios := nativeRatios frameCount
  let st := ratios.foldl (nativeBodyDouble env videoUri duration) ⟨[], w, []⟩
  (Except.ok st.frames, st)

/-! ## `extractFrames.js` : the web path -/

/-- What the `<video>` element does after `video.load()` (line 52). -/
inductive LoadEvent where
  /-- The event `loadedmetadata` fires; the argument is `video.duration`, in seconds. -/
  | loadedmetadata (duration : ℚ)
  /-- The `error` event fires. -/
  | error
  /-- Neither event fires. -/
  | pending

/-- What the element does after `video.currentTime = timeSec` (line 58). -/
inductive SeekEvent where
  /-- The event `seeked` fires; the argument is the outcome of the `try` block on lines 62-65:
  the base64 payload of `canvas.toDataURL`, or the message of the exception thrown. -/
  | seeked (draw : Except String String)
  /-- The `error` event fires instead, so the listener of line 51 runs. -/
  | error
  /-- Neither event fires. -/
  | pending

/-- The video element and canvas of the browser. -/
structure WebEnv (W : Type) where
  load : String → W → LoadEvent × W
  seek : ℚ → W → SeekEvent × W

/-- Local state of `extractFramesWeb`: the array `frames`, the world, and the values
assigned to `video.currentTime` so far. -/
structure WebRun (W : Type) where
  frames : List String
  world : W
  seeks : List ℚ

/-- How the wait started by one `seekAndCapture` call ends, with the local state then. -/
inductive SeekOutcome (W : Type) where
  /-- The promise returned by `seekAndCapture` resolved. -/
  | resolved (st : WebRun W)
  /-- The `error` listener of line 51 ran, settling the outer promise with `[]`. -/
  | failed (st : WebRun W)
  /-- Nothing fired: the `await` never returns. -/
  | stalled (st : WebRun W)

/-- Lines 56-72: set `video.currentTime`, and on `seeked` draw the frame and push its
base64 payload onto `frames`; an exception of the drawing is caught and only warned
about, and the promise resolves either way. -/
def seekAndCapture {W : Type} (env : WebEnv W) (timeSec : ℚ) (st : WebRun W) :
    SeekOutcome W :=
  match env.seek timeSec st.world with
  | (SeekEvent.seeked (Except.ok base64), w1) =>
    SeekOutcome.resolved
      { frames := st.frames ++ [base64], world := w1, seeks := st.seeks ++ [timeSec] }
  | (SeekEvent.seeked (Except.error _), w1) =>
    SeekOutcome.resolved { frames := st.frames, world := w1, seeks := st.seeks ++ [timeSec] }
  | (SeekEvent.error, w1) =>
    SeekOutcome.failed { frames := st.frames, world := w1, seeks := st.seeks ++ [timeSec] }
  | (SeekEvent.pending, w1) =>
    SeekOutcome.stalled { frames := st.frames, world := w1, seeks := st.seeks ++ [timeSec] }

/-- Lines 43-48: for each ratio in array order, await `seekAndCapture` at
`(videoDuration * ratio) / 1000` seconds; after the last one `resolve(frames)`. The
first component is the value the outer promise settles with, `none` when it never
settles. -/
def webLoop {W : Type} (env : WebEnv W) (videoDuration : ℚ) :
    List ℚ → WebRun W → Option (List String) × WebRun W
  | [], st => (some st.frames, st)
  | ratio :: rest, st =>
    let timeSec : ℚ := (videoDuration * ratio) / 1000
    match seekAndCapture env timeSec st with
    | SeekOutcome.resolved st1 => webLoop env videoDuration rest st1
    | SeekOutcome.failed st1 => (some [], st1)
    | SeekOutcome.stalled st1 => (none, st1)

/-- Lines 22-54. The argument `duration` is accepted and not read: the handler uses
`video.duration * 1000`. -/
def extractFramesWeb {W : Type} (env : WebEnv W) (videoUri : String) (_duration : ℚ)
    (frameCount : ℕ) (w : W) : Option (List String) × WebRun W :=
  match env.load videoUri w with
  | (LoadEvent.loadedmetadata d, w1) =>
    let videoDuration : ℚ := d * 1000
    let ratios := webRatios frameCount
    webLoop env videoDuration ratios ⟨[], w1, []⟩
  | (LoadEvent.error, w1) => (some [], ⟨[], w1, []⟩)
  | (LoadEvent.pending, w1) => (none, ⟨[], w1, []⟩)

end Sampler


namespace Api

/-! ## JavaScript values -/

/-- A value produced by `JSON.parse`. An object is the list of its own properties. -/
inductive Json where
  | null
  | bool (b : Bool)
  | num (n : ℚ)
  | str (s : String)
  | arr (items : List Json)
  | obj (props : List (String × Json))

/-- A JavaScript value as far as the code distinguishes them: `undefined`, or a JSON
value (`null` included). -/
inductive JsVal where
  | undefined
  | json (j : Json)

/-- JavaScript `null`. -/
def JsVal.null : JsVal := JsVal.json Json.null

/-- Truthiness, as tested by `||` and `&&`. -/
def JsVal.truthy : JsVal → Bool
  | JsVal.undefined => false
  | JsVal.json Json.null => false
  | JsVal.json (Json.bool b) => b
  | JsVal.json (Json.num n) => decide (n ≠ 0)
  | JsVal.json (Json.str s) => decide (s ≠ "")
  | JsVal.json (Json.arr _) => true
  | JsVal.json (Json.obj _) => true

/-- The parts of the JavaScript runtime the code relies on and the repository does not
define. -/
structure Runtime where
  /-- The `message` of the `TypeError` thrown by reading property `k` of `null`. -/
  typeErrorMessage : String → String
  /-- The conversion `String(v)` for a JSON value that is not a string. -/
  stringOf : Json → String
  /-- The built-in `JSON.stringify`. -/
  stringify : Json → String

/-- Property read `v.k` for a key that no prototype defines (`message`, `analysis`):
throws a `TypeError` on `null`, is the own property of an object when present, and
`undefined` otherwise. -/
def Json.getProp (rt : Runtime) (v : Json) (k : String) : Except String JsVal :=
  match v with
  | Json.null => Except.error (rt.typeErrorMessage k)
  | Json.obj props =>
    match props.lookup k with
    | some x => Except.ok (JsVal.json x)
    | none => Except.ok JsVal.undefined
  | _ => Except.ok JsVal.undefined

/-- The `message` of `new Error(v)`. -/
def errorMessageOf (rt : Runtime) : JsVal → String
  | JsVal.undefined => ""
  | JsVal.json (Json.str s) => s
  | JsVal.json j => rt.stringOf j

/-! ## `api.js` -/

/-- A `fetch` response: the HTTP status and the settled `res.json()` (a rejection when
the body is not JSON). -/
structure Response where
  status : ℕ
  json : Except String Json

/-- The getter `res.ok` of the Fetch standard: the status is in the range 200-299. -/
def Response.ok (res : Response) : Bool :=
  decide (200 ≤ res.status ∧ res.status ≤ 299)

/-- Lines 16-20 of `api.js`:
`data = await res.json(); if (!res.ok) throw new Error(data.message || fallback); return data`. -/
def handleResponse (rt : Runtime) (res : Response) : Except String Json :=
  match res.json with
  | Except.error e => Except.error e
  | Except.ok data =>
    if !res.ok then
      match data.getProp rt "message" with
      | Except.error e => Except.error e
      | Except.ok m =>
        if m.truthy then Except.error (errorMessageOf rt m)
        else Except.error ("Errore server (" ++ toString res.status ++ ")")
    else Except.ok data

/-- The request handed to `fetch`; `form` lists the `FormData` entries in append order. -/
structure Request where
  url : String
  method : String
  headers : List (String × String)
  form : List (String × String)

/-- What `api.js` reads from outside the repository. -/
structure ApiEnv where
  /-- The constant `BASE_URL` (line 3). -/
  baseUrl : String
  /-- The stored token, `AsyncStorage.getItem('token')`. -/
  token : Option String
  /-- The global `fetch`; a rejection is a transport error. -/
  fetch : Request → Except String Response

/-- Lines 11-14: `token ? { 'x-auth-token': token } : {}`. -/
def authHeaders (api : ApiEnv) : List (String × String) :=
  match api.token with
  | some token => if token ≠ "" then [("x-auth-token", token)] else []
  | none => []

/-- Lines 48-62 of `api.js`. -/
def analyzeFrames (rt : Runtime) (api : ApiEnv) (framesBase64 : List String)
    (spotName lang : String) : Except String Json :=
  let headers := authHeaders api
  let formData := [("frames", rt.stringify (Json.arr (framesBase64.map Json.str)))]
  let formData := if spotName ≠ "" then formData ++ [("spot", spotName)] else formData
  let formData := formData ++ [("lang", lang)]
  match api.fetch
      { url := api.baseUrl ++ "/api/coach/analyze", method := "POST",
        headers := headers, form := formData } with
  | Except.error e => Except.error e
  | Except.ok res => handleResponse rt res

/-- Line 48, the parameter list `(framesBase64 = [], spotName = '', lang = 'it')`: an
argument that is omitted (`none`) takes its default before the body runs. -/
def analyzeFramesWithDefaults (rt : Runtime) (api : ApiEnv)
    (framesBase64 : Option (List String)) (spotName lang : Option String) :
    Except String Json :=
  analyzeFrames rt api (framesBase64.getD []) (spotName.getD "") (lang.getD "it")

end Api

namespace CoachScreen

open Api

/-! ## `CoachScreen.js` -/

/-- Lines 13-18. -/
def STEPS : List String :=
  [ "Estrazione frame video...",
    "Rilevamento postura e stance...",
    "Analisi con Kai AI (Claude)...",
    "Generazione feedback tecnico..." ]

/-- The fields of the `user` prop the screen reads; `none` is an absent field. -/
structure User where
  tier : Option String
  remainingAnalysis : Option ℤ

/-- The props of `CoachScreen`. `user` may be null; `onUpgrade` records whether a
callback was passed. -/
structure Props where
  user : Option User
  onUpgrade : Bool

/-- Line 21: `user?.tier === 'premium'`. -/
def Props.isPremium (p : Props) : Bool :=
  match p.user with
  | some u => decide (u.tier = some "premium")
  | none => false

/-- Line 22: `user?.remainingAnalysis ?? 1`. -/
def Props.remaining (p : Props) : ℤ :=
  match p.user with
  | some u =>
    match u.remainingAnalysis with
    | some n => n
    | none => 1
  | none => 1

/-- The fields of a picked asset the analysis reads; `duration` is in milliseconds and
`none` when the picker did not report it. -/
structure VideoAsset where
  uri : String
  duration : Option ℚ

/-- The five `useState` cells (lines 24-28). -/
structure ScreenState where
  videoAsset : Option VideoAsset
  analyzing : Bool
  activeStep : ℕ
  result : JsVal
  error : Option String

/-- The initial values of the five cells. -/
def ScreenState.initial : ScreenState :=
  { videoAsset := none, analyzing := false, activeStep := 0, result := JsVal.null,
    error := none }

/-- What a handler does besides returning: state setters, collaborator calls, timers. -/
inductive Effect where
  | alert (title message : String)
  | onUpgrade
  | setVideoAsset (v : Option VideoAsset)
  | setAnalyzing (b : Bool)
  | setResult (r : JsVal)
  | setError (e : Option String)
  | setActiveStep (k : ℕ)
  | extractFrames (videoUri : String) (duration : ℚ) (frameCount : ℕ)
  | setTimeout (ms : ℕ)
  | analyzeFrames (frames : List String) (spotName lang : String)

/-- The two imported functions `handleAnalysis` awaits (lines 10-11), as settled
promises. -/
structure Collaborators where
  extractFrames : String → ℚ → ℕ → Except String (List String)
  analyzeFrames : List String → String → String → Except String Json

/-- Line 65: `videoAsset.duration || 10000`; an absent or zero duration is falsy. -/
def analysisDuration (videoAsset : VideoAsset) : ℚ :=
  match videoAsset.duration with
  | some d => if d ≠ 0 then d else 10000
  | none => 10000

/-- Lines 63-83, the `try` block. Returns the message of the error thrown (`none` when
the block completes), the state and the effects so far. -/
def handleAnalysisTry (rt : Runtime) (c : Collaborators) (videoAsset : VideoAsset)
    (s : ScreenState) : Option String × ScreenState × List Effect :=
  let s0 := { s with activeStep := 0 }
  let duration : ℚ := analysisDuration videoAsset
  let log0 := [Effect.setActiveStep 0, Effect.extractFrames videoAsset.uri duration 4]
  match c.extractFrames videoAsset.uri duration 4 with
  | Except.error msg => (some msg, s0, log0)
  | Except.ok frames =>
    if frames.length = 0 then
      (some "Impossibile estrarre frame dal video. Prova con un video MP4 diverso.", s0, log0)
    else
      let s2 := { s0 with activeStep := 2 }
      let log2 := log0 ++ [Effect.setActiveStep 1, Effect.setTimeout 900,
        Effect.setActiveStep 2, Effect.analyzeFrames frames "" "it"]
      match c.analyzeFrames frames "" "it" with
      | Except.error msg => (some msg, s2, log2)
      | Except.ok data =>
        let s3 := { s2 with activeStep := 3 }
        let log3 := log2 ++ [Effect.setActiveStep 3, Effect.setTimeout 600]
        match data.getProp rt "analysis" with
        | Except.error msg => (some msg, s3, log3)
        | Except.ok analysis =>
          (none, { s3 with result := analysis }, log3 ++ [Effect.setResult analysis])

/-- Lines 50-89. -/
def handleAnalysis (rt : Runtime) (p : Props) (c : Collaborators) (s : ScreenState) :
    ScreenState × List Effect :=
  match s.videoAsset with
  | none => (s, [])
  | some videoAsset =>
    if !p.isPremium && decide (p.remaining ≤ 0) then
      (s, [Effect.alert "Limite raggiunto"
            "Hai esaurito le analisi gratuite. Passa a Pro per analisi illimitate!"]
          ++ (if p.onUpgrade then [Effect.onUpgrade] else []))
    else
      let s1 := { s with analyzing := true, result := JsVal.null, error := none }
      let log1 := [Effect.setAnalyzing true, Effect.setResult JsVal.null, Effect.setError none]
      match handleAnalysisTry rt c videoAsset s1 with
      | (some msg, s2, log2) =>
        let shown := if msg ≠ "" then msg else "Errore durante l'analisi. Riprova."
        ({ s2 with error := some shown, analyzing := false },
          log1 ++ log2 ++ [Effect.setError (some shown), Effect.setAnalyzing false])
      | (none, s2, log2) =>
        ({ s2 with analyzing := false }, log1 ++ log2 ++ [Effect.setAnalyzing false])

/-- Lines 91-96. -/
def reset (s : ScreenState) : ScreenState :=
  { s with videoAsset := none, result := JsVal.null, error := none, analyzing := false }

/-- What the two `ImagePicker` calls of `pickVideo` resolve to: the permission `status`,
and the fields `canceled` and `assets` of the picker result (`assets` may be absent). -/
structure PickerOutcome where
  status : String
  canceled : Bool
  assets : Option (List VideoAsset)

/-- Lines 30-48. Without the permission the handler alerts and returns before the picker
is launched; otherwise `!res.canceled && res.assets?.[0]` guards the three setters. -/
def pickVideo (o : PickerOutcome) (s : ScreenState) : ScreenState × List Effect :=
  if o.status ≠ "granted" then
    (s, [Effect.alert "Permesso richiesto"
      "Devi autorizzare l'accesso alla libreria video nelle impostazioni del telefono."])
  else
    match o.canceled, o.assets with
    | false, some (asset :: _) =>
      ({ s with videoAsset := some asset, result := JsVal.null, error := none },
        [Effect.setVideoAsset (some asset), Effect.setResult JsVal.null, Effect.setError none])
    | _, _ => (s, [])

/-- Line 127: the upload box, whose press calls `pickVideo`, is rendered when
`!videoAsset && !analyzing && !result`. -/
def uploadShown (s : ScreenState) : Bool :=
  s.videoAsset.isNone && !s.analyzing && !s.result.truthy

/-- Line 137: the preview box, which holds the remove button (`reset`) and the start
button (`handleAnalysis`), is rendered when `videoAsset && !analyzing && !result`. -/
def previewShown (s : ScreenState) : Bool :=
  s.videoAsset.isSome && !s.analyzing && !s.result.truthy

/-- Line 177: the result view, which ends with the new-analysis button (`reset`), is
rendered when `result` is truthy. -/
def resultShown (s : ScreenState) : Bool :=
  s.result.truthy

/-- Line 156: a press on the start button. The button exists only while the preview box
is rendered, so in any other state no press reaches `handleAnalysis`. -/
def onPressAnalyze (rt : Runtime) (p : Props) (c : Collaborators) (s : ScreenState) :
    ScreenState × List Effect :=
  if previewShown s then handleAnalysis rt p c s else (s, [])

end CoachScreen

namespace Api

/-! ## `api.js` : local storage helpers -/

/-- The key-value store behind `AsyncStorage`: the string stored under each key, if any. -/
abbrev Storage : Type := String → Option String

/-- The store after `AsyncStorage.setItem(key, value)`. -/
def Storage.setItem (st : Storage) (key value : String) : Storage :=
  fun k => if k = key then some value else st k

/-- Lines 105-108 of `api.js`: `setItem('user', JSON.stringify(user))`, then
`if (token) setItem('token', token)`. A `null` token is `none`; the empty string is
falsy too. -/
def saveUser (rt : Runtime) (user : Json) (token : Option String) (st : Storage) : Storage :=
  let st1 := st.setItem "user" (rt.stringify user)
  match token with
  | some t => if t ≠ "" then st1.setItem "token" t else st1
  | none => st1

end Api

namespace SettingsScreen

open Api

/-! ## `SettingsScreen.js` : `handleVerify` -/

/-- The three `useState` cells `handleVerify` reads or writes. -/
structure VerifyState where
  pendingSessionId : Option String
  loadingVerify : Bool
  verifyError : Option String

/-- Optional read `updated?.user`: `undefined` when `updated` is `null`, the own
property otherwise. -/
def optionalUser (updated : Json) : JsVal :=
  match updated with
  | Json.obj props =>
    match props.lookup "user" with
    | some x => JsVal.json x
    | none => JsVal.undefined
  | _ => JsVal.undefined

/-- Lines 76-93 of `SettingsScreen.js`, as far as the state cells and the store go:
return at once without a pending session id; otherwise verify it, and when the answer
has a truthy `user`, `saveUser(updated.user, null)` and clear the pending id; a
rejection sets `verifyError`; `finally` clears `loadingVerify`. -/
def handleVerify (rt : Runtime) (verifyPaymentSession : String → Except String Json)
    (s : VerifyState) (st : Storage) : VerifyState × Storage :=
  match s.pendingSessionId with
  | none => (s, st)
  | some sessionId =>
    if sessionId = "" then (s, st)
    else
      match verifyPaymentSession sessionId with
      | Except.error _ =>
        ({ s with
            loadingVerify := false,
            verifyError := some "Pagamento non confermato ancora. Attendi e riprova." }, st)
      | Except.ok updated =>
        match optionalUser updated with
        | JsVal.json user =>
          if (JsVal.json user).truthy then
            ({ pendingSessionId := none, loadingVerify := false, verifyError := none },
              saveUser rt user none st)
          else ({ s with loadingVerify := false, verifyError := none }, st)
        | JsVal.undefined => ({ s with loadingVerify := false, verifyError := none }, st)

end SettingsScreen

namespace ProgressScreen

/-! ## `ProgressScreen.js` : the chart scale -/

/-- Line 12. -/
def CHART_HEIGHT : ℚ := 180

/-- Line 28: `sessions.length ? Math.min(...sessions.map(s => s.score)) - 5 : 0`, on the
list of the sessions' scores. -/
def minScore (scores : List ℤ) : ℚ :=
  match scores with
  | [] => 0
  | x :: rest => ((rest.foldl min x : ℤ) : ℚ) - 5

/-- Line 29: `sessions.length ? Math.max(...sessions.map(s => s.score)) + 5 : 100`. -/
def maxScore (scores : List ℤ) : ℚ :=
  match scores with
  | [] => 100
  | x :: rest => ((rest.foldl max x : ℤ) : ℚ) + 5

/-- Line 30: `maxScore - minScore || 1`. -/
def range (scores : List ℤ) : ℚ :=
  if maxScore scores - minScore scores ≠ 0 then maxScore scores - minScore scores else 1

/-- Line 88: `((s.score - minScore) / range) * CHART_HEIGHT`. -/
def barHeight (scores : List ℤ) (score : ℤ) : ℚ :=
  (((score : ℚ) - minScore scores) / range scores) * CHART_HEIGHT

/-- Line 92: the rendered height `Math.max(barHeight, 8)`. -/
def renderedHeight (scores : List ℤ) (score : ℤ) : ℚ :=
  max (barHeight scores score) 8

end ProgressScreen

namespace AuthScreen

open Api

/-! ## `AuthScreen.js` : `handleSubmit` -/

/-- The `useState` cells `handleSubmit` reads or writes. -/
structure AuthState where
  isLogin : Bool
  email : String
  password : String
  loading : Bool

/-- What `handleSubmit` does besides returning. -/
inductive Effect where
  | alert (title message : String)
  | setLoading (b : Bool)
  | login (email password : String)
  | register (email password : String)
  | onAuthSuccess (user token : JsVal)

/-- The two imported functions `handleSubmit` awaits, as settled promises. -/
structure AuthApi where
  login : String → String → Except String Json
  register : String → String → Except String Json

/-- The `length` of a JavaScript string: its number of UTF-16 code units, two for a
character outside the basic plane. -/
def jsLength (s : String) : ℕ :=
  (s.toList.map (fun c => if c.val < 0x10000 then 1 else 2)).sum

/-- Lines 31-35, the `try` block after the call settled with `data`: read `data.user`
and `data.token` and call `onAuthSuccess`. Returns the thrown message, if any, and the
effects. -/
def onData (rt : Runtime) (data : Json) : Option String × List Effect :=
  match data.getProp rt "user" with
  | Except.error msg => (some msg, [])
  | Except.ok user =>
    match data.getProp rt "token" with
    | Except.error msg => (some msg, [])
    | Except.ok token => (none, [Effect.onAuthSuccess user token])

/-- Lines 19-41 of `AuthScreen.js`. `trim` is `String.prototype.trim`. -/
def handleSubmit (rt : Runtime) (trim : String → String) (api : AuthApi) (s : AuthState) :
    AuthState × List Effect :=
  if trim s.email = "" ∨ trim s.password = "" then
    (s, [Effect.alert "Attenzione" "Inserisci email e password."])
  else if jsLength s.password < 6 then
    (s, [Effect.alert "Attenzione" "La password deve essere di almeno 6 caratteri."])
  else
    let call := if s.isLogin then Effect.login (trim s.email) s.password
      else Effect.register (trim s.email) s.password
    let settled := if s.isLogin then api.login (trim s.email) s.password
      else api.register (trim s.email) s.password
    let thrown : Option String × List Effect :=
      match settled with
      | Except.error msg => (some msg, [])
      | Except.ok data => onData rt data
    match thrown with
    | (some msg, log) =>
      ({ s with loading := false },
        [Effect.setLoading true, call] ++ log
          ++ [Effect.alert "Errore"
                (if msg ≠ "" then msg else "Qualcosa è andato storto. Riprova."),
              Effect.setLoading false])
    | (none, log) =>
      ({ s with loading := false },
        [Effect.setLoading true, call] ++ log ++ [Effect.setLoading false])

end AuthScreen

/-! # Vocabulary of the statements -/

namespace Sampler

/-- The closed form `[1/(N+1), ..., N/(N+1)]` the ratio loops are compared with. -/
def evenRatios (N : ℕ) : List ℚ :=
  (List.range N).map (fun (k : ℕ) => ((k : ℚ) + 1) / ((N : ℚ) + 1))

/-- The encoded frame a pass obtained: `some base64` when both the thumbnail generation
and the base64 read resolved, `none` when either rejected. -/
def Attempt.frame (a : Attempt) : Option String :=
  match a.encoded with
  | some (Except.ok base64) => some base64
  | _ => none

/-- The frame of a pass, when there is one, is what the device returned: the thumbnail
was requested for `videoUri` at the time recorded, in some world, and the payload is the
result of reading the file that request produced, in the world right after it. -/
def Attempt.fromDevice {W : Type} (env : NativeEnv W) (videoUri : String) (a : Attempt) :
    Prop :=
  ∀ base64, a.frame = some base64 →
    ∃ (uri : String) (w0 w1 : W),
      env.getThumbnailAsync videoUri a.timeMs w0 = (Except.ok uri, w1)
      ∧ (env.readAsStringAsync uri w1).1 = Except.ok base64

/-- A device on which every call resolves: the thumbnail of time `t` is the file
`thumb-t.jpg` and reading a file yields its name as payload. -/
def deviceOk : NativeEnv Unit where
  getThumbnailAsync := fun _ t w => (Except.ok ("thumb-" ++ toString t ++ ".jpg"), w)
  readAsStringAsync := fun uri w => (Except.ok uri, w)
  deleteAsync := fun _ w => (Except.ok (), w)

/-- A device whose world counts the thumbnail requests made so far and rejects the
first one only. -/
def deviceFirstFails : NativeEnv ℕ where
  getThumbnailAsync := fun _ t n =>
    (if n = 0 then Except.error "decoder busy" else Except.ok ("thumb-" ++ toString t ++ ".jpg"),
      n + 1)
  readAsStringAsync := fun uri n => (Except.ok uri, n)
  deleteAsync := fun _ n => (Except.ok (), n)

/-- A device that cannot decode the video: every thumbnail request rejects. -/
def deviceNeverDecodes : NativeEnv Unit where
  getThumbnailAsync := fun _ _ w => (Except.error "unsupported format", w)
  readAsStringAsync := fun uri w => (Except.ok uri, w)
  deleteAsync := fun _ w => (Except.ok (), w)

/-- A device whose world is the number of thumbnails made so far and the temporary files
now on disk. A thumbnail request creates a new file, a delete removes the file, and
every read of a file rejects. -/
def deviceUnreadable : NativeEnv (ℕ × List String) where
  getThumbnailAsync := fun _ _ w =>
    (Except.ok ("thumb-" ++ toString w.1 ++ ".jpg"),
      (w.1 + 1, w.2 ++ ["thumb-" ++ toString w.1 ++ ".jpg"]))
  readAsStringAsync := fun _ w => (Except.error "file is not readable", w)
  deleteAsync := fun uri w => (Except.ok (), (w.1, w.2.filter (fun f => f ≠ uri)))

/-- A browser whose video element loads a clip of duration 1 s and completes every seek
with a drawable frame. -/
def browserOk : WebEnv Unit where
  load := fun _ w => (LoadEvent.loadedmetadata 1, w)
  seek := fun _ w => (SeekEvent.seeked (Except.ok "AAAA"), w)

/-- A browser whose video element fires `error` on load. -/
def browserLoadError : WebEnv Unit where
  load := fun _ w => (LoadEvent.error, w)
  seek := fun _ w => (SeekEvent.pending, w)

end Sampler

namespace CoachScreen

open Api

/-- The effect is a call of the frame sampler. -/
def Effect.isCapture : Effect → Bool
  | Effect.extractFrames _ _ _ => true
  | _ => false

/-- The effect is a call of the remote analysis. -/
def Effect.isRemote : Effect → Bool
  | Effect.analyzeFrames _ _ _ => true
  | _ => false

/-- The step indices passed to `setActiveStep`, in the order of the calls. -/
def stepsEmitted (log : List Effect) : List ℕ :=
  log.filterMap (fun e =>
    match e with
    | Effect.setActiveStep k => some k
    | _ => none)

/-- The text thrown on line 69 when no frame was extracted. -/
def noFramesMessage : String :=
  "Impossibile estrarre frame dal video. Prova con un video MP4 diverso."

/-- The entry gate of lines 52-56 lets the run through. -/
def Props.passesGate (p : Props) : Prop :=
  p.isPremium = true ∨ 0 < p.remaining

/-- A runtime for the examples. -/
def rtExample : Runtime where
  typeErrorMessage := fun k => "Cannot read property " ++ k ++ " of null"
  stringOf := fun _ => "[object Object]"
  stringify := fun _ => "[]"

/-- A free user with no analysis left, and an upgrade callback. -/
def freeUserExhausted : Props :=
  { user := some { tier := some "free", remainingAnalysis := some 0 }, onUpgrade := true }

/-- A free user with three analyses left. -/
def freeUser : Props :=
  { user := some { tier := some "free", remainingAnalysis := some 3 }, onUpgrade := true }

/-- A twelve-second clip. -/
def clip : VideoAsset := { uri := "file:///clip.mp4", duration := some 12000 }

/-- The screen right after `clip` was picked. -/
def clipPicked : ScreenState := { ScreenState.initial with videoAsset := some clip }

/-- A sampler that extracts nothing; the remote analysis is not expected to be called. -/
def samplerFindsNothing : Collaborators where
  extractFrames := fun _ _ _ => Except.ok []
  analyzeFrames := fun _ _ _ => Except.error "not reached"

/-- A sampler that extracts four frames. -/
def fourFrames : String → ℚ → ℕ → Except String (List String) :=
  fun _ _ _ => Except.ok ["f1", "f2", "f3", "f4"]

/-- A backend answering every request with HTTP 500 and body `{"message":"overloaded"}`. -/
def backendOverloaded : ApiEnv where
  baseUrl := "http://localhost:5000"
  token := some "t0k3n"
  fetch := fun _ =>
    Except.ok { status := 500, json := Except.ok (Json.obj [("message", Json.str "overloaded")]) }

/-- The body `{"analysis": {"score": 82, "surfer_level": "intermediate"}}`. -/
def analysisBody : Json :=
  Json.obj [("analysis",
    Json.obj [("score", Json.num 82), ("surfer_level", Json.str "intermediate")])]

/-- Four frames sampled, and a remote analysis that succeeds with `analysisBody`. -/
def analysisSucceeds : Collaborators where
  extractFrames := fourFrames
  analyzeFrames := fun _ _ _ => Except.ok analysisBody

/-- A backend answering every request with HTTP 200 and the JSON body `null`. -/
def backendReturnsNull : ApiEnv where
  baseUrl := "http://localhost:5000"
  token := some "t0k3n"
  fetch := fun _ => Except.ok { status := 200, json := Except.ok Json.null }

/-- Four frames sampled, and the remote analysis of `api.js` against `backendReturnsNull`. -/
def analysisReturnsNull : Collaborators where
  extractFrames := fourFrames
  analyzeFrames := analyzeFrames rtExample backendReturnsNull

/-- The screen with `clip` selected while an analysis is running. -/
def clipInFlight : ScreenState := { clipPicked with analyzing := true }

/-- The picker was allowed and returned the video `clip`. -/
def pickedClip : PickerOutcome :=
  { status := "granted", canceled := false, assets := some [clip] }

/-- The states the screen can be in after any sequence of completed handlers, each with
any picker outcome, props and collaborator outcomes. -/
inductive Reachable (rt : Runtime) : ScreenState → Prop where
  | init : Reachable rt ScreenState.initial
  | pick (o : PickerOutcome) (s : ScreenState) :
      Reachable rt s → Reachable rt (pickVideo o s).1
  | analyze (p : Props) (c : Collaborators) (s : ScreenState) :
      Reachable rt s → Reachable rt (handleAnalysis rt p c s).1
  | clear (s : ScreenState) : Reachable rt s → Reachable rt (reset s)

/-- The payload has the top-level fields `score`, `surfer_level` and `summary` of an
analysis result. -/
def hasRequiredFields : JsVal → Bool
  | JsVal.json (Json.obj props) =>
    (props.lookup "score").isSome && (props.lookup "surfer_level").isSome
      && (props.lookup "summary").isSome
  | _ => false

/-- The screen is in the Complete state: the result view is rendered and no analysis is
running. -/
def isComplete (s : ScreenState) : Bool :=
  resultShown s && !s.analyzing

/-- A payload with a score and neither `surfer_level` nor `summary`. -/
def scoreOnly : Json := Json.obj [("score", Json.num 82)]

/-- A backend answering every request with HTTP 200 and `{"analysis": {"score": 82}}`. -/
def backendScoreOnly : ApiEnv where
  baseUrl := "http://localhost:5000"
  token := some "t0k3n"
  fetch := fun _ =>
    Except.ok { status := 200, json := Except.ok (Json.obj [("analysis", scoreOnly)]) }

/-- Four frames sampled, and the remote analysis of `api.js` against `backendScoreOnly`. -/
def analysisScoreOnly : Collaborators where
  extractFrames := fourFrames
  analyzeFrames := analyzeFrames rtExample backendScoreOnly

/-- The screen at the end of a run in which no frame could be extracted. -/
def afterFailedRun : ScreenState :=
  (handleAnalysis rtExample freeUser samplerFindsNothing clipPicked).1

end CoachScreen

namespace SettingsScreen

open Api

/-- A store holding a session: a stored user and the token `abc`. -/
def signedIn : Storage :=
  fun k => if k = "token" then some "abc" else if k = "user" then some "old" else none

/-- A payment backend that confirms the session and returns the upgraded user. -/
def paymentConfirmed : String → Except String Json :=
  fun _ => Except.ok (Json.obj [("user", Json.obj [("tier", Json.str "premium")])])

end SettingsScreen

namespace AuthScreen

open Api

/-- The effect is a call of the backend (`login` or `register`). -/
def Effect.isBackend : Effect → Bool
  | Effect.login _ _ => true
  | Effect.register _ _ => true
  | _ => false

/-- The effect is a call of `onAuthSuccess`. -/
def Effect.isAuthSuccess : Effect → Bool
  | Effect.onAuthSuccess _ _ => true
  | _ => false

/-- The form passes the two checks of lines 20-27. -/
def formValid (trim : String → String) (s : AuthState) : Prop :=
  trim s.email ≠ "" ∧ trim s.password ≠ "" ∧ 6 ≤ jsLength s.password

/-- A `trim` for the examples: drops the leading and the trailing white space. -/
def trimBlanks (s : String) : String :=
  String.mk
    ((s.toList.dropWhile Char.isWhitespace).reverse.dropWhile Char.isWhitespace).reverse

/-- A backend that accepts every login and registration. -/
def backendAccepts : AuthApi where
  login := fun email _ =>
    Except.ok (Json.obj [("user", Json.obj [("email", Json.str email)]),
      ("token", Json.str "t0k3n")])
  register := fun email _ =>
    Except.ok (Json.obj [("user", Json.obj [("email", Json.str email)]),
      ("token", Json.str "t0k3n")])

/-- The login form filled with an email and a seven-letter password, both with
surrounding blanks. -/
def filledForm : AuthState :=
  { isLogin := true, email := " kai@wave.it ", password := " secret1 ", loading := false }

end AuthScreen

/-! # Theorems -/

namespace Sampler

theorem nativeRatiosLoop_eq (N : ℕ) :
    ∀ (d i : ℕ) (acc : List ℚ), i + d = N + 1 →
      nativeRatiosLoop N i acc
        = acc ++ (List.range' i d).map (fun (k : ℕ) => (k : ℚ) / ((N : ℚ) + 1)) := by
  intro d
  induction d with
  | zero =>
    intro i acc h
    rw [nativeRatiosLoop]
    have : ¬ i ≤ N := by omega
    simp [this]
  | succ d ih =>
    intro i acc h
    rw [nativeRatiosLoop]
    have hi : i ≤ N := by omega
    rw [if_pos hi, ih (i + 1) _ (by omega)]
    simp [List.range'_succ]

theorem webRatiosLoop_eq (N : ℕ) :
    ∀ (d i : ℕ) (acc : List ℚ), i + d = N + 1 →
      webRatiosLoop N i acc
        = acc ++ (List.range' i d).map (fun (k : ℕ) => (k : ℚ) / ((N : ℚ) + 1)) := by
  intro d
  induction d with
  | zero =>
    intro i acc h
    rw [webRatiosLoop]
    have : ¬ i ≤ N := by omega
    simp [this]
  | succ d ih =>
    intro i acc h
    rw [webRatiosLoop]
    have hi : i ≤ N := by omega
    rw [if_pos hi, ih (i + 1) _ (by omega)]
    simp [List.range'_succ]

theorem nativeRatios_eq (N : ℕ) : nativeRatios N = evenRatios N := by
  unfold nativeRatios evenRatios
  rw [nativeRatiosLoop_eq N N 1 [] (by omega)]
  rw [List.range'_eq_map_range]
  simp [Function.comp_def, add_comm]

theorem webRatios_eq (N : ℕ) : webRatios N = evenRatios N := by
  unfold webRatios evenRatios
  rw [webRatiosLoop_eq N N 1 [] (by omega)]
  rw [List.range'_eq_map_range]
  simp [Function.comp_def, add_comm]


theorem evenRatios_length (N : ℕ) : (evenRatios N).length = N := by
  simp [evenRatios]

theorem evenRatios_getElem? (N i : ℕ) (hi : i < N) :
    (evenRatios N)[i]? = some (((i : ℚ) + 1) / ((N : ℚ) + 1)) := by
  simp [evenRatios, List.getElem?_map, List.getElem?_range hi]

theorem evenRatios_pairwise_lt (N : ℕ) : List.Pairwise (fun a b => a < b) (evenRatios N) := by
  unfold evenRatios
  rw [List.pairwise_map]
  refine List.Pairwise.imp ?_ (List.pairwise_lt_range N)
  intro a b hab
  have hpos : (0 : ℚ) < (N : ℚ) + 1 := by positivity
  have hab' : (a : ℚ) + 1 < (b : ℚ) + 1 := by exact_mod_cast Nat.succ_lt_succ hab
  exact div_lt_div_of_pos_right hab' hpos

/-- One pass appends exactly one record, for the ratio it was given and the floor of
`duration * ratio`, and appends to `frames` exactly the frame of that record. -/
theorem nativeBody_spec {W : Type} (env : NativeEnv W) (videoUri : String) (duration : ℚ)
    (st : NativeRun W) (ratio : ℚ) :
    ∃ a : Attempt,
      (nativeBody env videoUri duration st ratio).log = st.log ++ [a]
      ∧ a.ratio = ratio
      ∧ a.timeMs = Int.floor (duration * ratio)
      ∧ (nativeBody env videoUri duration st ratio).frames = st.frames ++ a.frame.toList
      ∧ a.fromDevice env videoUri := by
  rcases h1 : env.getThumbnailAsync videoUri (Int.floor (duration * ratio)) st.world
    with ⟨err | uri, w1⟩
  · exact ⟨⟨ratio, Int.floor (duration * ratio), Except.error err, none, none, some err⟩,
      by simp [nativeBody, h1, Attempt.frame, Attempt.fromDevice]⟩
  · rcases h2 : env.readAsStringAsync uri w1 with ⟨err | base64, w2⟩
    · exact ⟨⟨ratio, Int.floor (duration * ratio), Except.ok uri, some (Except.error err),
          none, some err⟩,
        by simp [nativeBody, h1, h2, Attempt.frame, Attempt.fromDevice]⟩
    · have hdev : ∀ (d : Option (Except String Unit)) (wn : Option String),
          Attempt.fromDevice env videoUri
            ⟨ratio, Int.floor (duration * ratio), Except.ok uri, some (Except.ok base64),
              d, wn⟩ := by
        intro d wn b hb
        simp only [Attempt.frame, Option.some.injEq] at hb
        subst hb
        exact ⟨uri, st.world, w1, h1, by rw [h2]⟩
      rcases h3 : env.deleteAsync uri w2 with ⟨err | u, w3⟩
      · exact ⟨⟨ratio, Int.floor (duration * ratio), Except.ok uri, some (Except.ok base64),
            some (Except.error err), some err⟩,
          by simp [nativeBody, h1, h2, h3, Attempt.frame], rfl, rfl,
          by simp [nativeBody, h1, h2, h3, Attempt.frame], hdev _ _⟩
      · exact ⟨⟨ratio, Int.floor (duration * ratio), Except.ok uri, some (Except.ok base64),
            some (Except.ok u), none⟩,
          by simp [nativeBody, h1, h2, h3, Attempt.frame], rfl, rfl,
          by simp [nativeBody, h1, h2, h3, Attempt.frame], hdev _ _⟩

/-- The capture loop over any list of ratios: the passes recorded are one per ratio, in
the order of the list, and the frames pushed are the frames of those passes, in order. -/
theorem nativeLoop_spec {W : Type} (env : NativeEnv W) (videoUri : String) (duration : ℚ) :
    ∀ (rs : List ℚ) (st : NativeRun W),
      ∃ as : List Attempt,
        (rs.foldl (nativeBody env videoUri duration) st).log = st.log ++ as
        ∧ as.map Attempt.ratio = rs
        ∧ as.map Attempt.timeMs = rs.map (fun r => Int.floor (duration * r))
        ∧ (rs.foldl (nativeBody env videoUri duration) st).frames
            = st.frames ++ as.filterMap Attempt.frame
        ∧ ∀ a ∈ as, a.fromDevice env videoUri := by
  intro rs
  induction rs with
  | nil => intro st; exact ⟨[], by simp⟩
  | cons r rs ih =>
    intro st
    obtain ⟨a, hlog, hr, ht, hf, hd⟩ := nativeBody_spec env videoUri duration st r
    obtain ⟨as, hlog2, hrs, hts, hfs, hds⟩ := ih (nativeBody env videoUri duration st r)
    refine ⟨a :: as, ?_, ?_, ?_, ?_, ?_⟩
    · simp [List.foldl_cons, hlog2, hlog]
    · simp [hr, hrs]
    · simp [ht, hts]
    · rw [List.foldl_cons, hfs, hf]
      cases hfa : a.frame <;> simp [List.filterMap_cons, hfa]
    · intro x hx
      rcases List.mem_cons.mp hx with h | h
      · rw [h]; exact hd
      · exact hds x h

/-- What every run of `extractFramesNative` satisfies. -/
theorem extractFramesNative_spec {W : Type} (env : NativeEnv W) (videoUri : String)
    (duration : ℚ) (N : ℕ) (w : W) :
    (extractFramesNative env videoUri duration N w).1
        = Except.ok (extractFramesNative env videoUri duration N w).2.frames
    ∧ (extractFramesNative env videoUri duration N w).2.log.map Attempt.ratio = evenRatios N
    ∧ (extractFramesNative env videoUri duration N w).2.log.map Attempt.timeMs
        = (evenRatios N).map (fun r => Int.floor (duration * r))
    ∧ (extractFramesNative env videoUri duration N w).2.frames
        = (extractFramesNative env videoUri duration N w).2.log.filterMap Attempt.frame
    ∧ ∀ a ∈ (extractFramesNative env videoUri duration N w).2.log,
        a.fromDevice env videoUri := by
  obtain ⟨as, hlog, hrs, hts, hfs, hds⟩ :=
    nativeLoop_spec env videoUri duration (nativeRatios N) ⟨[], w, []⟩
  simp only [List.nil_append] at hlog hfs
  rw [nativeRatios_eq] at hrs hts
  refine ⟨rfl, ?_, ?_, ?_, ?_⟩
  · simpa [extractFramesNative, hlog] using hrs
  · simpa [extractFramesNative, hlog] using hts
  · simp [extractFramesNative, hlog, hfs]
  · simpa [extractFramesNative, hlog] using hds

theorem filterMap_map_some_of_ne_none {α β : Type} (f : α → Option β) :
    ∀ l : List α, (∀ a ∈ l, f a ≠ none) → (l.filterMap f).map some = l.map f := by
  intro l
  induction l with
  | nil => intro _; rfl
  | cons x xs ih =>
    intro h
    have hx : f x ≠ none := h x (List.mem_cons_self x xs)
    obtain ⟨b, hb⟩ := Option.ne_none_iff_exists'.mp hx
    have hxs := ih (fun a ha => h a (List.mem_cons_of_mem x ha))
    simp [List.filterMap_cons, hb, hxs]

theorem length_filterMap_lt_of_none {α β : Type} (f : α → Option β) :
    ∀ l : List α, (∃ a ∈ l, f a = none) → (l.filterMap f).length < l.length := by
  intro l
  induction l with
  | nil => rintro ⟨a, ha, _⟩; cases ha
  | cons x xs ih =>
    rintro ⟨a, ha, hfa⟩
    have hle := List.length_filterMap_le f xs
    cases hx : f x with
    | none => simp [List.filterMap_cons, hx]; omega
    | some b =>
      have hax : a ≠ x := by rintro rfl; simp [hx] at hfa
      have hmem : a ∈ xs := by
        rcases List.mem_cons.mp ha with h | h
        · exact absurd h hax
        · exact h
      have := ih ⟨a, hmem, hfa⟩
      simp [List.filterMap_cons, hx]; omega

/-- C1. For every `frameCount = N ≥ 1` the list built by the ratio loop of
`extractFramesNative` is `[1/(N+1), 2/(N+1), ..., N/(N+1)]` as exact rationals: it has
length `N`, its `i`-th element (counted from 1) is `i/(N+1)`, and the loop of
`extractFramesWeb` builds the same list in the same order. -/
theorem ratios_exact (N : ℕ) (_hN : 1 ≤ N) :
    nativeRatios N = (List.range N).map (fun (k : ℕ) => ((k : ℚ) + 1) / ((N : ℚ) + 1))
    ∧ (nativeRatios N).length = N
    ∧ (∀ i : ℕ, 1 ≤ i → i ≤ N →
        (nativeRatios N)[i - 1]? = some ((i : ℚ) / ((N : ℚ) + 1)))
    ∧ webRatios N = nativeRatios N := by
  refine ⟨nativeRatios_eq N, ?_, ?_, ?_⟩
  · rw [nativeRatios_eq, evenRatios_length]
  · intro i h1 hi
    rw [nativeRatios_eq, evenRatios_getElem? N (i - 1) (by omega)]
    have : ((i - 1 : ℕ) : ℚ) + 1 = (i : ℚ) := by
      have h : (i - 1) + 1 = i := by omega
      exact_mod_cast h
    rw [this]
  · rw [webRatios_eq, nativeRatios_eq]

theorem ratios_exact_witness :
    (1 : ℕ) ≤ 4 ∧ nativeRatios 4 = [1 / 5, 2 / 5, 3 / 5, 4 / 5]
      ∧ webRatios 4 = [1 / 5, 2 / 5, 3 / 5, 4 / 5] := by
  have h := ratios_exact 4 (by decide)
  refine ⟨by decide, ?_, ?_⟩
  · rw [h.1]; norm_num [List.range_succ]
  · rw [h.2.2.2, h.1]; norm_num [List.range_succ]


/-- C2. For every `frameCount = N ≥ 1`, if every pass of the capture loop obtains its
frame (thumbnail generated and read back), `extractFramesNative` resolves with exactly
`N` frames, and for `i = 1..N` the `i`-th frame is the base64 payload read in the
`i`-th pass from the thumbnail file the device produced for the time
`floor(duration * i/(N+1))`. -/
theorem all_captures_succeed {W : Type} (env : NativeEnv W) (videoUri : String)
    (duration : ℚ) (N : ℕ) (w : W) (_hN : 1 ≤ N)
    (hok : ∀ a ∈ (extractFramesNative env videoUri duration N w).2.log, a.frame ≠ none) :
    (extractFramesNative env videoUri duration N w).1
        = Except.ok (extractFramesNative env videoUri duration N w).2.frames
    ∧ (extractFramesNative env videoUri duration N w).2.frames.length = N
    ∧ ∀ i : ℕ, 1 ≤ i → i ≤ N →
        ∃ (a : Attempt) (base64 : String),
          (extractFramesNative env videoUri duration N w).2.log[i - 1]? = some a
          ∧ a.ratio = (i : ℚ) / ((N : ℚ) + 1)
          ∧ a.timeMs = Int.floor (duration * ((i : ℚ) / ((N : ℚ) + 1)))
          ∧ a.encoded = some (Except.ok base64)
          ∧ (extractFramesNative env videoUri duration N w).2.frames[i - 1]? = some base64
          ∧ ∃ (uri : String) (w0 w1 : W),
              env.getThumbnailAsync videoUri
                  (Int.floor (duration * ((i : ℚ) / ((N : ℚ) + 1)))) w0 = (Except.ok uri, w1)
              ∧ (env.readAsStringAsync uri w1).1 = Except.ok base64 := by
  obtain ⟨hval, hrat, htime, hframes, hdev⟩ :=
    extractFramesNative_spec env videoUri duration N w
  have hmap := filterMap_map_some_of_ne_none Attempt.frame _ hok
  rw [← hframes] at hmap
  have hloglen : (extractFramesNative env videoUri duration N w).2.log.length = N := by
    have := congrArg List.length hrat
    simpa [evenRatios_length] using this
  have hlen : (extractFramesNative env videoUri duration N w).2.frames.length = N := by
    have := congrArg List.length hmap
    simpa [hloglen] using this
  refine ⟨hval, hlen, ?_⟩
  intro i h1 hi
  have hk : i - 1 < N := by omega
  have hcast : ((i - 1 : ℕ) : ℚ) + 1 = (i : ℚ) := by
    have h : (i - 1) + 1 = i := by omega
    exact_mod_cast h
  obtain ⟨a, ha⟩ : ∃ a, (extractFramesNative env videoUri duration N w).2.log[i - 1]? = some a := by
    rw [List.getElem?_eq_getElem (by rw [hloglen]; exact hk)]; exact ⟨_, rfl⟩
  obtain ⟨b, hb⟩ : ∃ b, (extractFramesNative env videoUri duration N w).2.frames[i - 1]? = some b := by
    rw [List.getElem?_eq_getElem (by rw [hlen]; exact hk)]; exact ⟨_, rfl⟩
  have hr : a.ratio = (i : ℚ) / ((N : ℚ) + 1) := by
    have := congrArg (fun l => l[i - 1]?) hrat
    simp only [List.getElem?_map, ha, Option.map_some', evenRatios_getElem? N (i - 1) hk,
      hcast] at this
    exact Option.some.inj this
  have ht : a.timeMs = Int.floor (duration * ((i : ℚ) / ((N : ℚ) + 1))) := by
    have := congrArg (fun l => l[i - 1]?) htime
    simp only [List.getElem?_map, ha, Option.map_some', evenRatios_getElem? N (i - 1) hk,
      hcast] at this
    exact Option.some.inj this
  have hfb : a.frame = some b := by
    have := congrArg (fun l => l[i - 1]?) hmap
    simp only [List.getElem?_map, ha, hb, Option.map_some'] at this
    exact (Option.some.inj this).symm
  have henc : a.encoded = some (Except.ok b) := by
    unfold Attempt.frame at hfb
    split at hfb
    · rename_i b' hb'
      rw [hb', Option.some.inj hfb]
    · cases hfb
  have hmem : a ∈ (extractFramesNative env videoUri duration N w).2.log :=
    List.getElem?_mem ha
  have hcall := hdev a hmem b hfb
  rw [ht] at hcall
  exact ⟨a, b, ha, hr, ht, henc, hb, hcall⟩

theorem deviceOk_log_frames :
    ∀ a ∈ (extractFramesNative deviceOk "clip.mp4" 12000 4 ()).2.log, a.frame ≠ none := by
  simp [extractFramesNative, nativeRatios_eq, evenRatios, List.range_succ, nativeBody,
    deviceOk, Attempt.frame]

theorem all_captures_succeed_witness :
    (1 : ℕ) ≤ 4
    ∧ (∀ a ∈ (extractFramesNative deviceOk "clip.mp4" 12000 4 ()).2.log, a.frame ≠ none)
    ∧ (extractFramesNative deviceOk "clip.mp4" 12000 4 ()).2.frames.length = 4 :=
  ⟨by decide, deviceOk_log_frames,
    (all_captures_succeed deviceOk "clip.mp4" 12000 4 () (by decide) deviceOk_log_frames).2.1⟩


/-- C3. For every `frameCount = N ≥ 1`, if at least one pass of the capture loop fails
to obtain its frame and at least one obtains it, `extractFramesNative` resolves with
exactly the payloads of the passes that obtained one, in the order of the passes (which
is the increasing order of their ratios), and with fewer than `N` of them. -/
theorem partial_failure_keeps_successes {W : Type} (env : NativeEnv W) (videoUri : String)
    (duration : ℚ) (N : ℕ) (w : W) (_hN : 1 ≤ N)
    (hfail : ∃ a ∈ (extractFramesNative env videoUri duration N w).2.log, a.frame = none)
    (hsucc : ∃ a ∈ (extractFramesNative env videoUri duration N w).2.log, a.frame ≠ none) :
    (extractFramesNative env videoUri duration N w).1
        = Except.ok (extractFramesNative env videoUri duration N w).2.frames
    ∧ (extractFramesNative env videoUri duration N w).2.frames
        = (extractFramesNative env videoUri duration N w).2.log.filterMap Attempt.frame
    ∧ (extractFramesNative env videoUri duration N w).2.log.map Attempt.ratio
        = (List.range N).map (fun (k : ℕ) => ((k : ℚ) + 1) / ((N : ℚ) + 1))
    ∧ List.Pairwise (fun x y => x < y)
        ((extractFramesNative env videoUri duration N w).2.log.map Attempt.ratio)
    ∧ (extractFramesNative env videoUri duration N w).2.frames.length < N
    ∧ 0 < (extractFramesNative env videoUri duration N w).2.frames.length := by
  obtain ⟨hval, hrat, _, hframes, _⟩ := extractFramesNative_spec env videoUri duration N w
  have hloglen : (extractFramesNative env videoUri duration N w).2.log.length = N := by
    have := congrArg List.length hrat
    simpa [evenRatios_length] using this
  refine ⟨hval, hframes, hrat, ?_, ?_, ?_⟩
  · rw [hrat]; exact evenRatios_pairwise_lt N
  · have := length_filterMap_lt_of_none Attempt.frame _ hfail
    rw [← hframes, hloglen] at this
    exact this
  · obtain ⟨a, ha, hne⟩ := hsucc
    obtain ⟨b, hb⟩ := Option.ne_none_iff_exists'.mp hne
    have hmem : b ∈ (extractFramesNative env videoUri duration N w).2.frames := by
      rw [hframes, List.mem_filterMap]; exact ⟨a, ha, hb⟩
    exact List.length_pos_of_mem hmem

theorem deviceFirstFails_log :
    (∃ a ∈ (extractFramesNative deviceFirstFails "clip.mp4" 9000 2 0).2.log, a.frame = none)
    ∧ (∃ a ∈ (extractFramesNative deviceFirstFails "clip.mp4" 9000 2 0).2.log,
        a.frame ≠ none) := by
  simp [extractFramesNative, nativeRatios_eq, evenRatios, List.range_succ, nativeBody,
    deviceFirstFails, Attempt.frame]

theorem partial_failure_keeps_successes_witness :
    (1 : ℕ) ≤ 2
    ∧ (∃ a ∈ (extractFramesNative deviceFirstFails "clip.mp4" 9000 2 0).2.log,
        a.frame = none)
    ∧ (∃ a ∈ (extractFramesNative deviceFirstFails "clip.mp4" 9000 2 0).2.log,
        a.frame ≠ none)
    ∧ (extractFramesNative deviceFirstFails "clip.mp4" 9000 2 0).2.frames.length < 2 :=
  ⟨by decide, deviceFirstFails_log.1, deviceFirstFails_log.2,
    (partial_failure_keeps_successes deviceFirstFails "clip.mp4" 9000 2 0 (by decide)
      deviceFirstFails_log.1 deviceFirstFails_log.2).2.2.2.2.1⟩

/-- C4. For every frame count and duration, if no pass of the capture loop obtains its
frame (the thumbnail generation or the base64 read rejects each time),
`extractFramesNative` resolves, as a normal result, with the empty list; and when the
video element fires `error` on load, `extractFramesWeb` resolves with the empty list. -/
theorem total_failure_is_empty_result {W V : Type} (env : NativeEnv W) (wenv : WebEnv V)
    (videoUri : String) (duration : ℚ) (N : ℕ) (w : W) (v : V) :
    ((∀ a ∈ (extractFramesNative env videoUri duration N w).2.log, a.frame = none) →
        (extractFramesNative env videoUri duration N w).1 = Except.ok [])
    ∧ ((wenv.load videoUri v).1 = LoadEvent.error →
        (extractFramesWeb wenv videoUri duration N v).1 = some []) := by
  constructor
  · intro hall
    obtain ⟨hval, _, _, hframes, _⟩ := extractFramesNative_spec env videoUri duration N w
    rw [hval, hframes]
    congr 1
    exact List.filterMap_eq_nil_iff.mpr hall
  · intro hload
    unfold extractFramesWeb
    rcases hl : wenv.load videoUri v with ⟨ev, v1⟩
    rw [hl] at hload
    simp only at hload
    subst hload
    rfl

theorem deviceNeverDecodes_log :
    ∀ a ∈ (extractFramesNative deviceNeverDecodes "clip.mov" 12000 4 ()).2.log,
      a.frame = none := by
  simp [extractFramesNative, nativeRatios_eq, evenRatios, List.range_succ, nativeBody,
    deviceNeverDecodes, Attempt.frame]

theorem total_failure_is_empty_result_witness :
    ((∀ a ∈ (extractFramesNative deviceNeverDecodes "clip.mov" 12000 4 ()).2.log,
        a.frame = none)
      ∧ (extractFramesNative deviceNeverDecodes "clip.mov" 12000 4 ()).1 = Except.ok [])
    ∧ ((browserLoadError.load "clip.mov" ()).1 = LoadEvent.error
      ∧ (extractFramesWeb browserLoadError "clip.mov" 12000 4 ()).1 = some []) :=
  ⟨⟨deviceNeverDecodes_log,
      (total_failure_is_empty_result deviceNeverDecodes browserLoadError "clip.mov" 12000 4
        () ()).1 deviceNeverDecodes_log⟩,
    ⟨rfl,
      (total_failure_is_empty_result deviceNeverDecodes browserLoadError "clip.mov" 12000 4
        () ()).2 rfl⟩⟩

/-- C5. A capture failure never aborts sampling. For every `frameCount = N ≥ 0`, every
device and every starting world, `extractFramesNative` makes exactly `N` passes, one per
ratio `i/(N+1)` in strictly increasing ratio order, each requesting the thumbnail at
`floor(duration * ratio)`, and resolves (does not reject) with at most `N` frames. -/
theorem capture_failure_never_aborts {W : Type} (env : NativeEnv W) (videoUri : String)
    (duration : ℚ) (N : ℕ) (w : W) :
    (extractFramesNative env videoUri duration N w).1
        = Except.ok (extractFramesNative env videoUri duration N w).2.frames
    ∧ (extractFramesNative env videoUri duration N w).2.log.length = N
    ∧ (extractFramesNative env videoUri duration N w).2.log.map Attempt.ratio
        = (List.range N).map (fun (k : ℕ) => ((k : ℚ) + 1) / ((N : ℚ) + 1))
    ∧ List.Pairwise (fun x y => x < y)
        ((extractFramesNative env videoUri duration N w).2.log.map Attempt.ratio)
    ∧ (extractFramesNative env videoUri duration N w).2.log.map Attempt.timeMs
        = (List.range N).map
            (fun (k : ℕ) => Int.floor (duration * (((k : ℚ) + 1) / ((N : ℚ) + 1))))
    ∧ (extractFramesNative env videoUri duration N w).2.frames.length ≤ N := by
  obtain ⟨hval, hrat, htime, hframes, _⟩ :=
    extractFramesNative_spec env videoUri duration N w
  have hloglen : (extractFramesNative env videoUri duration N w).2.log.length = N := by
    have := congrArg List.length hrat
    simpa [evenRatios_length] using this
  refine ⟨hval, hloglen, hrat, ?_, ?_, ?_⟩
  · rw [hrat]; exact evenRatios_pairwise_lt N
  · rw [htime]; simp [evenRatios, Function.comp_def]
  · have := List.length_filterMap_le Attempt.frame
      (extractFramesNative env videoUri duration N w).2.log
    rw [← hframes, hloglen] at this
    exact this

end Sampler

namespace CoachScreen

open Api

theorem gate_closed_of_passesGate (p : Props) (h : p.passesGate) :
    (!p.isPremium && decide (p.remaining ≤ 0)) = false := by
  rcases h with h | h
  · simp [h]
  · simp [not_le.mpr h]

/-- C6. For every state with a selected video, if the user is not premium and
`remaining ≤ 0` (and an `onUpgrade` callback was passed to the screen), `handleAnalysis`
calls neither `extractFrames` nor `analyzeFrames`, shows the alert and calls `onUpgrade`,
and leaves `analyzing`, `activeStep`, `result` and `error` (and the selected video)
unchanged; in particular it does not set `error`. -/
theorem quota_gate_blocks (rt : Runtime) (p : Props) (c : Collaborators) (s : ScreenState)
    (v : VideoAsset) (hv : s.videoAsset = some v) (hp : p.isPremium = false)
    (hr : p.remaining ≤ 0) (hu : p.onUpgrade = true) :
    (∀ e ∈ (handleAnalysis rt p c s).2, e.isCapture = false ∧ e.isRemote = false)
    ∧ Effect.onUpgrade ∈ (handleAnalysis rt p c s).2
    ∧ (∀ e ∈ (handleAnalysis rt p c s).2, ∀ x, e ≠ Effect.setError x)
    ∧ (handleAnalysis rt p c s).1.analyzing = s.analyzing
    ∧ (handleAnalysis rt p c s).1.activeStep = s.activeStep
    ∧ (handleAnalysis rt p c s).1.result = s.result
    ∧ (handleAnalysis rt p c s).1.error = s.error
    ∧ (handleAnalysis rt p c s).1.videoAsset = s.videoAsset := by
  have hrun : handleAnalysis rt p c s
      = (s, [Effect.alert "Limite raggiunto"
              "Hai esaurito le analisi gratuite. Passa a Pro per analisi illimitate!",
            Effect.onUpgrade]) := by
    simp [handleAnalysis, hv, hp, hr, hu]
  rw [hrun]
  simp [Effect.isCapture, Effect.isRemote]

theorem quota_gate_blocks_witness :
    clipPicked.videoAsset = some clip ∧ freeUserExhausted.isPremium = false
    ∧ freeUserExhausted.remaining ≤ 0 ∧ freeUserExhausted.onUpgrade = true
    ∧ Effect.onUpgrade ∈ (handleAnalysis rtExample freeUserExhausted analysisSucceeds clipPicked).2
    ∧ (handleAnalysis rtExample freeUserExhausted analysisSucceeds clipPicked).1.error = none :=
  have h := quota_gate_blocks rtExample freeUserExhausted analysisSucceeds clipPicked clip rfl
    (by decide) (by decide) rfl
  ⟨rfl, by decide, by decide, rfl, h.2.1, h.2.2.2.2.2.2.1⟩


/-- C7. For every run of `handleAnalysis` that passes the quota gate and in which
`extractFrames` resolves with the empty list, `analyzeFrames` is not called, and the run
ends with `error` set to the no-frames message, `result = null` and
`analyzing = false`. -/
theorem empty_frames_fail (rt : Runtime) (p : Props) (c : Collaborators) (s : ScreenState)
    (v : VideoAsset) (hv : s.videoAsset = some v) (hgate : p.passesGate)
    (hempty : c.extractFrames v.uri (analysisDuration v) 4 = Except.ok []) :
    (∀ e ∈ (handleAnalysis rt p c s).2, e.isRemote = false)
    ∧ (handleAnalysis rt p c s).1.error
        = some "Impossibile estrarre frame dal video. Prova con un video MP4 diverso."
    ∧ (handleAnalysis rt p c s).1.result = JsVal.null
    ∧ (handleAnalysis rt p c s).1.analyzing = false := by
  have hg := gate_closed_of_passesGate p hgate
  have htry : ∀ s1 : ScreenState, handleAnalysisTry rt c v s1
      = (some "Impossibile estrarre frame dal video. Prova con un video MP4 diverso.",
          { s1 with activeStep := 0 },
          [Effect.setActiveStep 0, Effect.extractFrames v.uri (analysisDuration v) 4]) := by
    intro s1
    simp [handleAnalysisTry, hempty]
  simp [handleAnalysis, hv, hg, htry, Effect.isRemote]

theorem empty_frames_fail_witness :
    clipPicked.videoAsset = some clip ∧ freeUser.passesGate
    ∧ samplerFindsNothing.extractFrames clip.uri (analysisDuration clip) 4 = Except.ok []
    ∧ (handleAnalysis rtExample freeUser samplerFindsNothing clipPicked).1.error
        = some noFramesMessage :=
  have hgate : freeUser.passesGate := Or.inr (by decide)
  ⟨rfl, hgate, rfl,
    (empty_frames_fail rtExample freeUser samplerFindsNothing clipPicked clip rfl hgate rfl).2.1⟩

/-- C8. For every run of `handleAnalysis` that passes the gate with a non-empty sampled
frame list, if the backend answers with a non-2xx status and a JSON body whose `message`
field is a non-empty string `m`, the run ends with `error = m`, `result = null` and
`analyzing = false`. -/
theorem remote_message_verbatim (rt : Runtime) (api : ApiEnv) (p : Props)
    (sampler : String → ℚ → ℕ → Except String (List String)) (s : ScreenState)
    (v : VideoAsset) (frames : List String) (res : Response) (data : Json) (m : String)
    (hv : s.videoAsset = some v) (hgate : p.passesGate)
    (hframes : sampler v.uri (analysisDuration v) 4 = Except.ok frames)
    (hne : frames ≠ [])
    (hfetch : ∀ req, api.fetch req = Except.ok res)
    (hstatus : res.status < 200 ∨ 299 < res.status)
    (hbody : res.json = Except.ok data)
    (hmsg : data.getProp rt "message" = Except.ok (JsVal.json (Json.str m)))
    (hm : m ≠ "") :
    (handleAnalysis rt p ⟨sampler, analyzeFrames rt api⟩ s).1.error = some m
    ∧ (handleAnalysis rt p ⟨sampler, analyzeFrames rt api⟩ s).1.result = JsVal.null
    ∧ (handleAnalysis rt p ⟨sampler, analyzeFrames rt api⟩ s).1.analyzing = false := by
  have hg := gate_closed_of_passesGate p hgate
  have hok : res.ok = false := by
    unfold Response.ok
    rcases hstatus with h | h
    · exact decide_eq_false (by omega)
    · exact decide_eq_false (by omega)
  have hresp : handleResponse rt res = Except.error m := by
    simp [handleResponse, hbody, hok, hmsg, JsVal.truthy, hm, errorMessageOf]
  have hremote : analyzeFrames rt api frames "" "it" = Except.error m := by
    simp [analyzeFrames, hfetch, hresp]
  have hlen : frames.length ≠ 0 := by
    intro h; exact hne (List.length_eq_zero.mp h)
  have htry : ∀ s1 : ScreenState,
      handleAnalysisTry rt ⟨sampler, analyzeFrames rt api⟩ v s1
      = (some m, { s1 with activeStep := 2 },
          [Effect.setActiveStep 0, Effect.extractFrames v.uri (analysisDuration v) 4,
            Effect.setActiveStep 1, Effect.setTimeout 900, Effect.setActiveStep 2,
            Effect.analyzeFrames frames "" "it"]) := by
    intro s1
    simp [handleAnalysisTry, hframes, hlen, hremote]
  simp [handleAnalysis, hv, hg, htry, hm]

theorem remote_message_verbatim_witness :
    clipPicked.videoAsset = some clip ∧ freeUser.passesGate
    ∧ fourFrames clip.uri (analysisDuration clip) 4 = Except.ok ["f1", "f2", "f3", "f4"]
    ∧ (∀ req, backendOverloaded.fetch req
        = Except.ok ⟨500, Except.ok (Json.obj [("message", Json.str "overloaded")])⟩)
    ∧ (handleAnalysis rtExample freeUser
        ⟨fourFrames, analyzeFrames rtExample backendOverloaded⟩ clipPicked).1.error
        = some "overloaded" :=
  have hgate : freeUser.passesGate := Or.inr (by decide)
  ⟨rfl, hgate, rfl, fun _ => rfl,
    (remote_message_verbatim rtExample backendOverloaded freeUser fourFrames clipPicked clip
      ["f1", "f2", "f3", "f4"]
      ⟨500, Except.ok (Json.obj [("message", Json.str "overloaded")])⟩
      (Json.obj [("message", Json.str "overloaded")]) "overloaded"
      rfl hgate rfl (by simp) (fun _ => rfl) (Or.inr (by decide)) rfl
      (by simp [Json.getProp, List.lookup]) (by decide)).1⟩

/-- C9. For every screen state (a Complete state with `result` set or a Failed state
with `error` set included), `reset` yields a state with `videoAsset = null`,
`result = null`, `error = null` and `analyzing = false`. -/
theorem reset_clears (s : ScreenState) :
    (reset s).videoAsset = none
    ∧ (reset s).result = JsVal.null
    ∧ (reset s).error = none
    ∧ (reset s).analyzing = false :=
  ⟨rfl, rfl, rfl, rfl⟩


theorem getProp_of_ne_null (rt : Runtime) (data : Json) (k : String) (h : data ≠ Json.null) :
    ∃ x, data.getProp rt k = Except.ok x := by
  cases data with
  | null => exact absurd rfl h
  | obj props =>
    cases hl : props.lookup k with
    | none => exact ⟨JsVal.undefined, by simp [Json.getProp, hl]⟩
    | some x => exact ⟨JsVal.json x, by simp [Json.getProp, hl]⟩
  | bool b => exact ⟨JsVal.undefined, rfl⟩
  | num n => exact ⟨JsVal.undefined, rfl⟩
  | str t => exact ⟨JsVal.undefined, rfl⟩
  | arr items => exact ⟨JsVal.undefined, rfl⟩

/-- C10, as stated, fails: a run that passes the gate, samples four frames and receives
the 2xx response whose JSON body is `null` emits the steps `[0, 1, 2, 3]` and then ends
with `error` set (the `TypeError` of reading `data.analysis`), not with `error = null`. -/
theorem success_path_null_body :
    clipPicked.videoAsset = some clip
    ∧ freeUser.passesGate
    ∧ analysisReturnsNull.extractFrames clip.uri (analysisDuration clip) 4
        = Except.ok ["f1", "f2", "f3", "f4"]
    ∧ analysisReturnsNull.analyzeFrames ["f1", "f2", "f3", "f4"] "" "it" = Except.ok Json.null
    ∧ stepsEmitted (handleAnalysis rtExample freeUser analysisReturnsNull clipPicked).2
        = [0, 1, 2, 3]
    ∧ (handleAnalysis rtExample freeUser analysisReturnsNull clipPicked).1.error
        = some "Cannot read property analysis of null"
    ∧ (handleAnalysis rtExample freeUser analysisReturnsNull clipPicked).1.error ≠ none := by
  have hremote : analysisReturnsNull.analyzeFrames ["f1", "f2", "f3", "f4"] "" "it"
      = Except.ok Json.null := by
    simp [analysisReturnsNull, analyzeFrames, backendReturnsNull, handleResponse, Response.ok]
  have hgate : (!freeUser.isPremium && decide (freeUser.remaining ≤ 0)) = false :=
    gate_closed_of_passesGate freeUser (Or.inr (by decide))
  have hrun : handleAnalysis rtExample freeUser analysisReturnsNull clipPicked
      = (({ clipPicked with
              activeStep := 3, analyzing := false,
              error := some "Cannot read property analysis of null" } : ScreenState),
          [Effect.setAnalyzing true, Effect.setResult JsVal.null, Effect.setError none,
            Effect.setActiveStep 0, Effect.extractFrames clip.uri (analysisDuration clip) 4,
            Effect.setActiveStep 1, Effect.setTimeout 900, Effect.setActiveStep 2,
            Effect.analyzeFrames ["f1", "f2", "f3", "f4"] "" "it",
            Effect.setActiveStep 3, Effect.setTimeout 600,
            Effect.setError (some "Cannot read property analysis of null"),
            Effect.setAnalyzing false]) := by
    have hx : analysisReturnsNull.extractFrames clip.uri (analysisDuration clip) 4
        = Except.ok ["f1", "f2", "f3", "f4"] := rfl
    simp [handleAnalysis, handleAnalysisTry, clipPicked, ScreenState.initial, hgate, hx,
      hremote, Json.getProp, rtExample]
  refine ⟨rfl, Or.inr (by decide), rfl, hremote, ?_, ?_, ?_⟩
  · rw [hrun]; simp [stepsEmitted]
  · rw [hrun]
  · rw [hrun]; simp

/-- C10, amended. For every run of `handleAnalysis` that passes the quota gate, obtains
a non-empty frame list and receives a successful remote response `data` other than JSON
`null`, the step indices passed to `setActiveStep` are exactly `[0, 1, 2, 3]`, and the
run ends with `result = data.analysis`, `error = null` and `analyzing = false`. -/
theorem success_path (rt : Runtime) (p : Props) (c : Collaborators) (s : ScreenState)
    (v : VideoAsset) (frames : List String) (data : Json)
    (hv : s.videoAsset = some v) (hgate : p.passesGate)
    (hframes : c.extractFrames v.uri (analysisDuration v) 4 = Except.ok frames)
    (hne : frames ≠ [])
    (hdata : c.analyzeFrames frames "" "it" = Except.ok data)
    (hnn : data ≠ Json.null) :
    stepsEmitted (handleAnalysis rt p c s).2 = [0, 1, 2, 3]
    ∧ (∃ analysis, data.getProp rt "analysis" = Except.ok analysis
        ∧ (handleAnalysis rt p c s).1.result = analysis)
    ∧ (handleAnalysis rt p c s).1.error = none
    ∧ (handleAnalysis rt p c s).1.analyzing = false := by
  have hg := gate_closed_of_passesGate p hgate
  obtain ⟨analysis, hprop⟩ := getProp_of_ne_null rt data "analysis" hnn
  have hlen : frames.length ≠ 0 := by
    intro h; exact hne (List.length_eq_zero.mp h)
  have htry : ∀ s1 : ScreenState, handleAnalysisTry rt c v s1
      = (none, { s1 with activeStep := 3, result := analysis },
          [Effect.setActiveStep 0, Effect.extractFrames v.uri (analysisDuration v) 4,
            Effect.setActiveStep 1, Effect.setTimeout 900, Effect.setActiveStep 2,
            Effect.analyzeFrames frames "" "it", Effect.setActiveStep 3,
            Effect.setTimeout 600, Effect.setResult analysis]) := by
    intro s1
    simp [handleAnalysisTry, hframes, hlen, hdata, hprop]
  refine ⟨?_, ⟨analysis, hprop, ?_⟩, ?_, ?_⟩ <;>
    simp [handleAnalysis, hv, hg, htry, stepsEmitted]

theorem success_path_witness :
    clipPicked.videoAsset = some clip ∧ freeUser.passesGate
    ∧ analysisSucceeds.extractFrames clip.uri (analysisDuration clip) 4
        = Except.ok ["f1", "f2", "f3", "f4"]
    ∧ analysisSucceeds.analyzeFrames ["f1", "f2", "f3", "f4"] "" "it" = Except.ok analysisBody
    ∧ analysisBody ≠ Json.null
    ∧ stepsEmitted (handleAnalysis rtExample freeUser analysisSucceeds clipPicked).2
        = [0, 1, 2, 3]
    ∧ (handleAnalysis rtExample freeUser analysisSucceeds clipPicked).1.error = none :=
  have hgate : freeUser.passesGate := Or.inr (by decide)
  have hnn : analysisBody ≠ Json.null := by simp [analysisBody]
  have h := success_path rtExample freeUser analysisSucceeds clipPicked clip
    ["f1", "f2", "f3", "f4"] analysisBody rfl hgate rfl (by simp) rfl hnn
  ⟨rfl, hgate, rfl, rfl, hnn, h.1, h.2.2.1⟩

end CoachScreen

namespace Sampler

theorem mem_evenRatios (N : ℕ) (r : ℚ) :
    r ∈ evenRatios N ↔ ∃ k : ℕ, k < N ∧ r = ((k : ℚ) + 1) / ((N : ℚ) + 1) := by
  unfold evenRatios
  rw [List.mem_map]
  constructor
  · rintro ⟨k, hk, rfl⟩
    exact ⟨k, List.mem_range.mp hk, rfl⟩
  · rintro ⟨k, hk, rfl⟩
    exact ⟨k, List.mem_range.mpr hk, rfl⟩

theorem evenRatios_pos_lt_one (N : ℕ) (r : ℚ) (hr : r ∈ evenRatios N) : 0 < r ∧ r < 1 := by
  obtain ⟨k, hk, rfl⟩ := (mem_evenRatios N r).mp hr
  have hden : (0 : ℚ) < (N : ℚ) + 1 := by positivity
  have hnum : (0 : ℚ) < (k : ℚ) + 1 := by positivity
  have hlt : (k : ℚ) + 1 < (N : ℚ) + 1 := by
    have : (k : ℚ) < (N : ℚ) := by exact_mod_cast hk
    linarith
  exact ⟨div_pos hnum hden, (div_lt_one hden).mpr hlt⟩

/-- The floor of `D * ((k+1)/(N+1))` over the rationals is the integer quotient
`D * (k+1) / (N+1)`, rounded towards minus infinity. -/
theorem floor_timestamp_eq_div (D : ℤ) (N k : ℕ) :
    Int.floor ((D : ℚ) * (((k : ℚ) + 1) / ((N : ℚ) + 1)))
      = D * ((k : ℤ) + 1) / ((N : ℤ) + 1) := by
  have h : (D : ℚ) * (((k : ℚ) + 1) / ((N : ℚ) + 1))
      = ((D * ((k : ℤ) + 1) : ℤ) : ℚ) / ((N + 1 : ℕ) : ℚ) := by
    push_cast
    ring
  rw [h, Rat.floor_intCast_div_natCast]
  push_cast
  rfl

/-- The timestamps of a run, as recorded pass by pass. -/
theorem timestamps_of_run {W : Type} (env : NativeEnv W) (videoUri : String) (duration : ℚ)
    (N : ℕ) (w : W) :
    (extractFramesNative env videoUri duration N w).2.log.map Attempt.timeMs
      = (List.range N).map
          (fun (k : ℕ) => Int.floor (duration * (((k : ℚ) + 1) / ((N : ℚ) + 1)))) := by
  rw [(extractFramesNative_spec env videoUri duration N w).2.2.1]
  simp [evenRatios, Function.comp_def]

theorem mem_timestamps {W : Type} (env : NativeEnv W) (videoUri : String) (duration : ℚ)
    (N : ℕ) (w : W) (t : ℤ) :
    t ∈ (extractFramesNative env videoUri duration N w).2.log.map Attempt.timeMs
      ↔ ∃ k : ℕ, k < N ∧ t = Int.floor (duration * (((k : ℚ) + 1) / ((N : ℚ) + 1))) := by
  rw [timestamps_of_run, List.mem_map]
  constructor
  · rintro ⟨k, hk, rfl⟩
    exact ⟨k, List.mem_range.mp hk, rfl⟩
  · rintro ⟨k, hk, rfl⟩
    exact ⟨k, List.mem_range.mpr hk, rfl⟩

/-- C12. For every `frameCount = N ≥ 1` the ratios computed by the loop are strictly
increasing in `i`, and every ratio is strictly greater than 0 and strictly less than 1. -/
theorem ratios_increasing_in_unit_interval (N : ℕ) (_hN : 1 ≤ N) :
    List.Pairwise (fun x y => x < y) (nativeRatios N)
    ∧ (∀ r ∈ nativeRatios N, 0 < r ∧ r < 1)
    ∧ (∀ r ∈ nativeRatios N, r ≠ 0 ∧ r ≠ 1) := by
  rw [nativeRatios_eq]
  refine ⟨evenRatios_pairwise_lt N, evenRatios_pos_lt_one N, ?_⟩
  intro r hr
  obtain ⟨h0, h1⟩ := evenRatios_pos_lt_one N r hr
  exact ⟨ne_of_gt h0, ne_of_lt h1⟩

theorem ratios_increasing_in_unit_interval_witness :
    (1 : ℕ) ≤ 4 ∧ List.Pairwise (fun x y => x < y) (nativeRatios 4)
      ∧ (∀ r ∈ nativeRatios 4, 0 < r ∧ r < 1) :=
  ⟨by decide, (ratios_increasing_in_unit_interval 4 (by decide)).1,
    (ratios_increasing_in_unit_interval 4 (by decide)).2.1⟩

end Sampler

namespace Sampler

/-- C14. For every `frameCount = N ≥ 1` and every duration `D > 0`, every timestamp
`floor(D * i/(N+1))` requested from the device is strictly less than `D`: the very last
instant of the video is never sampled. -/
theorem last_instant_never_sampled {W : Type} (env : NativeEnv W) (videoUri : String)
    (D : ℚ) (N : ℕ) (w : W) (_hN : 1 ≤ N) (hD : 0 < D) :
    ∀ t ∈ (extractFramesNative env videoUri D N w).2.log.map Attempt.timeMs,
      ((t : ℤ) : ℚ) < D := by
  intro t ht
  obtain ⟨k, hk, rfl⟩ := (mem_timestamps env videoUri D N w t).mp ht
  have hr := evenRatios_pos_lt_one N _ ((mem_evenRatios N _).mpr ⟨k, hk, rfl⟩)
  calc ((Int.floor (D * (((k : ℚ) + 1) / ((N : ℚ) + 1))) : ℤ) : ℚ)
      ≤ D * (((k : ℚ) + 1) / ((N : ℚ) + 1)) := Int.floor_le _
    _ < D * 1 := mul_lt_mul_of_pos_left hr.2 hD
    _ = D := mul_one D

theorem last_instant_never_sampled_witness :
    (1 : ℕ) ≤ 4 ∧ (0 : ℚ) < 12000
    ∧ (∀ t ∈ (extractFramesNative deviceOk "clip.mp4" 12000 4 ()).2.log.map Attempt.timeMs,
        ((t : ℤ) : ℚ) < 12000) :=
  ⟨by decide, by norm_num,
    last_instant_never_sampled deviceOk "clip.mp4" 12000 4 () (by decide) (by norm_num)⟩

end Sampler

namespace CoachScreen

open Api

/-- The message the `catch` clause of line 85 stores for a thrown `err.message`. -/
theorem shown_ne_empty (msg : String) :
    (if msg ≠ "" then msg else "Errore durante l'analisi. Riprova.") ≠ "" := by
  by_cases h : msg = ""
  · simp [h]
  · simp [h]

/-- The five ways the `try` block of `handleAnalysis` can end. -/
theorem handleAnalysisTry_cases (rt : Runtime) (c : Collaborators) (v : VideoAsset)
    (s1 : ScreenState) :
    (∃ msg, c.extractFrames v.uri (analysisDuration v) 4 = Except.error msg
      ∧ handleAnalysisTry rt c v s1
        = (some msg, { s1 with activeStep := 0 },
            [Effect.setActiveStep 0, Effect.extractFrames v.uri (analysisDuration v) 4]))
    ∨ (c.extractFrames v.uri (analysisDuration v) 4 = Except.ok []
      ∧ handleAnalysisTry rt c v s1
        = (some "Impossibile estrarre frame dal video. Prova con un video MP4 diverso.",
            { s1 with activeStep := 0 },
            [Effect.setActiveStep 0, Effect.extractFrames v.uri (analysisDuration v) 4]))
    ∨ (∃ frames msg, c.extractFrames v.uri (analysisDuration v) 4 = Except.ok frames
      ∧ frames ≠ [] ∧ c.analyzeFrames frames "" "it" = Except.error msg
      ∧ handleAnalysisTry rt c v s1
        = (some msg, { s1 with activeStep := 2 },
            [Effect.setActiveStep 0, Effect.extractFrames v.uri (analysisDuration v) 4,
              Effect.setActiveStep 1, Effect.setTimeout 900, Effect.setActiveStep 2,
              Effect.analyzeFrames frames "" "it"]))
    ∨ (∃ frames data msg, c.extractFrames v.uri (analysisDuration v) 4 = Except.ok frames
      ∧ frames ≠ [] ∧ c.analyzeFrames frames "" "it" = Except.ok data
      ∧ data.getProp rt "analysis" = Except.error msg
      ∧ handleAnalysisTry rt c v s1
        = (some msg, { s1 with activeStep := 3 },
            [Effect.setActiveStep 0, Effect.extractFrames v.uri (analysisDuration v) 4,
              Effect.setActiveStep 1, Effect.setTimeout 900, Effect.setActiveStep 2,
              Effect.analyzeFrames frames "" "it", Effect.setActiveStep 3,
              Effect.setTimeout 600]))
    ∨ (∃ frames data analysis,
        c.extractFrames v.uri (analysisDuration v) 4 = Except.ok frames
      ∧ frames ≠ [] ∧ c.analyzeFrames frames "" "it" = Except.ok data
      ∧ data.getProp rt "analysis" = Except.ok analysis
      ∧ handleAnalysisTry rt c v s1
        = (none, { s1 with activeStep := 3, result := analysis },
            [Effect.setActiveStep 0, Effect.extractFrames v.uri (analysisDuration v) 4,
              Effect.setActiveStep 1, Effect.setTimeout 900, Effect.setActiveStep 2,
              Effect.analyzeFrames frames "" "it", Effect.setActiveStep 3,
              Effect.setTimeout 600, Effect.setResult analysis])) := by
  rcases hx : c.extractFrames v.uri (analysisDuration v) 4 with msg | frames
  · exact Or.inl ⟨msg, rfl, by simp [handleAnalysisTry, hx]⟩
  · by_cases hf : frames = []
    · subst hf
      exact Or.inr (Or.inl ⟨rfl, by simp [handleAnalysisTry, hx]⟩)
    · have hlen : frames.length ≠ 0 := fun h => hf (List.length_eq_zero.mp h)
      rcases ha : c.analyzeFrames frames "" "it" with msg | data
      · exact Or.inr (Or.inr (Or.inl ⟨frames, msg, rfl, hf, ha,
          by simp [handleAnalysisTry, hx, hlen, ha]⟩))
      · rcases hp : data.getProp rt "analysis" with msg | analysis
        · exact Or.inr (Or.inr (Or.inr (Or.inl ⟨frames, data, msg, rfl, hf, ha, hp,
            by simp [handleAnalysisTry, hx, hlen, ha, hp]⟩)))
        · exact Or.inr (Or.inr (Or.inr (Or.inr ⟨frames, data, analysis, rfl, hf, ha, hp,
            by simp [handleAnalysisTry, hx, hlen, ha, hp]⟩)))

/-- With no video selected `handleAnalysis` returns at once. -/
theorem handleAnalysis_no_video (rt : Runtime) (p : Props) (c : Collaborators)
    (s : ScreenState) (hv : s.videoAsset = none) : handleAnalysis rt p c s = (s, []) := by
  simp [handleAnalysis, hv]

/-- With a video selected and the gate closed `handleAnalysis` alerts and returns. -/
theorem handleAnalysis_blocked (rt : Runtime) (p : Props) (c : Collaborators)
    (s : ScreenState) (v : VideoAsset) (hv : s.videoAsset = some v) (hg : ¬ p.passesGate) :
    handleAnalysis rt p c s
      = (s, [Effect.alert "Limite raggiunto"
              "Hai esaurito le analisi gratuite. Passa a Pro per analisi illimitate!"]
            ++ (if p.onUpgrade then [Effect.onUpgrade] else [])) := by
  have h1 : p.isPremium = false := by
    cases h : p.isPremium
    · rfl
    · exact absurd (Or.inl h) hg
  have h2 : p.remaining ≤ 0 := not_lt.mp (fun h => hg (Or.inr h))
  simp [handleAnalysis, hv, h1, h2]

/-- With a video selected and the gate open, `handleAnalysis` is the three setters of
lines 58-60, the `try` block, the `catch` clause when it threw, and `finally`. -/
theorem handleAnalysis_pass (rt : Runtime) (p : Props) (c : Collaborators)
    (s : ScreenState) (v : VideoAsset) (hv : s.videoAsset = some v) (hg : p.passesGate) :
    handleAnalysis rt p c s
      = match handleAnalysisTry rt c v
          { s with analyzing := true, result := JsVal.null, error := none } with
        | (some msg, s2, log2) =>
          ({ s2 with
              error := some (if msg ≠ "" then msg else "Errore durante l'analisi. Riprova."),
              analyzing := false },
            [Effect.setAnalyzing true, Effect.setResult JsVal.null, Effect.setError none]
              ++ log2
              ++ [Effect.setError
                    (some (if msg ≠ "" then msg else "Errore durante l'analisi. Riprova.")),
                  Effect.setAnalyzing false])
        | (none, s2, log2) =>
          ({ s2 with analyzing := false },
            [Effect.setAnalyzing true, Effect.setResult JsVal.null, Effect.setError none]
              ++ log2 ++ [Effect.setAnalyzing false]) := by
  have hgate := gate_closed_of_passesGate p hg
  obtain ⟨va, an, st, re, er⟩ := s
  simp only at hv
  subst hv
  simp only [handleAnalysis, hgate]
  rfl

end CoachScreen

namespace CoachScreen

open Api

/-- A run that passes the gate sets `analyzing` to true and calls the sampler once, with
the video's uri, the duration of line 65 and the frame count 4. -/
theorem pass_starts_pipeline (rt : Runtime) (p : Props) (c : Collaborators)
    (s : ScreenState) (v : VideoAsset) (hv : s.videoAsset = some v) (hg : p.passesGate) :
    Effect.setAnalyzing true ∈ (handleAnalysis rt p c s).2
    ∧ Effect.extractFrames v.uri (analysisDuration v) 4 ∈ (handleAnalysis rt p c s).2 := by
  rw [handleAnalysis_pass rt p c s v hv hg]
  rcases handleAnalysisTry_cases rt c v
      { s with analyzing := true, result := JsVal.null, error := none } with
    ⟨msg, _, ht⟩ | ⟨_, ht⟩ | ⟨frames, msg, _, _, _, ht⟩ | ⟨frames, data, msg, _, _, _, _, ht⟩
      | ⟨frames, data, analysis, _, _, _, _, ht⟩ <;>
    rw [ht] <;> simp

/-- C15. With a video selected, `handleAnalysis` passes the entry gate (it sets
`analyzing = true` and calls the sampler) if and only if the user is premium
(`tier = 'premium'`) or `remaining > 0`, where `remaining` is `user.remainingAnalysis`
and is 1 when that field (or the user) is absent; a premium user is never blocked,
whatever the remaining count. -/
theorem gate_passes_iff (rt : Runtime) (p : Props) (c : Collaborators) (s : ScreenState)
    (v : VideoAsset) (hv : s.videoAsset = some v) :
    ((Effect.setAnalyzing true ∈ (handleAnalysis rt p c s).2
        ∧ Effect.extractFrames v.uri (analysisDuration v) 4 ∈ (handleAnalysis rt p c s).2)
      ↔ (p.isPremium = true ∨ 0 < p.remaining))
    ∧ (p.isPremium = true ↔ ∃ u, p.user = some u ∧ u.tier = some "premium")
    ∧ (∀ u n, p.user = some u → u.remainingAnalysis = some n → p.remaining = n)
    ∧ (∀ u, p.user = some u → u.remainingAnalysis = none → p.remaining = 1)
    ∧ (p.user = none → p.remaining = 1)
    ∧ (p.isPremium = true →
        Effect.setAnalyzing true ∈ (handleAnalysis rt p c s).2
        ∧ Effect.extractFrames v.uri (analysisDuration v) 4 ∈ (handleAnalysis rt p c s).2) := by
  refine ⟨?_, ?_, ?_, ?_, ?_, ?_⟩
  · constructor
    · intro h
      by_contra hng
      have hb := handleAnalysis_blocked rt p c s v hv hng
      rw [hb] at h
      have h1 := h.1
      cases hu : p.onUpgrade <;> simp [hu] at h1
    · intro h
      exact pass_starts_pipeline rt p c s v hv h
  · unfold Props.isPremium
    cases hu : p.user with
    | none => simp
    | some u => simp
  · intro u n hu hn
    simp [Props.remaining, hu, hn]
  · intro u hu hn
    simp [Props.remaining, hu, hn]
  · intro hu
    simp [Props.remaining, hu]
  · intro h
    exact pass_starts_pipeline rt p c s v hv (Or.inl h)

theorem gate_passes_iff_witness :
    clipPicked.videoAsset = some clip
    ∧ ((Effect.setAnalyzing true ∈
          (handleAnalysis rtExample freeUserExhausted analysisSucceeds clipPicked).2
        ∧ Effect.extractFrames clip.uri (analysisDuration clip) 4 ∈
          (handleAnalysis rtExample freeUserExhausted analysisSucceeds clipPicked).2)
      ↔ (freeUserExhausted.isPremium = true ∨ 0 < freeUserExhausted.remaining)) :=
  ⟨rfl, (gate_passes_iff rtExample freeUserExhausted analysisSucceeds clipPicked clip rfl).1⟩

end CoachScreen

namespace CoachScreen

open Api

/-- A run that passes the gate, samples a non-empty frame list and reads a payload from a
successful response ends with no error. -/
theorem success_path_steps (rt : Runtime) (p : Props) (c : Collaborators) (s : ScreenState)
    (v : VideoAsset) (frames : List String) (data : Json)
    (hv : s.videoAsset = some v) (hgate : p.passesGate)
    (hframes : c.extractFrames v.uri (analysisDuration v) 4 = Except.ok frames)
    (hne : frames ≠ [])
    (hdata : c.analyzeFrames frames "" "it" = Except.ok data)
    (hnn : data ≠ Json.null) :
    (handleAnalysis rt p c s).1.error = none := by
  obtain ⟨analysis, hprop⟩ := getProp_of_ne_null rt data "analysis" hnn
  have hlen : frames.length ≠ 0 := fun h => hne (List.length_eq_zero.mp h)
  have hrun := handleAnalysis_pass rt p c s v hv hgate
  have htry : ∀ s1 : ScreenState, handleAnalysisTry rt c v s1
      = (none, { s1 with activeStep := 3, result := analysis },
          [Effect.setActiveStep 0, Effect.extractFrames v.uri (analysisDuration v) 4,
            Effect.setActiveStep 1, Effect.setTimeout 900, Effect.setActiveStep 2,
            Effect.analyzeFrames frames "" "it", Effect.setActiveStep 3,
            Effect.setTimeout 600, Effect.setResult analysis]) := by
    intro s1
    simp [handleAnalysisTry, hframes, hlen, hdata, hprop]
  rw [htry] at hrun
  rw [hrun]

/-- The result stored by the example run against `analysisSucceeds`. -/
theorem payload_result_example :
    (handleAnalysis rtExample freeUser analysisSucceeds clipPicked).1.result
      = JsVal.json (Json.obj [("score", Json.num 82),
          ("surfer_level", Json.str "intermediate")]) := by
  have hgate : freeUser.passesGate := Or.inr (by decide)
  have hrun := handleAnalysis_pass rtExample freeUser analysisSucceeds clipPicked clip rfl hgate
  have htry : ∀ s1 : ScreenState, handleAnalysisTry rtExample analysisSucceeds clip s1
      = (none, { s1 with
                  activeStep := 3,
                  result := JsVal.json (Json.obj [("score", Json.num 82),
                    ("surfer_level", Json.str "intermediate")]) },
          [Effect.setActiveStep 0, Effect.extractFrames clip.uri (analysisDuration clip) 4,
            Effect.setActiveStep 1, Effect.setTimeout 900, Effect.setActiveStep 2,
            Effect.analyzeFrames ["f1", "f2", "f3", "f4"] "" "it", Effect.setActiveStep 3,
            Effect.setTimeout 600,
            Effect.setResult (JsVal.json (Json.obj [("score", Json.num 82),
              ("surfer_level", Json.str "intermediate")]))]) := by
    intro s1
    have hx : analysisSucceeds.extractFrames clip.uri (analysisDuration clip) 4
        = Except.ok ["f1", "f2", "f3", "f4"] := rfl
    have ha : analysisSucceeds.analyzeFrames ["f1", "f2", "f3", "f4"] "" "it"
        = Except.ok analysisBody := rfl
    simp [handleAnalysisTry, hx, ha, analysisBody, Json.getProp, List.lookup]
  rw [htry] at hrun
  rw [hrun]

/-- The calls of the remote analysis a run of `handleAnalysis` makes, in order: none,
unless a video is selected, the gate is open and the sampler resolved with a non-empty
list `frames`, in which case the single call `analyzeFrames(frames, '', 'it')`. -/
theorem remote_calls_of_run (rt : Runtime) (p : Props) (c : Collaborators)
    (s : ScreenState) :
    ((handleAnalysis rt p c s).2.filter Effect.isRemote = []
      ∧ ¬ (∃ v frames, s.videoAsset = some v ∧ p.passesGate
            ∧ c.extractFrames v.uri (analysisDuration v) 4 = Except.ok frames ∧ frames ≠ []))
    ∨ (∃ v frames, s.videoAsset = some v ∧ p.passesGate
        ∧ c.extractFrames v.uri (analysisDuration v) 4 = Except.ok frames ∧ frames ≠ []
        ∧ (handleAnalysis rt p c s).2.filter Effect.isRemote
            = [Effect.analyzeFrames frames "" "it"]) := by
  cases hv : s.videoAsset with
  | none =>
    left
    rw [handleAnalysis_no_video rt p c s hv]
    exact ⟨rfl, by rintro ⟨v, frames, h, _⟩; cases h⟩
  | some v =>
    by_cases hg : p.passesGate
    · rw [handleAnalysis_pass rt p c s v hv hg]
      rcases handleAnalysisTry_cases rt c v
          { s with analyzing := true, result := JsVal.null, error := none } with
        ⟨msg, hx, ht⟩ | ⟨hx, ht⟩ | ⟨frames, msg, hx, hne, _, ht⟩
          | ⟨frames, data, msg, hx, hne, _, _, ht⟩
          | ⟨frames, data, analysis, hx, hne, _, _, ht⟩
      · left
        rw [ht]
        refine ⟨by simp [Effect.isRemote], ?_⟩
        rintro ⟨v', frames, h, _, hx', _⟩
        cases h
        rw [hx] at hx'
        cases hx'
      · left
        rw [ht]
        refine ⟨by simp [Effect.isRemote], ?_⟩
        rintro ⟨v', frames, h, _, hx', hne⟩
        cases h
        rw [hx] at hx'
        cases hx'
        exact hne rfl
      · right
        rw [ht]
        exact ⟨v, frames, rfl, hg, hx, hne, by simp [Effect.isRemote]⟩
      · right
        rw [ht]
        exact ⟨v, frames, rfl, hg, hx, hne, by simp [Effect.isRemote]⟩
      · right
        rw [ht]
        exact ⟨v, frames, rfl, hg, hx, hne, by simp [Effect.isRemote]⟩
    · left
      rw [handleAnalysis_blocked rt p c s v hv hg]
      refine ⟨?_, ?_⟩
      · cases hu : p.onUpgrade <;> simp [Effect.isRemote]
      · rintro ⟨_, _, _, hg', _⟩
        exact hg hg'

/-- Every call of the sampler a run of `handleAnalysis` makes is for the selected video,
with the duration of line 65 and the frame count 4. -/
theorem sampler_calls_of_run (rt : Runtime) (p : Props) (c : Collaborators)
    (s : ScreenState) (uri : String) (d : ℚ) (n : ℕ)
    (h : Effect.extractFrames uri d n ∈ (handleAnalysis rt p c s).2) :
    ∃ v, s.videoAsset = some v ∧ uri = v.uri ∧ d = analysisDuration v ∧ n = 4 := by
  cases hv : s.videoAsset with
  | none =>
    rw [handleAnalysis_no_video rt p c s hv] at h
    cases h
  | some v =>
    refine ⟨v, rfl, ?_⟩
    by_cases hg : p.passesGate
    · rw [handleAnalysis_pass rt p c s v hv hg] at h
      rcases handleAnalysisTry_cases rt c v
          { s with analyzing := true, result := JsVal.null, error := none } with
        ⟨msg, _, ht⟩ | ⟨_, ht⟩ | ⟨frames, msg, _, _, _, ht⟩
          | ⟨frames, data, msg, _, _, _, _, ht⟩
          | ⟨frames, data, analysis, _, _, _, _, ht⟩ <;>
        rw [ht] at h <;> simpa using h
    · rw [handleAnalysis_blocked rt p c s v hv hg] at h
      cases hu : p.onUpgrade <;> simp [hu] at h

/-- C16. In every run of `handleAnalysis` the remote analysis `analyzeFrames` is called
at most once; it is called exactly once precisely when a video is selected, the gate is
passed and the sampled frame list is non-empty; the call carries the sampled frames
unchanged, in the order the sampler returned them, with spot `''` and language `'it'`;
and the sampler is called with the frame count 4. -/
theorem remote_called_at_most_once (rt : Runtime) (p : Props) (c : Collaborators)
    (s : ScreenState) :
    ((handleAnalysis rt p c s).2.filter Effect.isRemote).length ≤ 1
    ∧ (((handleAnalysis rt p c s).2.filter Effect.isRemote).length = 1
        ↔ ∃ v frames, s.videoAsset = some v ∧ p.passesGate
            ∧ c.extractFrames v.uri (analysisDuration v) 4 = Except.ok frames ∧ frames ≠ [])
    ∧ (∀ fs spot lang, Effect.analyzeFrames fs spot lang ∈ (handleAnalysis rt p c s).2 →
        spot = "" ∧ lang = "it"
        ∧ ∃ v, s.videoAsset = some v
            ∧ c.extractFrames v.uri (analysisDuration v) 4 = Except.ok fs)
    ∧ (∀ uri d n, Effect.extractFrames uri d n ∈ (handleAnalysis rt p c s).2 → n = 4) := by
  refine ⟨?_, ?_, ?_, ?_⟩
  · rcases remote_calls_of_run rt p c s with ⟨h, _⟩ | ⟨v, frames, _, _, _, _, h⟩ <;>
      simp [h]
  · rcases remote_calls_of_run rt p c s with ⟨h, hn⟩ | ⟨v, frames, hv, hg, hx, hne, h⟩
    · constructor
      · intro h1; simp [h] at h1
      · intro h1; exact absurd h1 hn
    · constructor
      · intro _; exact ⟨v, frames, hv, hg, hx, hne⟩
      · intro _; simp [h]
  · intro fs spot lang hmem
    have hf : Effect.analyzeFrames fs spot lang
        ∈ (handleAnalysis rt p c s).2.filter Effect.isRemote :=
      List.mem_filter.mpr ⟨hmem, rfl⟩
    rcases remote_calls_of_run rt p c s with ⟨h, _⟩ | ⟨v, frames, hv, _, hx, _, h⟩
    · rw [h] at hf; cases hf
    · rw [h] at hf
      simp only [List.mem_singleton, Effect.analyzeFrames.injEq] at hf
      obtain ⟨rfl, rfl, rfl⟩ := hf
      exact ⟨rfl, rfl, v, hv, hx⟩
  · intro uri d n h
    obtain ⟨_, _, _, _, hn⟩ := sampler_calls_of_run rt p c s uri d n h
    exact hn

/-- C20. The duration `handleAnalysis` passes to the sampler is the selected video's
duration when that is known and non-zero, and the fallback 10000 ms when it is missing
or zero; so the duration passed to `extractFrames` is never 0 (nor absent). -/
theorem sampler_duration_fallback (rt : Runtime) (p : Props) (c : Collaborators)
    (s : ScreenState) (v : VideoAsset) (hv : s.videoAsset = some v) :
    (∀ d, v.duration = some d → d ≠ 0 → analysisDuration v = d)
    ∧ (v.duration = none → analysisDuration v = 10000)
    ∧ (v.duration = some 0 → analysisDuration v = 10000)
    ∧ analysisDuration v ≠ 0
    ∧ (∀ uri d n, Effect.extractFrames uri d n ∈ (handleAnalysis rt p c s).2 →
        d = analysisDuration v ∧ d ≠ 0) := by
  have hne : analysisDuration v ≠ 0 := by
    unfold analysisDuration
    cases hd : v.duration with
    | none => norm_num
    | some d =>
      by_cases h0 : d = 0
      · simp [h0]
      · simp [h0]
  refine ⟨?_, ?_, ?_, hne, ?_⟩
  · intro d hd h0
    simp [analysisDuration, hd, h0]
  · intro hd
    simp [analysisDuration, hd]
  · intro hd
    simp [analysisDuration, hd]
  · intro uri d n h
    obtain ⟨v', hv', _, hd, _⟩ := sampler_calls_of_run rt p c s uri d n h
    rw [hv] at hv'
    cases hv'
    exact ⟨hd, hd ▸ hne⟩

theorem sampler_duration_fallback_witness :
    clipPicked.videoAsset = some clip
    ∧ analysisDuration clip = 12000
    ∧ analysisDuration { uri := "file:///clip.mp4", duration := some 0 } = 10000
    ∧ analysisDuration { uri := "file:///clip.mp4", duration := none } = 10000 :=
  ⟨rfl,
    (sampler_duration_fallback rtExample freeUser analysisSucceeds clipPicked clip rfl).1
      12000 rfl (by norm_num),
    (sampler_duration_fallback rtExample freeUser analysisSucceeds
      { clipPicked with videoAsset := some { uri := "file:///clip.mp4", duration := some 0 } }
      { uri := "file:///clip.mp4", duration := some 0 } rfl).2.2.1 rfl,
    (sampler_duration_fallback rtExample freeUser analysisSucceeds
      { clipPicked with videoAsset := some { uri := "file:///clip.mp4", duration := none } }
      { uri := "file:///clip.mp4", duration := none } rfl).2.1 rfl⟩

end CoachScreen

namespace CoachScreen

open Api

theorem handleResponse_scoreOnly :
    analysisScoreOnly.analyzeFrames ["f1", "f2", "f3", "f4"] "" "it"
      = Except.ok (Json.obj [("analysis", scoreOnly)]) := by
  simp [analysisScoreOnly, analyzeFrames, backendScoreOnly, handleResponse, Response.ok]

/-- C17, as stated, fails: the 2xx response `{"analysis": {"score": 82}}`, whose payload
lacks `surfer_level` and `summary`, ends the run in the Complete state with that payload
as `result` and no error. -/
theorem incomplete_payload_accepted :
    clipPicked.videoAsset = some clip
    ∧ freeUser.passesGate
    ∧ analysisScoreOnly.analyzeFrames ["f1", "f2", "f3", "f4"] "" "it"
        = Except.ok (Json.obj [("analysis", scoreOnly)])
    ∧ hasRequiredFields (JsVal.json scoreOnly) = false
    ∧ (handleAnalysis rtExample freeUser analysisScoreOnly clipPicked).1.result
        = JsVal.json scoreOnly
    ∧ (handleAnalysis rtExample freeUser analysisScoreOnly clipPicked).1.error = none
    ∧ isComplete (handleAnalysis rtExample freeUser analysisScoreOnly clipPicked).1 = true := by
  have hgate : freeUser.passesGate := Or.inr (by decide)
  have hprop : (Json.obj [("analysis", scoreOnly)]).getProp rtExample "analysis"
      = Except.ok (JsVal.json scoreOnly) := by
    simp [Json.getProp, List.lookup]
  have htry : ∀ s1 : ScreenState, handleAnalysisTry rtExample analysisScoreOnly clip s1
      = (none, { s1 with activeStep := 3, result := JsVal.json scoreOnly },
          [Effect.setActiveStep 0, Effect.extractFrames clip.uri (analysisDuration clip) 4,
            Effect.setActiveStep 1, Effect.setTimeout 900, Effect.setActiveStep 2,
            Effect.analyzeFrames ["f1", "f2", "f3", "f4"] "" "it", Effect.setActiveStep 3,
            Effect.setTimeout 600, Effect.setResult (JsVal.json scoreOnly)]) := by
    intro s1
    have hx : analysisScoreOnly.extractFrames clip.uri (analysisDuration clip) 4
        = Except.ok ["f1", "f2", "f3", "f4"] := rfl
    simp [handleAnalysisTry, hx, handleResponse_scoreOnly, hprop]
  have hrun := handleAnalysis_pass rtExample freeUser analysisScoreOnly clipPicked clip rfl hgate
  rw [htry] at hrun
  refine ⟨rfl, hgate, handleResponse_scoreOnly, ?_, ?_, ?_, ?_⟩
  · simp [hasRequiredFields, scoreOnly, List.lookup]
  · rw [hrun]
  · rw [hrun]
  · rw [hrun]; simp [isComplete, resultShown, JsVal.truthy, scoreOnly]

/-- C17, amended. On a successful response the orchestrator does not validate the
payload. For every run that passes the gate with a non-empty frame list and receives a
successful response `data`: a payload `data.analysis` that is read is stored as `result`
unchanged, with `error = null`, and the run ends Complete exactly when the payload is
truthy; so a missing (absent, `null` or otherwise falsy) payload does not end in
Complete, and a `null` body ends with `error` set. -/
theorem payload_stored_unvalidated (rt : Runtime) (p : Props) (c : Collaborators)
    (s : ScreenState) (v : VideoAsset) (frames : List String) (data : Json)
    (hv : s.videoAsset = some v) (hgate : p.passesGate)
    (hframes : c.extractFrames v.uri (analysisDuration v) 4 = Except.ok frames)
    (hne : frames ≠ [])
    (hdata : c.analyzeFrames frames "" "it" = Except.ok data) :
    (∀ a, data.getProp rt "analysis" = Except.ok a →
        (handleAnalysis rt p c s).1.result = a
        ∧ (handleAnalysis rt p c s).1.error = none
        ∧ isComplete (handleAnalysis rt p c s).1 = a.truthy)
    ∧ (∀ a, data.getProp rt "analysis" = Except.ok a → a.truthy = false →
        isComplete (handleAnalysis rt p c s).1 = false)
    ∧ (data = Json.null →
        (handleAnalysis rt p c s).1.error ≠ none
        ∧ isComplete (handleAnalysis rt p c s).1 = false) := by
  have hlen : frames.length ≠ 0 := fun h => hne (List.length_eq_zero.mp h)
  have hrun := handleAnalysis_pass rt p c s v hv hgate
  have hstored : ∀ a, data.getProp rt "analysis" = Except.ok a →
      (handleAnalysis rt p c s).1.result = a
      ∧ (handleAnalysis rt p c s).1.error = none
      ∧ isComplete (handleAnalysis rt p c s).1 = a.truthy := by
    intro a ha
    have htry : ∀ s1 : ScreenState, handleAnalysisTry rt c v s1
        = (none, { s1 with activeStep := 3, result := a },
            [Effect.setActiveStep 0, Effect.extractFrames v.uri (analysisDuration v) 4,
              Effect.setActiveStep 1, Effect.setTimeout 900, Effect.setActiveStep 2,
              Effect.analyzeFrames frames "" "it", Effect.setActiveStep 3,
              Effect.setTimeout 600, Effect.setResult a]) := by
      intro s1
      simp [handleAnalysisTry, hframes, hlen, hdata, ha]
    rw [htry] at hrun
    rw [hrun]
    simp [isComplete, resultShown]
  refine ⟨hstored, ?_, ?_⟩
  · intro a ha hfalsy
    rw [(hstored a ha).2.2, hfalsy]
  · intro hnull
    subst hnull
    have htry : ∀ s1 : ScreenState, handleAnalysisTry rt c v s1
        = (some (rt.typeErrorMessage "analysis"), { s1 with activeStep := 3 },
            [Effect.setActiveStep 0, Effect.extractFrames v.uri (analysisDuration v) 4,
              Effect.setActiveStep 1, Effect.setTimeout 900, Effect.setActiveStep 2,
              Effect.analyzeFrames frames "" "it", Effect.setActiveStep 3,
              Effect.setTimeout 600]) := by
      intro s1
      simp [handleAnalysisTry, hframes, hlen, hdata, Json.getProp]
    rw [htry] at hrun
    rw [hrun]
    simp [isComplete, resultShown, JsVal.truthy, JsVal.null]

theorem payload_stored_unvalidated_witness :
    clipPicked.videoAsset = some clip ∧ freeUser.passesGate
    ∧ analysisSucceeds.extractFrames clip.uri (analysisDuration clip) 4
        = Except.ok ["f1", "f2", "f3", "f4"]
    ∧ analysisSucceeds.analyzeFrames ["f1", "f2", "f3", "f4"] "" "it" = Except.ok analysisBody
    ∧ (handleAnalysis rtExample freeUser analysisSucceeds clipPicked).1.error = none :=
  have hgate : freeUser.passesGate := Or.inr (by decide)
  ⟨rfl, hgate, rfl, rfl,
    ((payload_stored_unvalidated rtExample freeUser analysisSucceeds clipPicked clip
      ["f1", "f2", "f3", "f4"] analysisBody rfl hgate rfl (by simp) rfl).1
        (JsVal.json (Json.obj [("score", Json.num 82),
          ("surfer_level", Json.str "intermediate")]))
        (by simp [analysisBody, Json.getProp, List.lookup])).2.1⟩

end CoachScreen

namespace CoachScreen

open Api

theorem afterFailedRun_eq :
    afterFailedRun
      = { videoAsset := some clip, analyzing := false, activeStep := 0,
          result := JsVal.null, error := some noFramesMessage } := by
  have hgate : freeUser.passesGate := Or.inr (by decide)
  have hrun := handleAnalysis_pass rtExample freeUser samplerFindsNothing clipPicked clip rfl hgate
  have htry : ∀ s1 : ScreenState, handleAnalysisTry rtExample samplerFindsNothing clip s1
      = (some "Impossibile estrarre frame dal video. Prova con un video MP4 diverso.",
          { s1 with activeStep := 0 },
          [Effect.setActiveStep 0, Effect.extractFrames clip.uri (analysisDuration clip) 4]) := by
    intro s1
    have hx : samplerFindsNothing.extractFrames clip.uri (analysisDuration clip) 4
        = Except.ok [] := rfl
    simp [handleAnalysisTry, hx]
  rw [htry] at hrun
  unfold afterFailedRun
  rw [hrun]
  simp [clipPicked, ScreenState.initial, noFramesMessage]

/-- C18, as stated, fails for the Failed state: at the end of a run that failed for lack
of frames (`error` set, video still selected) the start button is rendered, and a press
on it before any reset runs a new pipeline: the sampler is called again, `error` is
cleared and, here, a result is stored. -/
theorem failed_state_restarts :
    afterFailedRun.error = some noFramesMessage
    ∧ afterFailedRun.analyzing = false
    ∧ previewShown afterFailedRun = true
    ∧ Effect.extractFrames clip.uri (analysisDuration clip) 4
        ∈ (onPressAnalyze rtExample freeUser analysisSucceeds afterFailedRun).2
    ∧ (onPressAnalyze rtExample freeUser analysisSucceeds afterFailedRun).1.error = none
    ∧ (onPressAnalyze rtExample freeUser analysisSucceeds afterFailedRun).1.error
        ≠ afterFailedRun.error := by
  have hgate : freeUser.passesGate := Or.inr (by decide)
  have hshown : previewShown afterFailedRun = true := by
    rw [afterFailedRun_eq]; rfl
  have hvid : afterFailedRun.videoAsset = some clip := by
    rw [afterFailedRun_eq]
  have hpress : onPressAnalyze rtExample freeUser analysisSucceeds afterFailedRun
      = handleAnalysis rtExample freeUser analysisSucceeds afterFailedRun := by
    simp [onPressAnalyze, hshown]
  have hok := success_path_steps rtExample freeUser analysisSucceeds afterFailedRun clip
    ["f1", "f2", "f3", "f4"] analysisBody hvid hgate rfl (by simp) rfl
    (by simp [analysisBody])
  have herr : afterFailedRun.error = some noFramesMessage := by
    rw [afterFailedRun_eq]
  refine ⟨herr, by rw [afterFailedRun_eq], hshown, ?_, ?_, ?_⟩
  · rw [hpress]
    exact (pass_starts_pipeline rtExample freeUser analysisSucceeds afterFailedRun clip hvid
      hgate).2
  · rw [hpress]; exact hok
  · rw [hpress, hok, herr]; simp

end CoachScreen

namespace CoachScreen

open Api

/-- C18, amended. Complete is terminal until reset: in every state with `result` set the
start button is not rendered, so a start request calls neither the sampler nor the
remote analysis and leaves the state unchanged. Failed is not terminal: in every state
with a video selected, `result` not set and no analysis running (the state a failed run
leaves, whatever `error` holds), the start button is rendered and, the gate being open,
a press runs `handleAnalysis`, which clears `error` and calls the sampler. -/
theorem complete_terminal_failed_restartable (rt : Runtime) (p : Props) (c : Collaborators)
    (s : ScreenState) :
    (s.result.truthy = true →
        previewShown s = false ∧ onPressAnalyze rt p c s = (s, []))
    ∧ (∀ v, s.videoAsset = some v → s.analyzing = false → s.result.truthy = false →
        p.passesGate →
        previewShown s = true
        ∧ onPressAnalyze rt p c s = handleAnalysis rt p c s
        ∧ Effect.setError none ∈ (onPressAnalyze rt p c s).2
        ∧ Effect.extractFrames v.uri (analysisDuration v) 4 ∈ (onPressAnalyze rt p c s).2) := by
  constructor
  · intro hres
    have hshown : previewShown s = false := by simp [previewShown, hres]
    exact ⟨hshown, by simp [onPressAnalyze, hshown]⟩
  · intro v hv han hres hg
    have hshown : previewShown s = true := by simp [previewShown, hv, han, hres]
    have hpress : onPressAnalyze rt p c s = handleAnalysis rt p c s := by
      simp [onPressAnalyze, hshown]
    refine ⟨hshown, hpress, ?_, ?_⟩
    · rw [hpress, handleAnalysis_pass rt p c s v hv hg]
      rcases handleAnalysisTry_cases rt c v
          { s with analyzing := true, result := JsVal.null, error := none } with
        ⟨msg, _, ht⟩ | ⟨_, ht⟩ | ⟨frames, msg, _, _, _, ht⟩
          | ⟨frames, data, msg, _, _, _, _, ht⟩
          | ⟨frames, data, analysis, _, _, _, _, ht⟩ <;>
        rw [ht] <;> simp
    · rw [hpress]
      exact (pass_starts_pipeline rt p c s v hv hg).2

theorem complete_terminal_failed_restartable_witness :
    ((handleAnalysis rtExample freeUser analysisSucceeds clipPicked).1.result.truthy = true
      ∧ onPressAnalyze rtExample freeUser analysisSucceeds
          (handleAnalysis rtExample freeUser analysisSucceeds clipPicked).1
        = ((handleAnalysis rtExample freeUser analysisSucceeds clipPicked).1, []))
    ∧ (afterFailedRun.videoAsset = some clip ∧ afterFailedRun.analyzing = false
      ∧ afterFailedRun.result.truthy = false ∧ freeUser.passesGate
      ∧ Effect.extractFrames clip.uri (analysisDuration clip) 4
          ∈ (onPressAnalyze rtExample freeUser analysisSucceeds afterFailedRun).2) := by
  have hgate : freeUser.passesGate := Or.inr (by decide)
  have hres : (handleAnalysis rtExample freeUser analysisSucceeds clipPicked).1.result.truthy
      = true := by
    have h := (payload_result_example)
    rw [h]; rfl
  have hv : afterFailedRun.videoAsset = some clip := by rw [afterFailedRun_eq]
  have han : afterFailedRun.analyzing = false := by rw [afterFailedRun_eq]
  have hr : afterFailedRun.result.truthy = false := by rw [afterFailedRun_eq]; rfl
  exact ⟨⟨hres,
      ((complete_terminal_failed_restartable rtExample freeUser analysisSucceeds
        (handleAnalysis rtExample freeUser analysisSucceeds clipPicked).1).1 hres).2⟩,
    ⟨hv, han, hr, hgate,
      ((complete_terminal_failed_restartable rtExample freeUser analysisSucceeds
        afterFailedRun).2 clip hv han hr hgate).2.2.2⟩⟩

end CoachScreen

namespace Sampler

/-- C19 fails on the code. On a device where every thumbnail is created and every read
of it rejects, `extractFramesNative` resolves with no frame, never calls `deleteAsync`,
and leaves on disk all four temporary files it created. -/
theorem temp_files_leak_when_read_fails :
    (extractFramesNative deviceUnreadable "clip.mp4" 12000 4 (0, [])).1 = Except.ok []
    ∧ (extractFramesNative deviceUnreadable "clip.mp4" 12000 4 (0, [])).2.world
        = (4, ["thumb-0.jpg", "thumb-1.jpg", "thumb-2.jpg", "thumb-3.jpg"])
    ∧ (extractFramesNative deviceUnreadable "clip.mp4" 12000 4 (0, [])).2.log.map
          Attempt.thumbnail
        = [Except.ok "thumb-0.jpg", Except.ok "thumb-1.jpg", Except.ok "thumb-2.jpg",
            Except.ok "thumb-3.jpg"]
    ∧ (extractFramesNative deviceUnreadable "clip.mp4" 12000 4 (0, [])).2.log.map
          Attempt.deleted
        = [none, none, none, none] := by
  simp [extractFramesNative, nativeRatios_eq, evenRatios, List.range_succ, nativeBody,
    deviceUnreadable]
  decide

end Sampler

namespace CoachScreen

open Api

/-- C21. Choosing a new video clears the previous outcome: in every state, a `pickVideo`
that is granted the permission and gets a non-cancelled selection whose first asset is
`a` yields `videoAsset = a`, `result = null` and `error = null`; a denied permission or
a cancelled selection leaves `videoAsset`, `result` and `error` unchanged. -/
theorem pickVideo_clears_outcome (o : PickerOutcome) (s : ScreenState) :
    (∀ a rest, o.status = "granted" → o.canceled = false → o.assets = some (a :: rest) →
        (pickVideo o s).1.videoAsset = some a
        ∧ (pickVideo o s).1.result = JsVal.null
        ∧ (pickVideo o s).1.error = none)
    ∧ (o.status ≠ "granted" ∨ o.canceled = true →
        (pickVideo o s).1.videoAsset = s.videoAsset
        ∧ (pickVideo o s).1.result = s.result
        ∧ (pickVideo o s).1.error = s.error) := by
  constructor
  · intro a rest hs hc ha
    simp [pickVideo, hs, hc, ha]
  · rintro (hs | hc)
    · simp [pickVideo, hs]
    · unfold pickVideo
      split
      · exact ⟨rfl, rfl, rfl⟩
      · rw [hc]
        exact ⟨rfl, rfl, rfl⟩

theorem pickVideo_clears_outcome_witness :
    (pickedClip.status = "granted" ∧ pickedClip.canceled = false
      ∧ pickedClip.assets = some [clip]
      ∧ (pickVideo pickedClip afterFailedRun).1.error = none)
    ∧ ((({ pickedClip with canceled := true } : PickerOutcome).canceled = true)
      ∧ (pickVideo { pickedClip with canceled := true } afterFailedRun).1.error
          = afterFailedRun.error) :=
  ⟨⟨rfl, rfl, rfl,
      ((pickVideo_clears_outcome pickedClip afterFailedRun).1 clip [] rfl rfl rfl).2.2⟩,
    ⟨rfl,
      ((pickVideo_clears_outcome { pickedClip with canceled := true } afterFailedRun).2
        (Or.inr rfl)).2.2⟩⟩

end CoachScreen

namespace Api

/-- C22 fails on the code. For the non-ok response with status 500 and JSON body `null`,
which has no `message` field, `handleResponse` raises the `TypeError` of reading
`data.message` instead of the fallback `'Errore server (500)'` that line 18 builds for
every other body without a message: the `||` fallback is never reached. -/
theorem handleResponse_null_body_error :
    (({ status := 500, json := Except.ok Json.null } : Response).ok = false)
    ∧ handleResponse CoachScreen.rtExample { status := 500, json := Except.ok Json.null }
        = Except.error "Cannot read property message of null"
    ∧ handleResponse CoachScreen.rtExample { status := 500, json := Except.ok (Json.obj []) }
        = Except.error "Errore server (500)"
    ∧ handleResponse CoachScreen.rtExample { status := 500, json := Except.ok Json.null }
        ≠ Except.error "Errore server (500)" := by
  have h : handleResponse CoachScreen.rtExample { status := 500, json := Except.ok Json.null }
      = Except.error "Cannot read property message of null" := by
    simp [handleResponse, Response.ok, Json.getProp, CoachScreen.rtExample]
  have h2 : handleResponse CoachScreen.rtExample
        { status := 500, json := Except.ok (Json.obj []) }
      = Except.error "Errore server (500)" := by
    simp [handleResponse, Response.ok, Json.getProp, List.lookup, JsVal.truthy]
    decide
  refine ⟨by decide, h, h2, ?_⟩
  rw [h]
  intro hc
  injection hc with hc
  exact absurd hc (by decide)

/-- What `handleResponse` does, case by case: it raises if and only if the response is
not ok or its body cannot be parsed; an ok response returns the parsed body unchanged; a
non-ok response whose body has a non-empty string `message` raises it, one whose
`message` is absent, `null` or empty raises the fallback `'Errore server (<status>)'`,
and one whose body is JSON `null` raises the `TypeError` of the property read. -/
theorem handleResponse_contract (rt : Runtime) (res : Response) :
    ((∃ e, handleResponse rt res = Except.error e)
        ↔ (res.ok = false ∨ ∃ e, res.json = Except.error e))
    ∧ (∀ data, res.ok = true → res.json = Except.ok data →
        handleResponse rt res = Except.ok data)
    ∧ (∀ e, res.json = Except.error e → handleResponse rt res = Except.error e)
    ∧ (∀ data m, res.ok = false → res.json = Except.ok data →
        data.getProp rt "message" = Except.ok (JsVal.json (Json.str m)) → m ≠ "" →
        handleResponse rt res = Except.error m)
    ∧ (∀ data m, res.ok = false → res.json = Except.ok data →
        data.getProp rt "message" = Except.ok m →
        (m = JsVal.undefined ∨ m = JsVal.null ∨ m = JsVal.json (Json.str "")) →
        handleResponse rt res
          = Except.error ("Errore server (" ++ toString res.status ++ ")"))
    ∧ (res.ok = false → res.json = Except.ok Json.null →
        handleResponse rt res = Except.error (rt.typeErrorMessage "message")) := by
  refine ⟨?_, ?_, ?_, ?_, ?_, ?_⟩
  · rcases hj : res.json with e | data
    · simp [handleResponse, hj]
    · cases hok : res.ok
      · rcases hp : data.getProp rt "message" with e | m
        · simp [handleResponse, hj, hok, hp]
        · cases ht : m.truthy <;> simp [handleResponse, hj, hok, hp, ht]
      · simp [handleResponse, hj, hok]
  · intro data hok hj
    simp [handleResponse, hj, hok]
  · intro e hj
    simp [handleResponse, hj]
  · intro data m hok hj hp hm
    simp [handleResponse, hj, hok, hp, JsVal.truthy, hm, errorMessageOf]
  · intro data m hok hj hp hm
    rcases hm with rfl | rfl | rfl <;>
      simp [handleResponse, hj, hok, hp, JsVal.truthy, JsVal.null]
  · intro hok hj
    simp [handleResponse, hj, hok, Json.getProp]

theorem handleResponse_contract_witness :
    (({ status := 500,
        json := Except.ok (Json.obj [("message", Json.str "overloaded")]) } : Response).ok
        = false
      ∧ handleResponse CoachScreen.rtExample
          { status := 500, json := Except.ok (Json.obj [("message", Json.str "overloaded")]) }
        = Except.error "overloaded")
    ∧ (({ status := 503, json := Except.ok (Json.obj []) } : Response).ok = false
      ∧ handleResponse CoachScreen.rtExample { status := 503, json := Except.ok (Json.obj []) }
        = Except.error "Errore server (503)")
    ∧ (({ status := 200, json := Except.ok (Json.obj []) } : Response).ok = true
      ∧ handleResponse CoachScreen.rtExample { status := 200, json := Except.ok (Json.obj []) }
        = Except.ok (Json.obj [])) :=
  ⟨⟨by decide,
      (handleResponse_contract CoachScreen.rtExample
        { status := 500,
          json := Except.ok (Json.obj [("message", Json.str "overloaded")]) }).2.2.2.1
        (Json.obj [("message", Json.str "overloaded")]) "overloaded" (by decide) rfl
        (by simp [Json.getProp, List.lookup]) (by decide)⟩,
    ⟨by decide,
      (handleResponse_contract CoachScreen.rtExample
        { status := 503, json := Except.ok (Json.obj []) }).2.2.2.2.1
        (Json.obj []) JsVal.undefined (by decide) rfl
        (by simp [Json.getProp, List.lookup]) (Or.inl rfl)⟩,
    ⟨by decide,
      (handleResponse_contract CoachScreen.rtExample
        { status := 200, json := Except.ok (Json.obj []) }).2.1
        (Json.obj []) (by decide) rfl⟩⟩

end Api

namespace CoachScreen

open Api

/-- The step index a run of `handleAnalysis` leaves, and the indices it shows on the
way, are below 4 when the index it started from is. -/
theorem handleAnalysis_steps (rt : Runtime) (p : Props) (c : Collaborators)
    (s : ScreenState) :
    (s.activeStep < 4 → (handleAnalysis rt p c s).1.activeStep < 4)
    ∧ (∀ k ∈ stepsEmitted (handleAnalysis rt p c s).2, k < 4) := by
  cases hv : s.videoAsset with
  | none =>
    rw [handleAnalysis_no_video rt p c s hv]
    exact ⟨fun h => h, by simp [stepsEmitted]⟩
  | some v =>
    by_cases hg : p.passesGate
    · rw [handleAnalysis_pass rt p c s v hv hg]
      rcases handleAnalysisTry_cases rt c v
          { s with analyzing := true, result := JsVal.null, error := none } with
        ⟨msg, _, ht⟩ | ⟨_, ht⟩ | ⟨frames, msg, _, _, _, ht⟩
          | ⟨frames, data, msg, _, _, _, _, ht⟩
          | ⟨frames, data, analysis, _, _, _, _, ht⟩ <;>
        rw [ht] <;> simp [stepsEmitted]
    · rw [handleAnalysis_blocked rt p c s v hv hg]
      refine ⟨fun h => h, ?_⟩
      cases hu : p.onUpgrade <;> simp [stepsEmitted]

theorem pickVideo_activeStep (o : PickerOutcome) (s : ScreenState) :
    (pickVideo o s).1.activeStep = s.activeStep := by
  unfold pickVideo
  split
  · rfl
  · split <;> rfl

/-- C23. In every state reachable from the initial state by any sequence of `pickVideo`,
`handleAnalysis` (with any sampler and remote outcomes) and `reset`, `activeStep` is one
of 0, 1, 2, 3: the label `STEPS[activeStep]` is defined, `1 ≤ activeStep + 1 ≤
STEPS.length`, the progress fraction `(activeStep + 1) / STEPS.length` lies in `(0, 1]`,
and every index a further run passes to `setActiveStep` is in range too. -/
theorem activeStep_in_range (rt : Runtime) (s : ScreenState) (h : Reachable rt s) :
    s.activeStep < STEPS.length
    ∧ (∃ label, STEPS[s.activeStep]? = some label)
    ∧ 1 ≤ s.activeStep + 1
    ∧ s.activeStep + 1 ≤ STEPS.length
    ∧ (0 : ℚ) < ((s.activeStep : ℚ) + 1) / (STEPS.length : ℚ)
    ∧ ((s.activeStep : ℚ) + 1) / (STEPS.length : ℚ) ≤ 1
    ∧ (∀ (p : Props) (c : Collaborators),
        ∀ k ∈ stepsEmitted (handleAnalysis rt p c s).2, k < STEPS.length) := by
  have hlen : STEPS.length = 4 := rfl
  have hinv : s.activeStep < 4 := by
    induction h with
    | init => decide
    | pick o s _ ih => rw [pickVideo_activeStep]; exact ih
    | analyze p c s _ ih => exact (handleAnalysis_steps rt p c s).1 ih
    | clear s _ ih => exact ih
  have hq : ((s.activeStep : ℚ) + 1) ≤ 4 := by
    have : s.activeStep + 1 ≤ 4 := hinv
    exact_mod_cast this
  refine ⟨by rw [hlen]; exact hinv, ?_, by omega, by rw [hlen]; omega, ?_, ?_, ?_⟩
  · rw [List.getElem?_eq_getElem (by rw [hlen]; exact hinv)]
    exact ⟨_, rfl⟩
  · rw [hlen]; positivity
  · rw [hlen]
    push_cast
    rw [div_le_one (by norm_num)]
    exact hq
  · intro p c k hk
    rw [hlen]
    exact (handleAnalysis_steps rt p c s).2 k hk

theorem activeStep_in_range_witness :
    Reachable rtExample (handleAnalysis rtExample freeUser analysisSucceeds
        (pickVideo pickedClip ScreenState.initial).1).1
    ∧ (handleAnalysis rtExample freeUser analysisSucceeds
        (pickVideo pickedClip ScreenState.initial).1).1.activeStep < STEPS.length :=
  have hr : Reachable rtExample (handleAnalysis rtExample freeUser analysisSucceeds
      (pickVideo pickedClip ScreenState.initial).1).1 :=
    Reachable.analyze _ _ _ (Reachable.pick _ _ Reachable.init)
  ⟨hr, (activeStep_in_range rtExample _ hr).1⟩

end CoachScreen

namespace Api

/-- C24. For every frame list `fs`, spot name `s` and language tag `l`, the one request
`analyzeFrames` hands to `fetch` is a POST whose multipart form holds, in append order,
a `frames` field equal to `JSON.stringify` of the array of the strings of `fs` in their
order, a `spot` field equal to `s` if and only if `s` is non-empty, and a `lang` field
equal to `l`; omitted arguments default to `[]`, `''` and `'it'`. -/
theorem analyzeFrames_request (rt : Runtime) (api : ApiEnv) (fs : List String)
    (s l : String) :
    (∃ req : Request,
      (∀ fetch : Request → Except String Response,
        analyzeFrames rt { api with fetch := fetch } fs s l
          = match fetch req with
            | Except.error e => Except.error e
            | Except.ok res => handleResponse rt res)
      ∧ req.method = "POST"
      ∧ req.form
          = [("frames", rt.stringify (Json.arr (fs.map Json.str)))]
              ++ (if s ≠ "" then [("spot", s)] else []) ++ [("lang", l)]
      ∧ req.form.lookup "frames" = some (rt.stringify (Json.arr (fs.map Json.str)))
      ∧ req.form.lookup "lang" = some l
      ∧ (req.form.lookup "spot" = some s ↔ s ≠ "")
      ∧ (s = "" → req.form.lookup "spot" = none))
    ∧ analyzeFramesWithDefaults rt api none none none = analyzeFrames rt api [] "" "it"
    ∧ analyzeFramesWithDefaults rt api (some fs) (some s) (some l)
        = analyzeFrames rt api fs s l := by
  refine ⟨?_, rfl, rfl⟩
  by_cases hs : s = ""
  · subst hs
    refine ⟨{ url := api.baseUrl ++ "/api/coach/analyze", method := "POST",
              headers := authHeaders api,
              form := [("frames", rt.stringify (Json.arr (fs.map Json.str))), ("lang", l)] },
      ?_, rfl, by simp, ?_, ?_, ?_, ?_⟩
    · intro fetch
      simp [analyzeFrames, authHeaders]
    · simp [List.lookup]
    · have h : ("lang" == "frames") = false := by decide
      simp [List.lookup, h]
    · have h1 : ("spot" == "frames") = false := by decide
      have h2 : ("spot" == "lang") = false := by decide
      simp [List.lookup, h1, h2]
    · intro _
      have h1 : ("spot" == "frames") = false := by decide
      have h2 : ("spot" == "lang") = false := by decide
      simp [List.lookup, h1, h2]
  · refine ⟨{ url := api.baseUrl ++ "/api/coach/analyze", method := "POST",
              headers := authHeaders api,
              form := [("frames", rt.stringify (Json.arr (fs.map Json.str))), ("spot", s),
                ("lang", l)] },
      ?_, rfl, by simp [hs], ?_, ?_, ?_, ?_⟩
    · intro fetch
      simp [analyzeFrames, authHeaders, hs]
    · simp [List.lookup]
    · have h1 : ("lang" == "frames") = false := by decide
      have h2 : ("lang" == "spot") = false := by decide
      simp [List.lookup, h1, h2]
    · have h1 : ("spot" == "frames") = false := by decide
      simp [List.lookup, h1, hs]
    · intro h
      exact absurd h hs

end Api

namespace CoachScreen

open Api

/-- C25, as stated, fails: `handleAnalysis` does not read `analyzing`. Called in a state
with `analyzing = true` and a video selected, it runs a second pipeline: it calls the
sampler and the remote analysis and resets `activeStep`, `result` and `error`. -/
theorem handleAnalysis_ignores_analyzing :
    clipInFlight.analyzing = true
    ∧ Effect.extractFrames clip.uri (analysisDuration clip) 4
        ∈ (handleAnalysis rtExample freeUser analysisSucceeds clipInFlight).2
    ∧ Effect.analyzeFrames ["f1", "f2", "f3", "f4"] "" "it"
        ∈ (handleAnalysis rtExample freeUser analysisSucceeds clipInFlight).2
    ∧ Effect.setActiveStep 0
        ∈ (handleAnalysis rtExample freeUser analysisSucceeds clipInFlight).2
    ∧ Effect.setResult JsVal.null
        ∈ (handleAnalysis rtExample freeUser analysisSucceeds clipInFlight).2
    ∧ Effect.setError none
        ∈ (handleAnalysis rtExample freeUser analysisSucceeds clipInFlight).2 := by
  have hgate : freeUser.passesGate := Or.inr (by decide)
  have hrun := handleAnalysis_pass rtExample freeUser analysisSucceeds clipInFlight clip rfl
    hgate
  rcases handleAnalysisTry_cases rtExample analysisSucceeds clip
      { clipInFlight with analyzing := true, result := JsVal.null, error := none } with
    ⟨msg, hx, _⟩ | ⟨hx, _⟩ | ⟨frames, msg, _, _, ha, _⟩
      | ⟨frames, data, msg, hx, _, ha, hp, _⟩
      | ⟨frames, data, analysis, hx, _, _, _, ht⟩
  · cases hx
  · cases hx
  · cases ha
  · have hf : frames = ["f1", "f2", "f3", "f4"] := by
      have : Except.ok ["f1", "f2", "f3", "f4"] = (Except.ok frames : Except String _) := hx
      injection this with this
      exact this.symm
    subst hf
    have hd : data = analysisBody := by
      have : Except.ok analysisBody = (Except.ok data : Except String _) := ha
      injection this with this
      exact this.symm
    subst hd
    simp [analysisBody, Json.getProp, List.lookup] at hp
  · have hf : frames = ["f1", "f2", "f3", "f4"] := by
      have : Except.ok ["f1", "f2", "f3", "f4"] = (Except.ok frames : Except String _) := hx
      injection this with this
      exact this.symm
    subst hf
    rw [ht] at hrun
    rw [hrun]
    refine ⟨rfl, ?_, ?_, ?_, ?_, ?_⟩ <;> simp

/-- C25, amended. While `analyzing = true` neither the upload box nor the preview box is
rendered, so no start button exists and a start request reaches no handler: it calls
neither the sampler nor the remote analysis and changes nothing. `handleAnalysis` itself
has no such guard: with a video selected and the gate open it runs the pipeline whatever
`analyzing` holds. -/
theorem no_start_button_while_analyzing (rt : Runtime) (p : Props) (c : Collaborators)
    (s : ScreenState) (han : s.analyzing = true) :
    previewShown s = false
    ∧ uploadShown s = false
    ∧ onPressAnalyze rt p c s = (s, [])
    ∧ (∀ v, s.videoAsset = some v → p.passesGate →
        Effect.extractFrames v.uri (analysisDuration v) 4 ∈ (handleAnalysis rt p c s).2) := by
  have hshown : previewShown s = false := by simp [previewShown, han]
  refine ⟨hshown, by simp [uploadShown, han], by simp [onPressAnalyze, hshown], ?_⟩
  intro v hv hg
  exact (pass_starts_pipeline rt p c s v hv hg).2

theorem no_start_button_while_analyzing_witness :
    clipInFlight.analyzing = true
    ∧ onPressAnalyze rtExample freeUser analysisSucceeds clipInFlight = (clipInFlight, []) :=
  ⟨rfl, (no_start_button_while_analyzing rtExample freeUser analysisSucceeds clipInFlight
    rfl).2.2.1⟩

/-- C26. Every run of `handleAnalysis` that passes the gate ends with
`analyzing = false` and with `result` and `error` not both set. When the `try` block
throws (the sampler rejects, no frame was extracted, the remote analysis rejects, or the
payload read throws) `result` is `null` and `error` is a non-empty string: the thrown
message, or the fallback `'Errore durante l'analisi. Riprova.'` when that is empty.
When nothing is thrown `error` is `null` and `result` is `data.analysis`. -/
theorem run_ends_settled (rt : Runtime) (p : Props) (c : Collaborators) (s : ScreenState)
    (v : VideoAsset) (hv : s.videoAsset = some v) (hg : p.passesGate) :
    (handleAnalysis rt p c s).1.analyzing = false
    ∧ ((handleAnalysis rt p c s).1.error = none
        ∨ (handleAnalysis rt p c s).1.result = JsVal.null)
    ∧ (∀ m, (handleAnalysis rt p c s).1.error = some m → m ≠ "")
    ∧ (∀ msg, c.extractFrames v.uri (analysisDuration v) 4 = Except.error msg →
        (handleAnalysis rt p c s).1.result = JsVal.null
        ∧ (handleAnalysis rt p c s).1.error
            = some (if msg ≠ "" then msg else "Errore durante l'analisi. Riprova."))
    ∧ (c.extractFrames v.uri (analysisDuration v) 4 = Except.ok [] →
        (handleAnalysis rt p c s).1.result = JsVal.null
        ∧ (handleAnalysis rt p c s).1.error
            = some "Impossibile estrarre frame dal video. Prova con un video MP4 diverso.")
    ∧ (∀ frames msg, c.extractFrames v.uri (analysisDuration v) 4 = Except.ok frames →
        frames ≠ [] → c.analyzeFrames frames "" "it" = Except.error msg →
        (handleAnalysis rt p c s).1.result = JsVal.null
        ∧ (handleAnalysis rt p c s).1.error
            = some (if msg ≠ "" then msg else "Errore durante l'analisi. Riprova."))
    ∧ (∀ frames data analysis,
        c.extractFrames v.uri (analysisDuration v) 4 = Except.ok frames →
        frames ≠ [] → c.analyzeFrames frames "" "it" = Except.ok data →
        data.getProp rt "analysis" = Except.ok analysis →
        (handleAnalysis rt p c s).1.error = none
        ∧ (handleAnalysis rt p c s).1.result = analysis) := by
  have hrun := handleAnalysis_pass rt p c s v hv hg
  have hthrow : ∀ (msg : String) (s2 : ScreenState) (log2 : List Effect),
      handleAnalysisTry rt c v
          { s with analyzing := true, result := JsVal.null, error := none }
        = (some msg, s2, log2) →
      (handleAnalysis rt p c s).1
        = { s2 with
            error := some (if msg ≠ "" then msg else "Errore durante l'analisi. Riprova."),
            analyzing := false } := by
    intro msg s2 log2 ht
    rw [hrun, ht]
  have hdone : ∀ (s2 : ScreenState) (log2 : List Effect),
      handleAnalysisTry rt c v
          { s with analyzing := true, result := JsVal.null, error := none }
        = (none, s2, log2) →
      (handleAnalysis rt p c s).1 = { s2 with analyzing := false } := by
    intro s2 log2 ht
    rw [hrun, ht]
  refine ⟨?_, ?_, ?_, ?_, ?_, ?_, ?_⟩
  · rcases handleAnalysisTry_cases rt c v
        { s with analyzing := true, result := JsVal.null, error := none } with
      ⟨msg, _, ht⟩ | ⟨_, ht⟩ | ⟨frames, msg, _, _, _, ht⟩
        | ⟨frames, data, msg, _, _, _, _, ht⟩
        | ⟨frames, data, analysis, _, _, _, _, ht⟩
    · rw [hthrow _ _ _ ht]
    · rw [hthrow _ _ _ ht]
    · rw [hthrow _ _ _ ht]
    · rw [hthrow _ _ _ ht]
    · rw [hdone _ _ ht]
  · rcases handleAnalysisTry_cases rt c v
        { s with analyzing := true, result := JsVal.null, error := none } with
      ⟨msg, _, ht⟩ | ⟨_, ht⟩ | ⟨frames, msg, _, _, _, ht⟩
        | ⟨frames, data, msg, _, _, _, _, ht⟩
        | ⟨frames, data, analysis, _, _, _, _, ht⟩
    · right; rw [hthrow _ _ _ ht]
    · right; rw [hthrow _ _ _ ht]
    · right; rw [hthrow _ _ _ ht]
    · right; rw [hthrow _ _ _ ht]
    · left; rw [hdone _ _ ht]
  · intro m hm
    rcases handleAnalysisTry_cases rt c v
        { s with analyzing := true, result := JsVal.null, error := none } with
      ⟨msg, _, ht⟩ | ⟨_, ht⟩ | ⟨frames, msg, _, _, _, ht⟩
        | ⟨frames, data, msg, _, _, _, _, ht⟩
        | ⟨frames, data, analysis, _, _, _, _, ht⟩
    · rw [hthrow _ _ _ ht] at hm
      simp only [Option.some.injEq] at hm
      rw [← hm]; exact shown_ne_empty _
    · rw [hthrow _ _ _ ht] at hm
      simp only [Option.some.injEq] at hm
      rw [← hm]; exact shown_ne_empty _
    · rw [hthrow _ _ _ ht] at hm
      simp only [Option.some.injEq] at hm
      rw [← hm]; exact shown_ne_empty _
    · rw [hthrow _ _ _ ht] at hm
      simp only [Option.some.injEq] at hm
      rw [← hm]; exact shown_ne_empty _
    · rw [hdone _ _ ht] at hm
      cases hm
  · intro msg hx
    have ht : handleAnalysisTry rt c v
          { s with analyzing := true, result := JsVal.null, error := none }
        = (some msg,
            { s with analyzing := true, result := JsVal.null, error := none, activeStep := 0 },
            [Effect.setActiveStep 0, Effect.extractFrames v.uri (analysisDuration v) 4]) := by
      simp [handleAnalysisTry, hx]
    rw [hthrow _ _ _ ht]
    exact ⟨rfl, rfl⟩
  · intro hx
    have ht : handleAnalysisTry rt c v
          { s with analyzing := true, result := JsVal.null, error := none }
        = (some "Impossibile estrarre frame dal video. Prova con un video MP4 diverso.",
            { s with analyzing := true, result := JsVal.null, error := none, activeStep := 0 },
            [Effect.setActiveStep 0, Effect.extractFrames v.uri (analysisDuration v) 4]) := by
      simp [handleAnalysisTry, hx]
    rw [hthrow _ _ _ ht]
    exact ⟨rfl, by simp⟩
  · intro frames msg hx hne ha
    have hlen : frames.length ≠ 0 := fun h => hne (List.length_eq_zero.mp h)
    have ht : handleAnalysisTry rt c v
          { s with analyzing := true, result := JsVal.null, error := none }
        = (some msg,
            { s with analyzing := true, result := JsVal.null, error := none, activeStep := 2 },
            [Effect.setActiveStep 0, Effect.extractFrames v.uri (analysisDuration v) 4,
              Effect.setActiveStep 1, Effect.setTimeout 900, Effect.setActiveStep 2,
              Effect.analyzeFrames frames "" "it"]) := by
      simp [handleAnalysisTry, hx, hlen, ha]
    rw [hthrow _ _ _ ht]
    exact ⟨rfl, rfl⟩
  · intro frames data analysis hx hne ha hp
    have hlen : frames.length ≠ 0 := fun h => hne (List.length_eq_zero.mp h)
    have ht : handleAnalysisTry rt c v
          { s with analyzing := true, result := JsVal.null, error := none }
        = (none,
            { s with
                analyzing := true, result := analysis, error := none, activeStep := 3 },
            [Effect.setActiveStep 0, Effect.extractFrames v.uri (analysisDuration v) 4,
              Effect.setActiveStep 1, Effect.setTimeout 900, Effect.setActiveStep 2,
              Effect.analyzeFrames frames "" "it", Effect.setActiveStep 3,
              Effect.setTimeout 600, Effect.setResult analysis]) := by
      simp [handleAnalysisTry, hx, hlen, ha, hp]
    rw [hdone _ _ ht]
    exact ⟨rfl, rfl⟩

theorem run_ends_settled_witness :
    clipPicked.videoAsset = some clip ∧ freeUser.passesGate
    ∧ (handleAnalysis rtExample freeUser samplerFindsNothing clipPicked).1.analyzing = false
    ∧ ((handleAnalysis rtExample freeUser samplerFindsNothing clipPicked).1.error = none
        ∨ (handleAnalysis rtExample freeUser samplerFindsNothing clipPicked).1.result
            = JsVal.null) :=
  have hgate : freeUser.passesGate := Or.inr (by decide)
  have h := run_ends_settled rtExample freeUser samplerFindsNothing clipPicked clip rfl hgate
  ⟨rfl, hgate, h.1, h.2.1⟩

end CoachScreen

namespace Sampler

/-- One `seekAndCapture` assigns `timeSec` to `video.currentTime` exactly once. -/
theorem seekAndCapture_seeks {W : Type} (env : WebEnv W) (timeSec : ℚ) (st : WebRun W) :
    (∀ st1, seekAndCapture env timeSec st = SeekOutcome.resolved st1 →
        st1.seeks = st.seeks ++ [timeSec])
    ∧ (∀ st1, seekAndCapture env timeSec st = SeekOutcome.failed st1 →
        st1.seeks = st.seeks ++ [timeSec])
    ∧ (∀ st1, seekAndCapture env timeSec st = SeekOutcome.stalled st1 →
        st1.seeks = st.seeks ++ [timeSec])
    ∧ ((∃ r w1, env.seek timeSec st.world = (SeekEvent.seeked r, w1)) →
        ∃ st1, seekAndCapture env timeSec st = SeekOutcome.resolved st1) := by
  unfold seekAndCapture
  rcases h : env.seek timeSec st.world with ⟨ev, w1⟩
  rcases ev with (_ | b) | _ | _
  · refine ⟨?_, ?_, ?_, ?_⟩
    · intro st1 h1; cases h1; rfl
    · intro st1 h1; cases h1
    · intro st1 h1; cases h1
    · intro _; exact ⟨_, rfl⟩
  · refine ⟨?_, ?_, ?_, ?_⟩
    · intro st1 h1; cases h1; rfl
    · intro st1 h1; cases h1
    · intro st1 h1; cases h1
    · intro _; exact ⟨_, rfl⟩
  · refine ⟨?_, ?_, ?_, ?_⟩
    · intro st1 h1; cases h1
    · intro st1 h1; cases h1; rfl
    · intro st1 h1; cases h1
    · rintro ⟨r, w2, h2⟩; cases h2
  · refine ⟨?_, ?_, ?_, ?_⟩
    · intro st1 h1; cases h1
    · intro st1 h1; cases h1
    · intro st1 h1; cases h1; rfl
    · rintro ⟨r, w2, h2⟩; cases h2

/-- The times the web loop seeks to are, in order, an initial segment of
`(videoDuration * ratio) / 1000` over the ratios, and all of them when every seek
completes. -/
theorem webLoop_seeks {W : Type} (env : WebEnv W) (videoDuration : ℚ) :
    ∀ (rs : List ℚ) (st : WebRun W),
      (∃ l, l <+: rs.map (fun r => (videoDuration * r) / 1000)
        ∧ (webLoop env videoDuration rs st).2.seeks = st.seeks ++ l)
      ∧ ((∀ t w, ∃ r w1, env.seek t w = (SeekEvent.seeked r, w1)) →
          (webLoop env videoDuration rs st).2.seeks
              = st.seeks ++ rs.map (fun r => (videoDuration * r) / 1000)
          ∧ ∃ frames, (webLoop env videoDuration rs st).1 = some frames) := by
  intro rs
  induction rs with
  | nil =>
    intro st
    exact ⟨⟨[], List.prefix_refl _, by simp [webLoop]⟩, fun _ => ⟨by simp [webLoop], _, rfl⟩⟩
  | cons r rs ih =>
    intro st
    obtain ⟨h1, h2, h3, h4⟩ := seekAndCapture_seeks env ((videoDuration * r) / 1000) st
    constructor
    · rcases hs : seekAndCapture env ((videoDuration * r) / 1000) st with st1 | st1 | st1
      · obtain ⟨⟨l, hl, hseeks⟩, _⟩ := ih st1
        refine ⟨((videoDuration * r) / 1000) :: l, ?_, ?_⟩
        · simpa using hl
        · simp only [webLoop, hs]
          rw [hseeks, h1 st1 hs]
          simp
      · refine ⟨[(videoDuration * r) / 1000], ?_, ?_⟩
        · simp [List.prefix_cons_inj, List.nil_prefix]
        · simp only [webLoop, hs]
          exact h2 st1 hs
      · refine ⟨[(videoDuration * r) / 1000], ?_, ?_⟩
        · simp [List.prefix_cons_inj, List.nil_prefix]
        · simp only [webLoop, hs]
          exact h3 st1 hs
    · intro hall
      obtain ⟨st1, hs⟩ := h4 (hall _ _)
      obtain ⟨_, hfull⟩ := ih st1
      obtain ⟨hseeks, frames, hres⟩ := hfull hall
      constructor
      · simp only [webLoop, hs]
        rw [hseeks, h1 st1 hs]
        simp
      · exact ⟨frames, by simp only [webLoop, hs]; exact hres⟩

/-- C27. On the web path the `duration` argument has no influence: for every video,
frame count and world, `extractFramesWeb` returns the same result and seeks to the same
times for any two duration arguments (so the 10000 ms fallback of the orchestrator does
not affect it). After `loadedmetadata` with `video.duration = d` seconds, the times it
seeks to are, in order, an initial segment of `d * 1000 * (i/(N+1)) / 1000` seconds,
`i = 1..N`, which is `d * i/(N+1)` with no floor applied, and all `N` of them when every
seek completes. -/
theorem web_ignores_duration_argument {W : Type} (env : WebEnv W) (videoUri : String)
    (N : ℕ) (w : W) (d1 d2 : ℚ) :
    extractFramesWeb env videoUri d1 N w = extractFramesWeb env videoUri d2 N w
    ∧ extractFramesWeb env videoUri d1 N w = extractFramesWeb env videoUri 10000 N w
    ∧ (∀ d w1, env.load videoUri w = (LoadEvent.loadedmetadata d, w1) →
        (extractFramesWeb env videoUri d1 N w).2.seeks
          <+: (List.range N).map (fun (k : ℕ) => d * (((k : ℚ) + 1) / ((N : ℚ) + 1)))
        ∧ ((∀ t w2, ∃ r w3, env.seek t w2 = (SeekEvent.seeked r, w3)) →
            (extractFramesWeb env videoUri d1 N w).2.seeks
              = (List.range N).map (fun (k : ℕ) => d * (((k : ℚ) + 1) / ((N : ℚ) + 1)))
            ∧ ∃ frames, (extractFramesWeb env videoUri d1 N w).1 = some frames)) := by
  refine ⟨rfl, rfl, ?_⟩
  intro d w1 hload
  have htimes : (webRatios N).map (fun r => (d * 1000 * r) / 1000)
      = (List.range N).map (fun (k : ℕ) => d * (((k : ℚ) + 1) / ((N : ℚ) + 1))) := by
    rw [webRatios_eq]
    simp only [evenRatios, List.map_map]
    apply List.map_congr_left
    intro k _
    simp only [Function.comp]
    ring
  obtain ⟨⟨l, hl, hseeks⟩, hfull⟩ := webLoop_seeks env (d * 1000) (webRatios N) ⟨[], w1, []⟩
  have hrun : extractFramesWeb env videoUri d1 N w
      = webLoop env (d * 1000) (webRatios N) ⟨[], w1, []⟩ := by
    simp [extractFramesWeb, hload]
  rw [hrun]
  constructor
  · rw [hseeks, ← htimes]
    simpa using hl
  · intro hall
    obtain ⟨hs, hres⟩ := hfull hall
    rw [hs, ← htimes]
    exact ⟨by simp, hres⟩

theorem browserOk_seeked :
    ∀ (t : ℚ) (w2 : Unit), ∃ r w3, browserOk.seek t w2 = (SeekEvent.seeked r, w3) :=
  fun _ w2 => ⟨Except.ok "AAAA", w2, rfl⟩

theorem web_ignores_duration_argument_witness :
    browserOk.load "clip.mp4" () = (LoadEvent.loadedmetadata 1, ())
    ∧ (∀ (t : ℚ) (w2 : Unit), ∃ r w3, browserOk.seek t w2 = (SeekEvent.seeked r, w3))
    ∧ (extractFramesWeb browserOk "clip.mp4" 10000 1 ()).2.seeks
        = (List.range 1).map (fun (k : ℕ) => (1 : ℚ) * (((k : ℚ) + 1) / (((1 : ℕ) : ℚ) + 1))) :=
  ⟨rfl, browserOk_seeked,
    (((web_ignores_duration_argument browserOk "clip.mp4" 1 () 10000 12000).2.2 1 () rfl).2
      browserOk_seeked).1⟩

end Sampler

namespace ProgressScreen

theorem foldl_min_le (rest : List ℤ) :
    ∀ x : ℤ, rest.foldl min x ≤ x ∧ ∀ y ∈ rest, rest.foldl min x ≤ y := by
  induction rest with
  | nil => intro x; exact ⟨le_refl x, by simp⟩
  | cons z zs ih =>
    intro x
    obtain ⟨h1, h2⟩ := ih (min x z)
    refine ⟨le_trans h1 (min_le_left x z), ?_⟩
    intro y hy
    rcases List.mem_cons.mp hy with rfl | hy
    · exact le_trans h1 (min_le_right x y)
    · exact h2 y hy

theorem le_foldl_max (rest : List ℤ) :
    ∀ x : ℤ, x ≤ rest.foldl max x ∧ ∀ y ∈ rest, y ≤ rest.foldl max x := by
  induction rest with
  | nil => intro x; exact ⟨le_refl x, by simp⟩
  | cons z zs ih =>
    intro x
    obtain ⟨h1, h2⟩ := ih (max x z)
    refine ⟨le_trans (le_max_left x z) h1, ?_⟩
    intro y hy
    rcases List.mem_cons.mp hy with rfl | hy
    · exact le_trans (le_max_right x y) h1
    · exact h2 y hy

/-- For a non-empty score list, every score lies between the two ends of the scale
shifted back by 5, and the scale spans at least 10. -/
theorem scale_bounds (scores : List ℤ) (hne : scores ≠ []) :
    10 ≤ maxScore scores - minScore scores
    ∧ ∀ score ∈ scores,
        minScore scores + 5 ≤ (score : ℚ) ∧ (score : ℚ) ≤ maxScore scores - 5 := by
  cases scores with
  | nil => exact absurd rfl hne
  | cons x rest =>
    obtain ⟨hmin1, hmin2⟩ := foldl_min_le rest x
    obtain ⟨hmax1, hmax2⟩ := le_foldl_max rest x
    have hmM : ((rest.foldl min x : ℤ) : ℚ) ≤ ((rest.foldl max x : ℤ) : ℚ) := by
      exact_mod_cast le_trans hmin1 hmax1
    refine ⟨?_, ?_⟩
    · simp only [maxScore, minScore]
      linarith
    · intro score hs
      simp only [maxScore, minScore]
      rcases List.mem_cons.mp hs with rfl | hs
      · constructor
        · have : ((rest.foldl min score : ℤ) : ℚ) ≤ (score : ℚ) := by exact_mod_cast hmin1
          linarith
        · have : (score : ℚ) ≤ ((rest.foldl max score : ℤ) : ℚ) := by exact_mod_cast hmax1
          linarith
      · constructor
        · have : ((rest.foldl min x : ℤ) : ℚ) ≤ (score : ℚ) := by
            exact_mod_cast hmin2 score hs
          linarith
        · have : (score : ℚ) ≤ ((rest.foldl max x : ℤ) : ℚ) := by
            exact_mod_cast hmax2 score hs
          linarith

/-- C28. For every non-empty list of sessions with integer scores,
`maxScore - minScore = (max score + 5) - (min score - 5)` is at least 10, so it is not
zero, the `|| 1` guard is not taken, `range` equals it and the division by `range` is not
a division by zero; and every rendered bar height
`max(((score - minScore) / range) * 180, 8)` lies in `[8, 180)`. -/
theorem chart_scale_sound (scores : List ℤ) (hne : scores ≠ []) :
    10 ≤ maxScore scores - minScore scores
    ∧ maxScore scores - minScore scores ≠ 0
    ∧ range scores = maxScore scores - minScore scores
    ∧ 10 ≤ range scores
    ∧ range scores ≠ 0
    ∧ ∀ score ∈ scores,
        8 ≤ renderedHeight scores score ∧ renderedHeight scores score < 180 := by
  obtain ⟨hspan, hin⟩ := scale_bounds scores hne
  have hne0 : maxScore scores - minScore scores ≠ 0 := by
    intro h; rw [h] at hspan; norm_num at hspan
  have hrange : range scores = maxScore scores - minScore scores := by
    simp [range, hne0]
  have hpos : 0 < range scores := by rw [hrange]; linarith
  refine ⟨hspan, hne0, hrange, by rw [hrange]; exact hspan, ne_of_gt hpos, ?_⟩
  intro score hs
  obtain ⟨hlo, hhi⟩ := hin score hs
  refine ⟨le_max_right _ _, ?_⟩
  have hfrac : ((score : ℚ) - minScore scores) / range scores < 1 := by
    rw [div_lt_one hpos, hrange]
    linarith
  have hbar : barHeight scores score < 180 := by
    unfold barHeight CHART_HEIGHT
    linarith
  unfold renderedHeight
  exact max_lt hbar (by norm_num)

theorem chart_scale_sound_witness :
    ([70, 70] : List ℤ) ≠ []
    ∧ range [70, 70] = 10
    ∧ (∀ score ∈ ([70, 70] : List ℤ),
        8 ≤ renderedHeight [70, 70] score ∧ renderedHeight [70, 70] score < 180) := by
  have h := chart_scale_sound [70, 70] (by simp)
  refine ⟨by simp, ?_, h.2.2.2.2.2⟩
  rw [h.2.2.1]
  norm_num [maxScore, minScore]

end ProgressScreen

namespace AuthScreen

open Api

theorem onData_effects (rt : Runtime) (data : Json) :
    (onData rt data).2.filter Effect.isBackend = [] := by
  unfold onData
  rcases data.getProp rt "user" with m | u
  · rfl
  · rcases data.getProp rt "token" with m | t
    · rfl
    · rfl

/-- The backend calls of a submission: one when the form is valid, none otherwise. -/
theorem handleSubmit_backend_calls (rt : Runtime) (trim : String → String) (api : AuthApi)
    (s : AuthState) :
    (formValid trim s →
        (handleSubmit rt trim api s).2.filter Effect.isBackend
          = [if s.isLogin then Effect.login (trim s.email) s.password
              else Effect.register (trim s.email) s.password])
    ∧ (¬ formValid trim s →
        (handleSubmit rt trim api s).2.filter Effect.isBackend = []
        ∧ (handleSubmit rt trim api s).2.filter Effect.isAuthSuccess = []) := by
  constructor
  · rintro ⟨he, hp, hl⟩
    have hl' : ¬ jsLength s.password < 6 := by omega
    have hnb : ¬ (trim s.email = "" ∨ trim s.password = "") := by
      rintro (h | h)
      · exact he h
      · exact hp h
    cases hlog : s.isLogin
    · rcases hset : api.register (trim s.email) s.password with msg | data
      · simp [handleSubmit, hnb, hl', hlog, hset, Effect.isBackend]
      · have hd := onData_effects rt data
        rcases hod : onData rt data with ⟨_ | msg, log⟩
        · rw [hod] at hd
          simp only at hd
          simp [handleSubmit, hnb, hl', hlog, hset, hod, List.filter_append, hd,
            Effect.isBackend]
        · rw [hod] at hd
          simp only at hd
          simp [handleSubmit, hnb, hl', hlog, hset, hod, List.filter_append, hd,
            Effect.isBackend]
    · rcases hset : api.login (trim s.email) s.password with msg | data
      · simp [handleSubmit, hnb, hl', hlog, hset, Effect.isBackend]
      · have hd := onData_effects rt data
        rcases hod : onData rt data with ⟨_ | msg, log⟩
        · rw [hod] at hd
          simp only at hd
          simp [handleSubmit, hnb, hl', hlog, hset, hod, List.filter_append, hd,
            Effect.isBackend]
        · rw [hod] at hd
          simp only at hd
          simp [handleSubmit, hnb, hl', hlog, hset, hod, List.filter_append, hd,
            Effect.isBackend]
  · intro hnv
    unfold formValid at hnv
    by_cases hblank : trim s.email = "" ∨ trim s.password = ""
    · simp [handleSubmit, hblank, Effect.isBackend, Effect.isAuthSuccess]
    · have he : trim s.email ≠ "" := fun h => hblank (Or.inl h)
      have hp : trim s.password ≠ "" := fun h => hblank (Or.inr h)
      have hl : jsLength s.password < 6 := by
        by_contra h
        exact hnv ⟨he, hp, by omega⟩
      simp [handleSubmit, hblank, hl, Effect.isBackend, Effect.isAuthSuccess]

/-- C29. `handleSubmit` contacts the backend (`login` when `isLogin`, `register`
otherwise, exactly one of them, once) if and only if the email and the password are both
non-blank after trimming and the untrimmed password has a `length` of at least 6;
otherwise neither `login` nor `register` is called and `onAuthSuccess` is not called.
When it submits, the email is sent trimmed and the password unmodified. -/
theorem submit_iff_form_valid (rt : Runtime) (trim : String → String) (api : AuthApi)
    (s : AuthState) :
    (((handleSubmit rt trim api s).2.filter Effect.isBackend).length = 1
        ↔ (trim s.email ≠ "" ∧ trim s.password ≠ "" ∧ 6 ≤ jsLength s.password))
    ∧ ((trim s.email ≠ "" ∧ trim s.password ≠ "" ∧ 6 ≤ jsLength s.password) →
        (s.isLogin = true →
          (handleSubmit rt trim api s).2.filter Effect.isBackend
            = [Effect.login (trim s.email) s.password])
        ∧ (s.isLogin = false →
          (handleSubmit rt trim api s).2.filter Effect.isBackend
            = [Effect.register (trim s.email) s.password]))
    ∧ (¬ (trim s.email ≠ "" ∧ trim s.password ≠ "" ∧ 6 ≤ jsLength s.password) →
        (handleSubmit rt trim api s).2.filter Effect.isBackend = []
        ∧ (handleSubmit rt trim api s).2.filter Effect.isAuthSuccess = []) := by
  obtain ⟨hvalid, hinvalid⟩ := handleSubmit_backend_calls rt trim api s
  refine ⟨?_, ?_, hinvalid⟩
  · constructor
    · intro h1
      by_contra hnv
      rw [(hinvalid hnv).1] at h1
      cases h1
    · intro hv
      rw [hvalid hv]
      rfl
  · intro hv
    constructor
    · intro hl
      rw [hvalid hv, hl]
      rfl
    · intro hl
      rw [hvalid hv, hl]
      rfl

theorem filledForm_valid :
    trimBlanks filledForm.email ≠ "" ∧ trimBlanks filledForm.password ≠ ""
      ∧ 6 ≤ jsLength filledForm.password := by
  refine ⟨?_, ?_, ?_⟩ <;> decide

theorem submit_iff_form_valid_witness :
    (trimBlanks filledForm.email ≠ "" ∧ trimBlanks filledForm.password ≠ ""
      ∧ 6 ≤ jsLength filledForm.password)
    ∧ filledForm.isLogin = true
    ∧ trimBlanks " kai@wave.it " = "kai@wave.it"
    ∧ (handleSubmit CoachScreen.rtExample trimBlanks backendAccepts filledForm).2.filter
          Effect.isBackend
        = [Effect.login (trimBlanks " kai@wave.it ") " secret1 "] :=
  ⟨filledForm_valid, rfl, by decide,
    ((submit_iff_form_valid CoachScreen.rtExample trimBlanks backendAccepts filledForm).2.1
      filledForm_valid).1 rfl⟩

end AuthScreen

namespace SettingsScreen

open Api

/-- Whatever the verification answers, `handleVerify` leaves every key other than `user`
as it was. -/
theorem handleVerify_keeps_other_keys (rt : Runtime)
    (verifyPaymentSession : String → Except String Json) (s : VerifyState) (st : Storage)
    (k : String) (hk : k ≠ "user") :
    (handleVerify rt verifyPaymentSession s st).2 k = st k := by
  rcases hp : s.pendingSessionId with _ | sessionId
  · simp [handleVerify, hp]
  · by_cases hid : sessionId = ""
    · simp [handleVerify, hp, hid]
    · rcases hv : verifyPaymentSession sessionId with e | updated
      · simp [handleVerify, hp, hid, hv]
      · rcases hu : optionalUser updated with _ | user
        · simp [handleVerify, hp, hid, hv, hu]
        · cases ht : (JsVal.json user).truthy
          · simp [handleVerify, hp, hid, hv, hu, ht]
          · simp [handleVerify, hp, hid, hv, hu, ht, saveUser, Storage.setItem, hk]

end SettingsScreen

namespace Api

/-- C30. With storage as a key-value map, `saveUser(user, token)` with an absent or empty
token sets the key `user` to the JSON encoding of `user` and changes no other key, the
stored `token` included, so the refresh after a payment verification
(`saveUser(updated.user, null)` in `handleVerify`) keeps the session token; with a
non-empty token it sets both `user` and `token`; no other key is ever written. -/
theorem saveUser_writes (rt : Runtime) (user : Json) (token : Option String)
    (st : Storage) :
    saveUser rt user token st "user" = some (rt.stringify user)
    ∧ (token = none ∨ token = some "" →
        saveUser rt user token st "token" = st "token"
        ∧ ∀ k, k ≠ "user" → saveUser rt user token st k = st k)
    ∧ (∀ t, token = some t → t ≠ "" → saveUser rt user token st "token" = some t)
    ∧ (∀ k, k ≠ "user" → k ≠ "token" → saveUser rt user token st k = st k)
    ∧ (∀ (verifyPaymentSession : String → Except String Json)
        (s : SettingsScreen.VerifyState),
        (SettingsScreen.handleVerify rt verifyPaymentSession s st).2 "token" = st "token") := by
  have hut : ("user" : String) ≠ "token" := by decide
  have htu : ("token" : String) ≠ "user" := by decide
  refine ⟨?_, ?_, ?_, ?_, ?_⟩
  · cases token with
    | none => simp [saveUser, Storage.setItem]
    | some t =>
      by_cases ht : t = ""
      · simp [saveUser, Storage.setItem, ht]
      · simp [saveUser, Storage.setItem, ht, hut]
  · rintro (h | h)
    · subst h
      exact ⟨by simp [saveUser, Storage.setItem, htu],
        fun k hk => by simp [saveUser, Storage.setItem, hk]⟩
    · subst h
      exact ⟨by simp [saveUser, Storage.setItem, htu],
        fun k hk => by simp [saveUser, Storage.setItem, hk]⟩
  · intro t h ht
    subst h
    simp [saveUser, Storage.setItem, ht]
  · intro k hku hkt
    cases token with
    | none => simp [saveUser, Storage.setItem, hku]
    | some t =>
      by_cases ht : t = ""
      · simp [saveUser, Storage.setItem, ht, hku]
      · simp [saveUser, Storage.setItem, ht, hku, hkt]
  · intro verifyPaymentSession s
    exact SettingsScreen.handleVerify_keeps_other_keys rt verifyPaymentSession s st "token" htu

theorem saveUser_writes_witness :
    ((none : Option String) = none ∨ (none : Option String) = some "")
    ∧ saveUser CoachScreen.rtExample (Json.obj [("tier", Json.str "premium")]) none
        SettingsScreen.signedIn "token" = some "abc"
    ∧ saveUser CoachScreen.rtExample (Json.obj [("tier", Json.str "premium")]) (some "xyz")
        SettingsScreen.signedIn "token" = some "xyz"
    ∧ (SettingsScreen.handleVerify CoachScreen.rtExample SettingsScreen.paymentConfirmed
        { pendingSessionId := some "cs_1", loadingVerify := false, verifyError := none }
        SettingsScreen.signedIn).2 "token" = some "abc" :=
  ⟨Or.inl rfl,
    ((saveUser_writes CoachScreen.rtExample (Json.obj [("tier", Json.str "premium")]) none
      SettingsScreen.signedIn).2.1 (Or.inl rfl)).1,
    (saveUser_writes CoachScreen.rtExample (Json.obj [("tier", Json.str "premium")])
      (some "xyz") SettingsScreen.signedIn).2.2.1 "xyz" rfl (by decide),
    (saveUser_writes CoachScreen.rtExample (Json.obj [("tier", Json.str "premium")]) none
      SettingsScreen.signedIn).2.2.2.2 SettingsScreen.paymentConfirmed
      { pendingSessionId := some "cs_1", loadingVerify := false, verifyError := none }⟩

end Api

namespace Sampler

/-! ### Rounding to binary64 -/

theorem roundHalfEven_near (m : ℚ) :
    ((roundHalfEven m : ℤ) : ℚ) - m ≤ 1 / 2
    ∧ m - ((roundHalfEven m : ℤ) : ℚ) ≤ 1 / 2
    ∧ Int.floor m ≤ roundHalfEven m := by
  have h1 := Int.floor_le m
  have h2 := Int.lt_floor_add_one m
  unfold roundHalfEven
  split_ifs with ha hb hc
  · exact ⟨by linarith, by linarith, le_refl _⟩
  · refine ⟨?_, ?_, by omega⟩ <;> push_cast <;> linarith
  · exact ⟨by linarith, by linarith, le_refl _⟩
  · refine ⟨?_, ?_, by omega⟩ <;> push_cast <;> linarith

theorem roundHalfEven_eq_down (m : ℚ) (f : ℤ) (hf : (f : ℚ) ≤ m) (hlt : m - (f : ℚ) < 1 / 2) :
    roundHalfEven m = f := by
  have hfl : Int.floor m = f := by
    rw [Int.floor_eq_iff]
    exact ⟨hf, by linarith⟩
  unfold roundHalfEven
  rw [hfl, if_pos hlt]

theorem roundHalfEven_eq_up (m : ℚ) (f : ℤ) (hgt : 1 / 2 < m - (f : ℚ))
    (hlt : m < (f : ℚ) + 1) : roundHalfEven m = f + 1 := by
  have hfl : Int.floor m = f := by
    rw [Int.floor_eq_iff]
    exact ⟨by linarith, hlt⟩
  unfold roundHalfEven
  rw [hfl, if_neg (not_lt.mpr (le_of_lt hgt)), if_pos hgt]

theorem log_two_eq (x : ℚ) (e : ℤ) (hx : 0 < x) (h1 : (2 : ℚ) ^ e ≤ x)
    (h2 : x < (2 : ℚ) ^ (e + 1)) : Int.log 2 x = e := by
  have hb : 1 < 2 := by norm_num
  apply le_antisymm
  · have : Int.log 2 x < e + 1 := by
      rw [← Int.lt_zpow_iff_log_lt hb hx]
      exact_mod_cast h2
    omega
  · rw [← Int.zpow_le_iff_le_log hb hx]
    exact_mod_cast h1

theorem log_two_bounds (x : ℚ) (hx : 0 < x) :
    (2 : ℚ) ^ Int.log 2 x ≤ x ∧ x < (2 : ℚ) ^ (Int.log 2 x + 1) := by
  have hb : 1 < 2 := by norm_num
  have h1 := Int.zpow_log_le_self hb hx
  have h2 := Int.lt_zpow_succ_log_self hb x
  exact ⟨by exact_mod_cast h1, by exact_mod_cast h2⟩

/-- For a positive `x` in the binade `[2 ^ e, 2 ^ (e + 1))` the double nearest to `x` is
`x / 2 ^ (e - 52)` rounded to an integer, times `2 ^ (e - 52)`. -/
theorem toDouble_of_binade (x : ℚ) (e : ℤ) (hx : 0 < x) (h1 : (2 : ℚ) ^ e ≤ x)
    (h2 : x < (2 : ℚ) ^ (e + 1)) :
    toDouble x = ((roundHalfEven (x / (2 : ℚ) ^ (e - 52)) : ℤ) : ℚ) * (2 : ℚ) ^ (e - 52) := by
  unfold toDouble
  rw [if_neg (ne_of_gt hx), if_pos hx, abs_of_pos hx, log_two_eq x e hx h1 h2, one_mul]

theorem toDouble_eq_down (x : ℚ) (e f : ℤ) (hx : 0 < x) (h1 : (2 : ℚ) ^ e ≤ x)
    (h2 : x < (2 : ℚ) ^ (e + 1)) (hf : (f : ℚ) ≤ x / (2 : ℚ) ^ (e - 52))
    (hlt : x / (2 : ℚ) ^ (e - 52) - (f : ℚ) < 1 / 2) :
    toDouble x = (f : ℚ) * (2 : ℚ) ^ (e - 52) := by
  rw [toDouble_of_binade x e hx h1 h2, roundHalfEven_eq_down _ f hf hlt]

theorem toDouble_eq_up (x : ℚ) (e f : ℤ) (hx : 0 < x) (h1 : (2 : ℚ) ^ e ≤ x)
    (h2 : x < (2 : ℚ) ^ (e + 1)) (hgt : 1 / 2 < x / (2 : ℚ) ^ (e - 52) - (f : ℚ))
    (hlt : x / (2 : ℚ) ^ (e - 52) < (f : ℚ) + 1) :
    toDouble x = ((f + 1 : ℤ) : ℚ) * (2 : ℚ) ^ (e - 52) := by
  rw [toDouble_of_binade x e hx h1 h2, roundHalfEven_eq_up _ f hgt hlt]

/-- The relative error of one rounding is at most `2 ^ (-53)`, and the rounded value of
a positive number is at least the lower end of its binade. -/
theorem toDouble_near (x : ℚ) (hx : 0 < x) :
    x * (1 - 1 / 2 ^ 53) ≤ toDouble x
    ∧ toDouble x ≤ x * (1 + 1 / 2 ^ 53)
    ∧ (2 : ℚ) ^ Int.log 2 x ≤ toDouble x := by
  obtain ⟨h1, h2⟩ := log_two_bounds x hx
  have hu : (0 : ℚ) < (2 : ℚ) ^ (Int.log 2 x - 52) := by positivity
  have hsplit : (2 : ℚ) ^ (Int.log 2 x - 52) * 2 ^ 52 = (2 : ℚ) ^ Int.log 2 x := by
    rw [zpow_sub₀ (by norm_num : (2 : ℚ) ≠ 0)]
    have : ((2 : ℚ) ^ (52 : ℤ)) = 2 ^ 52 := by norm_cast
    rw [this]
    field_simp
  rw [toDouble_of_binade x _ hx h1 h2]
  obtain ⟨hr1, hr2, hr3⟩ := roundHalfEven_near (x / (2 : ℚ) ^ (Int.log 2 x - 52))
  set u := (2 : ℚ) ^ (Int.log 2 x - 52) with hudef
  set R := ((roundHalfEven (x / u) : ℤ) : ℚ) with hRdef
  have hxu : x / u * u = x := by field_simp
  have hule : u * 2 ^ 52 ≤ x := by rw [hsplit]; exact h1
  have hup : R * u - x ≤ u / 2 := by
    have : (R - x / u) * u ≤ 1 / 2 * u := mul_le_mul_of_nonneg_right hr1 (le_of_lt hu)
    nlinarith
  have hdown : x - R * u ≤ u / 2 := by
    have : (x / u - R) * u ≤ 1 / 2 * u := mul_le_mul_of_nonneg_right hr2 (le_of_lt hu)
    nlinarith
  have hfloor : (2 : ℚ) ^ 52 ≤ R := by
    have hm : ((2 ^ 52 : ℤ) : ℚ) ≤ x / u := by
      rw [le_div_iff₀ hu]
      push_cast
      linarith
    have : (2 ^ 52 : ℤ) ≤ Int.floor (x / u) := Int.le_floor.mpr hm
    have h3 : (2 ^ 52 : ℤ) ≤ roundHalfEven (x / u) := le_trans this hr3
    have h4 : ((2 ^ 52 : ℤ) : ℚ) ≤ ((roundHalfEven (x / u) : ℤ) : ℚ) := Int.cast_le.mpr h3
    push_cast at h4
    exact h4
  refine ⟨?_, ?_, ?_⟩
  · have : u / 2 ≤ x * (1 / 2 ^ 53) := by
      have h53 : (2 : ℚ) ^ 53 = 2 ^ 52 * 2 := by norm_num
      rw [h53]
      field_simp
      linarith
    linarith
  · have : u / 2 ≤ x * (1 / 2 ^ 53) := by
      have h53 : (2 : ℚ) ^ 53 = 2 ^ 52 * 2 := by norm_num
      rw [h53]
      field_simp
      linarith
    linarith
  · rw [← hsplit]
    have := mul_le_mul_of_nonneg_right hfloor (le_of_lt hu)
    linarith

theorem toDouble_pos (x : ℚ) (hx : 0 < x) : 0 < toDouble x :=
  lt_of_lt_of_le (by positivity) (toDouble_near x hx).2.2

theorem one_le_toDouble (x : ℚ) (hx : 1 ≤ x) : 1 ≤ toDouble x := by
  have hpos : 0 < x := by linarith
  have hlog : 0 ≤ Int.log 2 x := by
    rw [← Int.zpow_le_iff_le_log (by norm_num : 1 < 2) hpos]
    simpa using hx
  have h1 : (1 : ℚ) ≤ (2 : ℚ) ^ Int.log 2 x := one_le_zpow₀ (by norm_num) hlog
  exact le_trans h1 (toDouble_near x hpos).2.2

end Sampler

namespace Sampler

theorem timeMsDouble_eval (duration ratio r p : ℚ) (t : ℤ) (hr : toDouble ratio = r)
    (hp : toDouble (duration * r) = p) (ht1 : (t : ℚ) ≤ p) (ht2 : p < (t : ℚ) + 1) :
    timeMsDouble duration ratio = t := by
  unfold timeMsDouble
  rw [hr, hp, Int.floor_eq_iff]
  exact ⟨ht1, ht2⟩

/-- In double precision `0.7` is `6305039478318694 / 2 ^ 53`, `90 * 0.7` rounds to
`8866461766385663 / 2 ^ 47 = 62.99999999999999`, and its floor is 62. -/
theorem timeMsDouble_90_7 : timeMsDouble 90 ((((6 : ℕ) : ℚ) + 1) / (((9 : ℕ) : ℚ) + 1)) = 62 := by
  have hr : toDouble ((((6 : ℕ) : ℚ) + 1) / (((9 : ℕ) : ℚ) + 1))
      = (6305039478318694 : ℤ) * (2 : ℚ) ^ ((-1 : ℤ) - 52) := by
    apply toDouble_eq_down <;> norm_num
  have hp : toDouble (90 * ((6305039478318694 : ℤ) * (2 : ℚ) ^ ((-1 : ℤ) - 52)))
      = (8866461766385663 : ℤ) * (2 : ℚ) ^ ((5 : ℤ) - 52) := by
    apply toDouble_eq_down <;> norm_num
  exact timeMsDouble_eval _ _ _ _ 62 hr hp (by norm_num) (by norm_num)

end Sampler

namespace Sampler

/-- One pass in double precision appends exactly one record, for the ratio it was given
and the timestamp `timeMsDouble duration ratio`. -/
theorem nativeBodyDouble_log {W : Type} (env : NativeEnv W) (videoUri : String)
    (duration : ℚ) (st : NativeRun W) (ratio : ℚ) :
    ∃ a : Attempt,
      (nativeBodyDouble env videoUri duration st ratio).log = st.log ++ [a]
      ∧ a.ratio = ratio
      ∧ a.timeMs = timeMsDouble duration ratio := by
  rcases h1 : env.getThumbnailAsync videoUri (timeMsDouble duration ratio) st.world
    with ⟨err | uri, w1⟩
  · exact ⟨⟨ratio, timeMsDouble duration ratio, Except.error err, none, none, some err⟩,
      by simp [nativeBodyDouble, h1]⟩
  · rcases h2 : env.readAsStringAsync uri w1 with ⟨err | base64, w2⟩
    · exact ⟨⟨ratio, timeMsDouble duration ratio, Except.ok uri, some (Except.error err),
          none, some err⟩,
        by simp [nativeBodyDouble, h1, h2]⟩
    · rcases h3 : env.deleteAsync uri w2 with ⟨err | u, w3⟩
      · exact ⟨⟨ratio, timeMsDouble duration ratio, Except.ok uri,
            some (Except.ok base64), some (Except.error err), some err⟩,
          by simp [nativeBodyDouble, h1, h2, h3]⟩
      · exact ⟨⟨ratio, timeMsDouble duration ratio, Except.ok uri,
            some (Except.ok base64), some (Except.ok u), none⟩,
          by simp [nativeBodyDouble, h1, h2, h3]⟩

theorem nativeLoopDouble_log {W : Type} (env : NativeEnv W) (videoUri : String)
    (duration : ℚ) :
    ∀ (rs : List ℚ) (st : NativeRun W),
      ((rs.foldl (nativeBodyDouble env videoUri duration) st).log.map Attempt.timeMs
          = st.log.map Attempt.timeMs ++ rs.map (timeMsDouble duration))
      ∧ ((rs.foldl (nativeBodyDouble env videoUri duration) st).log.map Attempt.ratio
          = st.log.map Attempt.ratio ++ rs) := by
  intro rs
  induction rs with
  | nil => intro st; simp
  | cons r rs ih =>
    intro st
    obtain ⟨a, hlog, hr, ht⟩ := nativeBodyDouble_log env videoUri duration st r
    obtain ⟨h1, h2⟩ := ih (nativeBodyDouble env videoUri duration st r)
    constructor
    · rw [List.foldl_cons, h1, hlog]
      simp [ht]
    · rw [List.foldl_cons, h2, hlog]
      simp [hr]

/-- The timestamps a run in double precision requests from the device, pass by pass. -/
theorem timestamps_of_double_run {W : Type} (env : NativeEnv W) (videoUri : String)
    (duration : ℚ) (N : ℕ) (w : W) :
    (extractFramesNativeDouble env videoUri duration N w).2.log.map Attempt.timeMs
      = (List.range N).map
          (fun (k : ℕ) => timeMsDouble duration (((k : ℚ) + 1) / ((N : ℚ) + 1))) := by
  have h := (nativeLoopDouble_log env videoUri duration (nativeRatios N) ⟨[], w, []⟩).1
  simp only [List.map_nil, List.nil_append] at h
  simp only [extractFramesNativeDouble]
  rw [h, nativeRatios_eq]
  simp [evenRatios, Function.comp_def]

theorem mem_timestamps_double {W : Type} (env : NativeEnv W) (videoUri : String)
    (duration : ℚ) (N : ℕ) (w : W) (t : ℤ) :
    t ∈ (extractFramesNativeDouble env videoUri duration N w).2.log.map Attempt.timeMs
      ↔ ∃ k : ℕ, k < N ∧ t = timeMsDouble duration (((k : ℚ) + 1) / ((N : ℚ) + 1)) := by
  rw [timestamps_of_double_run, List.mem_map]
  constructor
  · rintro ⟨k, hk, rfl⟩
    exact ⟨k, List.mem_range.mp hk, rfl⟩
  · rintro ⟨k, hk, rfl⟩
    exact ⟨k, List.mem_range.mpr hk, rfl⟩

/-- In double precision `12000 * 0.2` is `2400`. -/
theorem timeMsDouble_12000_1 :
    timeMsDouble 12000 ((((0 : ℕ) : ℚ) + 1) / (((4 : ℕ) : ℚ) + 1)) = 2400 := by
  have hr : toDouble ((((0 : ℕ) : ℚ) + 1) / (((4 : ℕ) : ℚ) + 1))
      = ((7205759403792793 + 1 : ℤ) : ℚ) * (2 : ℚ) ^ ((-3 : ℤ) - 52) := by
    apply toDouble_eq_up <;> norm_num
  have hp : toDouble (12000 * (((7205759403792793 + 1 : ℤ) : ℚ) * (2 : ℚ) ^ ((-3 : ℤ) - 52)))
      = (5277655813324800 : ℤ) * (2 : ℚ) ^ ((11 : ℤ) - 52) := by
    apply toDouble_eq_down <;> norm_num
  exact timeMsDouble_eval _ _ _ _ 2400 hr hp (by norm_num) (by norm_num)

/-- In double precision `12000 * 0.4` is `4800`. -/
theorem timeMsDouble_12000_2 :
    timeMsDouble 12000 ((((1 : ℕ) : ℚ) + 1) / (((4 : ℕ) : ℚ) + 1)) = 4800 := by
  have hr : toDouble ((((1 : ℕ) : ℚ) + 1) / (((4 : ℕ) : ℚ) + 1))
      = ((7205759403792793 + 1 : ℤ) : ℚ) * (2 : ℚ) ^ ((-2 : ℤ) - 52) := by
    apply toDouble_eq_up <;> norm_num
  have hp : toDouble (12000 * (((7205759403792793 + 1 : ℤ) : ℚ) * (2 : ℚ) ^ ((-2 : ℤ) - 52)))
      = (5277655813324800 : ℤ) * (2 : ℚ) ^ ((12 : ℤ) - 52) := by
    apply toDouble_eq_down <;> norm_num
  exact timeMsDouble_eval _ _ _ _ 4800 hr hp (by norm_num) (by norm_num)

/-- In double precision `12000 * 0.6` rounds up to `7200`. -/
theorem timeMsDouble_12000_3 :
    timeMsDouble 12000 ((((2 : ℕ) : ℚ) + 1) / (((4 : ℕ) : ℚ) + 1)) = 7200 := by
  have hr : toDouble ((((2 : ℕ) : ℚ) + 1) / (((4 : ℕ) : ℚ) + 1))
      = (5404319552844595 : ℤ) * (2 : ℚ) ^ ((-1 : ℤ) - 52) := by
    apply toDouble_eq_down <;> norm_num
  have hp : toDouble (12000 * ((5404319552844595 : ℤ) * (2 : ℚ) ^ ((-1 : ℤ) - 52)))
      = ((7916483719987199 + 1 : ℤ) : ℚ) * (2 : ℚ) ^ ((12 : ℤ) - 52) := by
    apply toDouble_eq_up <;> norm_num
  exact timeMsDouble_eval _ _ _ _ 7200 hr hp (by norm_num) (by norm_num)

/-- In double precision `12000 * 0.8` is `9600`. -/
theorem timeMsDouble_12000_4 :
    timeMsDouble 12000 ((((3 : ℕ) : ℚ) + 1) / (((4 : ℕ) : ℚ) + 1)) = 9600 := by
  have hr : toDouble ((((3 : ℕ) : ℚ) + 1) / (((4 : ℕ) : ℚ) + 1))
      = ((7205759403792793 + 1 : ℤ) : ℚ) * (2 : ℚ) ^ ((-1 : ℤ) - 52) := by
    apply toDouble_eq_up <;> norm_num
  have hp : toDouble (12000 * (((7205759403792793 + 1 : ℤ) : ℚ) * (2 : ℚ) ^ ((-1 : ℤ) - 52)))
      = (5277655813324800 : ℤ) * (2 : ℚ) ^ ((13 : ℤ) - 52) := by
    apply toDouble_eq_down <;> norm_num
  exact timeMsDouble_eval _ _ _ _ 9600 hr hp (by norm_num) (by norm_num)

/-- In double precision `1 * 0.5` is `0.5`, with floor 0. -/
theorem timeMsDouble_1_1 :
    timeMsDouble 1 ((((0 : ℕ) : ℚ) + 1) / (((1 : ℕ) : ℚ) + 1)) = 0 := by
  have hr : toDouble ((((0 : ℕ) : ℚ) + 1) / (((1 : ℕ) : ℚ) + 1))
      = (4503599627370496 : ℤ) * (2 : ℚ) ^ ((-1 : ℤ) - 52) := by
    apply toDouble_eq_down <;> norm_num
  have hp : toDouble (1 * ((4503599627370496 : ℤ) * (2 : ℚ) ^ ((-1 : ℤ) - 52)))
      = (4503599627370496 : ℤ) * (2 : ℚ) ^ ((-1 : ℤ) - 52) := by
    apply toDouble_eq_down <;> norm_num
  exact timeMsDouble_eval _ _ _ _ 0 hr hp (by norm_num) (by norm_num)

/-- In double precision `1 / 49` is `5882252574524729 / 2 ^ 58`, and `49` times it
rounds to `9007199254740991 / 2 ^ 53 = 0.9999999999999999`, with floor 0. -/
theorem timeMsDouble_49_1 :
    timeMsDouble 49 ((((0 : ℕ) : ℚ) + 1) / (((48 : ℕ) : ℚ) + 1)) = 0 := by
  have hr : toDouble ((((0 : ℕ) : ℚ) + 1) / (((48 : ℕ) : ℚ) + 1))
      = (5882252574524729 : ℤ) * (2 : ℚ) ^ ((-6 : ℤ) - 52) := by
    apply toDouble_eq_down <;> norm_num
  have hp : toDouble (49 * ((5882252574524729 : ℤ) * (2 : ℚ) ^ ((-6 : ℤ) - 52)))
      = (9007199254740991 : ℤ) * (2 : ℚ) ^ ((-1 : ℤ) - 52) := by
    apply toDouble_eq_down <;> norm_num
  exact timeMsDouble_eval _ _ _ _ 0 hr hp (by norm_num) (by norm_num)

end Sampler

namespace Sampler

/-- For an integer duration `D ≥ 0` with `D * N < 2 ^ 51`, the timestamp computed in
double precision for the ratio `(k + 1) / (N + 1)`, `k < N`, is the exact quotient
`D * (k + 1) / (N + 1)` or one less. -/
theorem timeMsDouble_within_one (D : ℤ) (N k : ℕ) (hD : 0 ≤ D) (hk : k < N)
    (hb : D * (N : ℤ) < 2 ^ 51) :
    D * ((k : ℤ) + 1) / ((N : ℤ) + 1) - 1
        ≤ timeMsDouble (D : ℚ) (((k : ℚ) + 1) / ((N : ℚ) + 1))
    ∧ timeMsDouble (D : ℚ) (((k : ℚ) + 1) / ((N : ℚ) + 1))
        ≤ D * ((k : ℤ) + 1) / ((N : ℤ) + 1) := by
  have hbpos : (0 : ℚ) < (N : ℚ) + 1 := by positivity
  have hrpos : (0 : ℚ) < ((k : ℚ) + 1) / ((N : ℚ) + 1) := by positivity
  obtain ⟨hr1, hr2, _⟩ := toDouble_near _ hrpos
  set r := ((k : ℚ) + 1) / ((N : ℚ) + 1) with hrdef
  set q := D * ((k : ℤ) + 1) / ((N : ℤ) + 1) with hqdef
  -- the exact quotient brackets the exact product
  have hbz : (0 : ℤ) < (N : ℤ) + 1 := by positivity
  have hq1z : q * ((N : ℤ) + 1) ≤ D * ((k : ℤ) + 1) := Int.ediv_mul_le _ (ne_of_gt hbz)
  have hq2z : D * ((k : ℤ) + 1) + 1 ≤ (q + 1) * ((N : ℤ) + 1) := by
    have h := Int.lt_ediv_add_one_mul_self (D * ((k : ℤ) + 1)) hbz
    rw [← hqdef] at h
    exact Int.add_one_le_of_lt h
  have hq1 : (q : ℚ) * ((N : ℚ) + 1) ≤ (D : ℚ) * ((k : ℚ) + 1) := by exact_mod_cast hq1z
  have hq2 : (D : ℚ) * ((k : ℚ) + 1) + 1 ≤ ((q : ℚ) + 1) * ((N : ℚ) + 1) := by
    exact_mod_cast hq2z
  have hXb : (D : ℚ) * r * ((N : ℚ) + 1) = (D : ℚ) * ((k : ℚ) + 1) := by
    rw [hrdef]; field_simp
  have haz : D * ((k : ℤ) + 1) < 2 ^ 51 := by
    have hk' : (k : ℤ) + 1 ≤ (N : ℤ) := by exact_mod_cast hk
    calc D * ((k : ℤ) + 1) ≤ D * (N : ℤ) := Int.mul_le_mul_of_nonneg_left hk' hD
      _ < 2 ^ 51 := hb
  have ha : (D : ℚ) * ((k : ℚ) + 1) < 2 ^ 51 := by exact_mod_cast haz
  have hDq : (0 : ℚ) ≤ (D : ℚ) := by exact_mod_cast hD
  have ha0 : (0 : ℚ) ≤ (D : ℚ) * ((k : ℚ) + 1) := by positivity
  by_cases hD0 : D = 0
  · have hq0 : q = 0 := by rw [hqdef, hD0]; simp
    have ht : timeMsDouble ((D : ℤ) : ℚ) r = 0 := by
      unfold timeMsDouble
      rw [hD0]
      simp [toDouble]
    rw [ht, hq0]
    omega
  · have hD1 : (0 : ℚ) < (D : ℚ) := by
      have : 0 < D := lt_of_le_of_ne hD (Ne.symm hD0)
      exact_mod_cast this
    have hrhat : 0 < toDouble r := toDouble_pos r hrpos
    have hppos : 0 < (D : ℚ) * toDouble r := mul_pos hD1 hrhat
    obtain ⟨hp1, hp2, _⟩ := toDouble_near _ hppos
    -- the product before the second rounding
    have hP1 : (D : ℚ) * r * (1 - 1 / 2 ^ 53) ≤ (D : ℚ) * toDouble r := by
      have := mul_le_mul_of_nonneg_left hr1 hDq
      linarith
    have hP2 : (D : ℚ) * toDouble r ≤ (D : ℚ) * r * (1 + 1 / 2 ^ 53) := by
      have := mul_le_mul_of_nonneg_left hr2 hDq
      linarith
    have hε1 : (0 : ℚ) ≤ 1 - 1 / 2 ^ 53 := by norm_num
    have hε2 : (0 : ℚ) ≤ 1 + 1 / 2 ^ 53 := by norm_num
    -- after the second rounding
    have hlow : (D : ℚ) * r * ((1 - 1 / 2 ^ 53) * (1 - 1 / 2 ^ 53))
        ≤ toDouble ((D : ℚ) * toDouble r) := by
      have := mul_le_mul_of_nonneg_right hP1 hε1
      linarith
    have hhigh : toDouble ((D : ℚ) * toDouble r)
        ≤ (D : ℚ) * r * ((1 + 1 / 2 ^ 53) * (1 + 1 / 2 ^ 53)) := by
      have := mul_le_mul_of_nonneg_right hP2 hε2
      linarith
    have hX0 : (0 : ℚ) ≤ (D : ℚ) * r := by positivity
    have hXa : (D : ℚ) * r ≤ (D : ℚ) * ((k : ℚ) + 1) := by
      have h1 : (1 : ℚ) ≤ (N : ℚ) + 1 := by
        have : (0 : ℚ) ≤ (N : ℚ) := by positivity
        linarith
      have := mul_le_mul_of_nonneg_left h1 hX0
      linarith
    have hXq : (q : ℚ) ≤ (D : ℚ) * r := by
      have h := hq1
      rw [← hXb] at h
      exact le_of_mul_le_mul_right h hbpos
    constructor
    · -- lower bound
      unfold timeMsDouble
      rw [Int.le_floor]
      push_cast
      have hc : (D : ℚ) * r * ((1 - 1 / 2 ^ 53) * (1 - 1 / 2 ^ 53))
          = (D : ℚ) * r - (D : ℚ) * r * (2 / 2 ^ 53 - 1 / 2 ^ 53 * (1 / 2 ^ 53)) := by ring
      have hd : (D : ℚ) * r * (2 / 2 ^ 53 - 1 / 2 ^ 53 * (1 / 2 ^ 53)) ≤ 1 := by
        have h1 : (D : ℚ) * r * (2 / 2 ^ 53 - 1 / 2 ^ 53 * (1 / 2 ^ 53))
            ≤ 2 ^ 51 * (2 / 2 ^ 53 - 1 / 2 ^ 53 * (1 / 2 ^ 53)) :=
          mul_le_mul_of_nonneg_right (le_of_lt (lt_of_le_of_lt hXa ha)) (by norm_num)
        have h2 : (2 : ℚ) ^ 51 * (2 / 2 ^ 53 - 1 / 2 ^ 53 * (1 / 2 ^ 53)) ≤ 1 := by norm_num
        linarith
      linarith
    · -- upper bound
      unfold timeMsDouble
      have hlt : toDouble ((D : ℚ) * toDouble r) < ((q + 1 : ℤ) : ℚ) := by
        push_cast
        have hc : (D : ℚ) * r * ((1 + 1 / 2 ^ 53) * (1 + 1 / 2 ^ 53)) * ((N : ℚ) + 1)
            = (D : ℚ) * ((k : ℚ) + 1)
              + (D : ℚ) * ((k : ℚ) + 1) * (2 / 2 ^ 53 + 1 / 2 ^ 53 * (1 / 2 ^ 53)) := by
          rw [← hXb]; ring
        have hd : (D : ℚ) * ((k : ℚ) + 1) * (2 / 2 ^ 53 + 1 / 2 ^ 53 * (1 / 2 ^ 53)) < 1 := by
          have h1 : (D : ℚ) * ((k : ℚ) + 1) * (2 / 2 ^ 53 + 1 / 2 ^ 53 * (1 / 2 ^ 53))
              ≤ 2 ^ 51 * (2 / 2 ^ 53 + 1 / 2 ^ 53 * (1 / 2 ^ 53)) :=
            mul_le_mul_of_nonneg_right (le_of_lt ha) (by norm_num)
          have h2 : (2 : ℚ) ^ 51 * (2 / 2 ^ 53 + 1 / 2 ^ 53 * (1 / 2 ^ 53)) < 1 := by norm_num
          linarith
        have hmul : toDouble ((D : ℚ) * toDouble r) * ((N : ℚ) + 1)
            < ((q : ℚ) + 1) * ((N : ℚ) + 1) := by
          have := mul_le_mul_of_nonneg_right hhigh (le_of_lt hbpos)
          linarith
        exact lt_of_mul_lt_mul_right hmul (le_of_lt hbpos)
      have := Int.floor_lt.mpr hlt
      omega

/-- In double precision a timestamp is never negative for a positive duration, and it is
positive once the duration is at least `N + 2` milliseconds (`N + 2 ≤ 2 ^ 53`). -/
theorem timeMsDouble_sign (D : ℚ) (N k : ℕ) (hD : 0 < D) :
    0 ≤ timeMsDouble D (((k : ℚ) + 1) / ((N : ℚ) + 1))
    ∧ ((N : ℚ) + 2 ≤ D → (N : ℚ) + 2 ≤ 2 ^ 53 →
        0 < timeMsDouble D (((k : ℚ) + 1) / ((N : ℚ) + 1))) := by
  have hbpos : (0 : ℚ) < (N : ℚ) + 1 := by positivity
  have hrpos : (0 : ℚ) < ((k : ℚ) + 1) / ((N : ℚ) + 1) := by positivity
  have hrhat := toDouble_pos _ hrpos
  have hppos : 0 < D * toDouble (((k : ℚ) + 1) / ((N : ℚ) + 1)) := mul_pos hD hrhat
  constructor
  · unfold timeMsDouble
    rw [Int.floor_nonneg]
    exact le_of_lt (toDouble_pos _ hppos)
  · intro hge hN
    unfold timeMsDouble
    rw [Int.floor_pos]
    apply one_le_toDouble
    obtain ⟨hr1, _, _⟩ := toDouble_near _ hrpos
    have hrlow : 1 / ((N : ℚ) + 1) ≤ ((k : ℚ) + 1) / ((N : ℚ) + 1) := by
      apply div_le_div_of_nonneg_right _ (le_of_lt hbpos)
      have : (0 : ℚ) ≤ (k : ℚ) := by positivity
      linarith
    have hε : (0 : ℚ) ≤ 1 - 1 / 2 ^ 53 := by norm_num
    have h1 : 1 / ((N : ℚ) + 1) * (1 - 1 / 2 ^ 53)
        ≤ toDouble (((k : ℚ) + 1) / ((N : ℚ) + 1)) :=
      le_trans (mul_le_mul_of_nonneg_right hrlow hε) hr1
    have h2 : ((N : ℚ) + 2) * (1 / ((N : ℚ) + 1) * (1 - 1 / 2 ^ 53))
        ≤ D * toDouble (((k : ℚ) + 1) / ((N : ℚ) + 1)) :=
      mul_le_mul hge h1 (by positivity) (le_of_lt hD)
    have h3 : 1 ≤ ((N : ℚ) + 2) * (1 / ((N : ℚ) + 1) * (1 - 1 / 2 ^ 53)) := by
      have hkey : (N : ℚ) + 1 ≤ ((N : ℚ) + 2) * (1 - 1 / 2 ^ 53) := by
        have : ((N : ℚ) + 2) * (1 / 2 ^ 53) ≤ 2 ^ 53 * (1 / 2 ^ 53) :=
          mul_le_mul_of_nonneg_right hN (by norm_num)
        have h53 : (2 : ℚ) ^ 53 * (1 / 2 ^ 53) = 1 := by norm_num
        linarith
      have : ((N : ℚ) + 2) * (1 / ((N : ℚ) + 1) * (1 - 1 / 2 ^ 53))
          = ((N : ℚ) + 2) * (1 - 1 / 2 ^ 53) / ((N : ℚ) + 1) := by ring
      rw [this, le_div_iff₀ hbpos]
      linarith
    exact le_trans h3 h2

end Sampler

namespace Sampler

/-- C11, as stated, fails: for `frameCount = 9` and the integer duration 90 ms the 7th
timestamp passed to the device is 62, because the engine computes `90 * 0.7` in double
precision as `62.99999999999999`; in exact arithmetic `floor(90 * 7/10)` is 63. -/
theorem seventh_timestamp_of_ninety :
    (1 : ℕ) ≤ 9
    ∧ ((extractFramesNativeDouble deviceOk "clip.mp4" ((90 : ℤ) : ℚ) 9 ()).2.log.map
        Attempt.timeMs)[6]? = some 62
    ∧ Int.floor (((90 : ℤ) : ℚ) * ((7 : ℚ) / (((9 : ℕ) : ℚ) + 1))) = 63
    ∧ (62 : ℤ) ≠ 63 := by
  refine ⟨by decide, ?_, ?_, by decide⟩
  · rw [timestamps_of_double_run]
    simp only [List.getElem?_map, List.getElem?_range (by decide : 6 < 9), Option.map_some']
    have h := timeMsDouble_90_7
    push_cast at h ⊢
    rw [h]
  · rw [Int.floor_eq_iff]
    constructor <;> norm_num

/-- C11, amended. For every `frameCount = N ≥ 1` and integer duration `D ≥ 0` in
milliseconds with `D * N < 2 ^ 51`, the timestamps passed to the device are, in order,
the floors of the double-precision products of `D` and the doubles nearest to `i/(N+1)`,
`i = 1..N`; the `i`-th one is `floor(D * i/(N+1))` of exact arithmetic or one less; and
for `N = 4`, `D = 12000` the ratios are `[1/5, 2/5, 3/5, 4/5]` and the timestamps are
exactly `[2400, 4800, 7200, 9600]`. -/
theorem timestamps_in_double_precision {W : Type} (env : NativeEnv W) (videoUri : String)
    (D : ℤ) (N : ℕ) (w : W) (_hN : 1 ≤ N) (hD : 0 ≤ D) (hb : D * (N : ℤ) < 2 ^ 51) :
    (extractFramesNativeDouble env videoUri (D : ℚ) N w).2.log.map Attempt.timeMs
        = (List.range N).map
            (fun (k : ℕ) =>
              Int.floor (toDouble ((D : ℚ) * toDouble (((k : ℚ) + 1) / ((N : ℚ) + 1)))))
    ∧ (∀ i : ℕ, 1 ≤ i → i ≤ N →
        ∃ t : ℤ,
          ((extractFramesNativeDouble env videoUri (D : ℚ) N w).2.log.map
              Attempt.timeMs)[i - 1]? = some t
          ∧ D * (i : ℤ) / ((N : ℤ) + 1) - 1 ≤ t
          ∧ t ≤ D * (i : ℤ) / ((N : ℤ) + 1))
    ∧ nativeRatios 4 = [1 / 5, 2 / 5, 3 / 5, 4 / 5]
    ∧ (extractFramesNativeDouble env videoUri ((12000 : ℤ) : ℚ) 4 w).2.log.map
          Attempt.timeMs
        = [2400, 4800, 7200, 9600] := by
  refine ⟨?_, ?_, ?_, ?_⟩
  · rw [timestamps_of_double_run]
    rfl
  · intro i h1 hi
    have hk : i - 1 < N := by omega
    refine ⟨timeMsDouble (D : ℚ) ((((i - 1 : ℕ) : ℚ) + 1) / ((N : ℚ) + 1)), ?_, ?_⟩
    · rw [timestamps_of_double_run]
      simp only [List.getElem?_map, List.getElem?_range hk, Option.map_some']
    · have hcast : (((i - 1 : ℕ) : ℤ) + 1) = (i : ℤ) := by omega
      have h := timeMsDouble_within_one D N (i - 1) hD hk hb
      rw [hcast] at h
      exact h
  · rw [nativeRatios_eq]; norm_num [evenRatios, List.range_succ]
  · rw [timestamps_of_double_run]
    have h1 := timeMsDouble_12000_1
    have h2 := timeMsDouble_12000_2
    have h3 := timeMsDouble_12000_3
    have h4 := timeMsDouble_12000_4
    push_cast at h1 h2 h3 h4
    simp only [List.range_succ, List.range_zero, List.nil_append, List.cons_append,
      List.map_cons, List.map_nil]
    push_cast
    rw [h1, h2, h3, h4]

theorem timestamps_in_double_precision_witness :
    (1 : ℕ) ≤ 4 ∧ (0 : ℤ) ≤ 12000 ∧ (12000 : ℤ) * ((4 : ℕ) : ℤ) < 2 ^ 51
    ∧ (extractFramesNativeDouble deviceOk "clip.mp4" ((12000 : ℤ) : ℚ) 4 ()).2.log.map
          Attempt.timeMs
        = [2400, 4800, 7200, 9600] :=
  ⟨by decide, by decide, by decide,
    (timestamps_in_double_precision deviceOk "clip.mp4" 12000 4 () (by decide) (by decide)
      (by decide)).2.2.2⟩

/-- C13, as stated, fails: for `frameCount = 1` and a duration of 1 ms (both within the
claim's range) the single timestamp passed to the device is `floor(1 * 0.5) = 0`, the
very first instant of the video; and for `frameCount = 48` and a duration of 49 ms the
first timestamp is 0 as well, because `49 * (1/49)` is `0.9999999999999999` in double
precision. -/
theorem first_instant_sampled_for_short_video :
    (1 : ℕ) ≤ 1 ∧ (0 : ℚ) < 1
    ∧ (extractFramesNativeDouble deviceOk "clip.mp4" 1 1 ()).2.log.map Attempt.timeMs = [0]
    ∧ (0 : ℤ) ∈ (extractFramesNativeDouble deviceOk "clip.mp4" 1 1 ()).2.log.map
        Attempt.timeMs
    ∧ ((extractFramesNativeDouble deviceOk "clip.mp4" 49 48 ()).2.log.map
        Attempt.timeMs)[0]? = some 0 := by
  have h : (extractFramesNativeDouble deviceOk "clip.mp4" 1 1 ()).2.log.map Attempt.timeMs
      = [0] := by
    rw [timestamps_of_double_run]
    have h1 := timeMsDouble_1_1
    simp only [List.range_succ, List.range_zero, List.nil_append, List.map_cons, List.map_nil]
    rw [h1]
  refine ⟨le_refl 1, by norm_num, h, ?_, ?_⟩
  · rw [h]; simp
  · rw [timestamps_of_double_run]
    simp only [List.getElem?_map, List.getElem?_range (by decide : 0 < 48), Option.map_some']
    rw [timeMsDouble_49_1]

/-- C13, amended. For every `frameCount = N ≥ 1` and every duration `D > 0`, every
timestamp passed to the device is at least 0, and all of them are strictly greater than
0 whenever `D ≥ N + 2` milliseconds (for `N + 2 ≤ 2 ^ 53`). -/
theorem first_instant_skipped_from {W : Type} (env : NativeEnv W) (videoUri : String)
    (D : ℚ) (N : ℕ) (w : W) (_hN : 1 ≤ N) (hD : 0 < D) :
    (∀ t ∈ (extractFramesNativeDouble env videoUri D N w).2.log.map Attempt.timeMs, 0 ≤ t)
    ∧ ((N : ℚ) + 2 ≤ D → (N : ℚ) + 2 ≤ 2 ^ 53 →
        ∀ t ∈ (extractFramesNativeDouble env videoUri D N w).2.log.map Attempt.timeMs,
          0 < t) := by
  constructor
  · intro t ht
    obtain ⟨k, _, rfl⟩ := (mem_timestamps_double env videoUri D N w t).mp ht
    exact (timeMsDouble_sign D N k hD).1
  · intro hge hN t ht
    obtain ⟨k, _, rfl⟩ := (mem_timestamps_double env videoUri D N w t).mp ht
    exact (timeMsDouble_sign D N k hD).2 hge hN

theorem first_instant_skipped_from_witness :
    (1 : ℕ) ≤ 4 ∧ (0 : ℚ) < 12000 ∧ (((4 : ℕ) : ℚ) + 2 ≤ 12000)
    ∧ (∀ t ∈ (extractFramesNativeDouble deviceOk "clip.mp4" 12000 4 ()).2.log.map
          Attempt.timeMs, 0 < t) :=
  ⟨by decide, by norm_num, by norm_num,
    (first_instant_skipped_from deviceOk "clip.mp4" 12000 4 () (by decide) (by norm_num)).2
      (by norm_num) (by norm_num)⟩

end Sampler
